import Mathlib

/-!
RailwayAnalysis: aggregation and forecasting core.

A shallow embedding of the analytics code of the repository
(`datamanager.cpp`, `analysisengine.cpp`, `predictionmodel.cpp`) together with
theorems about it.

Modelling conventions.

* `int` is modelled by `Int`.  Sums and differences of `int` values are taken without
  overflow.  The `int` products that are accumulated into a `double` (`x[i] * y[i]` in
  `calculateCorrelation`, `absError * absError` in `evaluateModel`) are computed in
  32 bits before they are widened; they are modelled by `intMul`, the product wrapped
  to the range of a 32-bit two's-complement `int`, which is what the compiled code
  computes when the product does not fit.
* `double` is modelled by exact arithmetic: by `ℚ` in the aggregation layer
  (sums, quotients and rounding only) and by `ℝ` in the correlation and
  forecasting code, where square roots are taken.  Two places depart from it.
  The value NaN, which `std::sqrt` returns for a negative argument, is modelled by
  `none` in an `Option ℝ`.  The statements of the forecast loop that multiply
  `basePrediction` by the weekday/weekend multiplier, the random factor and the growth
  factor feed `static_cast<int>`, whose result depends on the last bit: there every
  operation is rounded to the nearest `double` (`roundToDouble`); the inputs of these
  statements (base level, trend, seasonal values) are taken as exact real numbers.
* `QString` is modelled by `String`, `QVector` by `List`, and `QMap` by an
  association list kept in strictly ascending key order (the iteration order of
  a `QMap`).
* Pointers held by the store are never null (the loaders only append freshly
  allocated objects), so the `if (!flow) continue;` guards never fire and
  records are modelled by values.
* `std::sort` is not stable; it is modelled by an arbitrary function returning
  a sorted permutation of its input (`StdSort`).
* `std::rand()` is modelled by the stream of values its successive calls return, and
  `QRandomGenerator::global()->bounded(20)` by the stream of its draws.
* Undefined behaviour (integer remainder by zero, an index outside a `QVector`) is
  modelled by the result `none`.
-/

namespace RailwayAnalysis

/-! ## Qt value types -/

/-- A `QDate` is a Julian day number (`qint64 jd`); comparison of dates is
comparison of Julian day numbers. -/
abbrev QDate := Int

/-- The Julian day number of the null date (`std::numeric_limits<qint64>::min()`). -/
def QDate.nullJd : QDate := -9223372036854775808

/-- Smallest valid Julian day number. -/
def QDate.minJd : Int := -784350574879

/-- Largest valid Julian day number. -/
def QDate.maxJd : Int := 784354017364

/-- Validity test `QDate::isValid()`. -/
def QDate.isValid (d : QDate) : Bool := decide (QDate.minJd ≤ d) && decide (d ≤ QDate.maxJd)

/-- Day arithmetic `QDate::addDays(n)`: an invalid date gives the null date, and so does
a result outside the valid range. -/
def QDate.addDays (d : QDate) (n : Int) : QDate :=
  if ¬ QDate.isValid d then QDate.nullJd
  else if QDate.isValid (d + n) then d + n else QDate.nullJd

/-- Weekday number `QDate::dayOfWeek()`: 1 = Monday .. 7 = Sunday, 0 for an invalid date. -/
def QDate.dayOfWeek (d : QDate) : Int :=
  if QDate.isValid d then d % 7 + 1 else 0

/-- Decimal digits of `n`, padded with zeros on the left to at least `width` characters. -/
def padZero (width n : Nat) : String :=
  String.mk (List.replicate (width - (toString n).length) '0') ++ toString n

/-- Formatting `QDate::toString("yyyy-MM-dd")`: the Gregorian calendar date of the Julian
day (there is no year 0; a negative year is printed with a minus sign), and the empty
string for an invalid date. -/
def QDate.toString (jd : QDate) : String :=
  if QDate.isValid jd then
    let a : Int := jd + 32044
    let b : Int := (4 * a + 3) / 146097
    let c : Int := a - (146097 * b) / 4
    let d : Int := (4 * c + 3) / 1461
    let e : Int := c - (1461 * d) / 4
    let m : Int := (5 * e + 2) / 153
    let y : Int := 100 * b + d - 4800 + m / 10
    let year : Int := if y > 0 then y else y - 1
    let month : Int := m + 3 - 12 * (m / 10)
    let day : Int := e - (153 * m + 2) / 5 + 1
    (if year < 0 then "-" else "") ++ padZero 4 year.natAbs ++ "-" ++
      padZero 2 month.toNat ++ "-" ++ padZero 2 day.toNat
  else ""

/-- A `QTime` is a number of milliseconds since midnight (`int mds`), `-1` when null. -/
abbrev QTime := Int

/-- Validity test `QTime::isValid()`. -/
def QTime.isValid (t : QTime) : Bool := decide (0 ≤ t) && decide (t < 86400000)

/-- Constructor `QTime(h, m)`: the null time when the arguments are out of range. -/
def QTime.mk (h m : Int) : QTime :=
  if 0 ≤ h ∧ h < 24 ∧ 0 ≤ m ∧ m < 60 then (h * 3600 + m * 60) * 1000 else -1

/-- Hour accessor `QTime::hour()`: `-1` for an invalid time. -/
def QTime.hour (t : QTime) : Int :=
  if QTime.isValid t then t / 3600000 else -1

/-! ## QMap -/

/-- A `QMap<K, V>`: the list of its entries in iteration order (ascending keys). -/
abbrev QMap (K V : Type) := List (K × V)

/-- The expression `m[k] = f(m[k])`: `operator[]` inserts a default-constructed value
`dflt` when the key is absent, then the value is replaced by its image under `f`. -/
def QMap.update {K V : Type} [LinearOrder K] [DecidableEq K] (m : QMap K V) (k : K) (dflt : V)
    (f : V → V) : QMap K V :=
  match m with
  | [] => [(k, f dflt)]
  | (k', v) :: rest =>
    if k = k' then (k', f v) :: rest
    else if k < k' then (k, f dflt) :: (k', v) :: rest
    else (k', v) :: QMap.update rest k dflt f

/-- Lookup `m.value(k, nullptr)` in a map of pointers; `none` stands for `nullptr`. -/
def QMap.lookup {K V : Type} [DecidableEq K] (m : QMap K V) (k : K) : Option V :=
  match m with
  | [] => none
  | (k', v) :: rest => if k = k' then some v else QMap.lookup rest k

/-! ## std::sort -/

/-- A comparator is a strict weak ordering (the precondition of `std::sort`):
asymmetric and negatively transitive. -/
structure StrictWeakOrder {α : Type} (comp : α → α → Bool) : Prop where
  asymm : ∀ a b, comp a b = true → comp b a = false
  negTrans : ∀ a b c, comp a c = true → comp a b = true ∨ comp b c = true

/-- An implementation of `std::sort`: for every comparator the result is a permutation
of the input, and for a strict weak ordering no element is followed by one that the
comparator places strictly before it.  The relative order of equivalent elements is
left unspecified. -/
structure StdSort where
  /-- The sorting function. -/
  sort : {α : Type} → (α → α → Bool) → List α → List α
  /-- The result is a permutation of the input. -/
  perm : ∀ {α : Type} (comp : α → α → Bool) (l : List α), List.Perm (sort comp l) l
  /-- The result is ordered by the comparator. -/
  sorted : ∀ {α : Type} (comp : α → α → Bool) (l : List α), StrictWeakOrder comp →
    List.Pairwise (fun a b => comp b a = false) (sort comp l)

/-- Insertion sort is one admissible behaviour of `std::sort`. -/
def insertionStdSort : StdSort where
  sort := fun {α} comp l => List.insertionSort (fun (a b : α) => comp b a = false) l
  perm := fun {α} comp l => List.perm_insertionSort (fun (a b : α) => comp b a = false) l
  sorted := fun {α} comp l h => by
    haveI : IsTotal α (fun (a b : α) => comp b a = false) := ⟨fun a b => by
      cases hab : comp a b
      · exact Or.inr rfl
      · exact Or.inl (h.asymm a b hab)⟩
    haveI : IsTrans α (fun (a b : α) => comp b a = false) := ⟨fun a b c hab hbc => by
      cases hca : comp c a
      · rfl
      · rcases h.negTrans c b a hca with h1 | h1
        · rw [hbc] at h1; cases h1
        · rw [hab] at h1; cases h1⟩
    exact List.sorted_insertionSort (fun (a b : α) => comp b a = false) l

/-! ## Data model -/

/-- Class `Station` (station.h). -/
structure Station where
  m_id : Int
  m_name : String
  m_code : String
  m_shortName : String
  m_telecode : String
  deriving DecidableEq, Repr

/-- Class `Train` (train.h). -/
structure Train where
  m_code : String
  m_trainCode : String
  m_capacity : Int
  deriving DecidableEq, Repr

/-- Class `PassengerFlow` (passengerflow.h). -/
structure PassengerFlow where
  m_lineCode : String
  m_trainCode : String
  m_stationId : Int
  m_date : QDate
  m_arrivalTime : QTime
  m_departureTime : QTime
  m_boardingPassengers : Int
  m_alightingPassengers : Int
  m_ticketType : String
  m_ticketPrice : ℚ
  m_revenue : ℚ
  m_startStation : String
  m_endStation : String
  deriving DecidableEq

namespace PassengerFlow

/-- Getter `getTotalPassengers`. -/
def getTotalPassengers (f : PassengerFlow) : Int :=
  f.m_boardingPassengers + f.m_alightingPassengers

/-- Getter `getHour`. -/
def getHour (f : PassengerFlow) : Int := QTime.hour f.m_departureTime

/-- Getter `getDayOfWeek`. -/
def getDayOfWeek (f : PassengerFlow) : Int := QDate.dayOfWeek f.m_date

end PassengerFlow

/-- Class `DataManager` (datamanager.h): the record store. -/
structure DataManager where
  m_stations : List Station
  m_trains : List Train
  m_passengerFlows : List PassengerFlow
  m_stationMap : QMap Int Station
  m_trainMap : QMap String Train

namespace DataManager

/-- The store right after construction (and after `clearData`). -/
def empty : DataManager := ⟨[], [], [], [], []⟩

/-- The effect of `loadStations` on one parsed line: a station with a positive id and
a non-empty name is appended and registered under its id. -/
def addStation (dm : DataManager) (s : Station) : DataManager :=
  if 0 < s.m_id ∧ s.m_name ≠ "" then
    { dm with m_stations := dm.m_stations ++ [s],
              m_stationMap := QMap.update dm.m_stationMap s.m_id s (fun _ => s) }
  else dm

/-- The effect of `loadTrains` on one parsed line. -/
def addTrain (dm : DataManager) (t : Train) : DataManager :=
  if t.m_code ≠ "" ∧ t.m_trainCode ≠ "" then
    { dm with m_trains := dm.m_trains ++ [t],
              m_trainMap := QMap.update dm.m_trainMap t.m_code t (fun _ => t) }
  else dm

/-- The effect of `loadPassengerFlow` on one parsed line: a record with a positive
station id and a valid date is appended. -/
def addPassengerFlow (dm : DataManager) (f : PassengerFlow) : DataManager :=
  if 0 < f.m_stationId ∧ QDate.isValid f.m_date = true then
    { dm with m_passengerFlows := dm.m_passengerFlows ++ [f] }
  else dm

/-- The store obtained by `loadDataFromDirectory` from the parsed contents of the
three data files. -/
def load (stations : List Station) (trains : List Train) (flows : List PassengerFlow) :
    DataManager :=
  flows.foldl addPassengerFlow (trains.foldl addTrain (stations.foldl addStation empty))

/-- Lookup `getStationById`; `none` stands for `nullptr`. -/
def getStationById (dm : DataManager) (id : Int) : Option Station :=
  QMap.lookup dm.m_stationMap id

/-- Lookup `getTrainByCode`. -/
def getTrainByCode (dm : DataManager) (code : String) : Option Train :=
  QMap.lookup dm.m_trainMap code

/-- Lookup `getStationByName`: the first station with that name. -/
def getStationByName (dm : DataManager) (name : String) : Option Station :=
  dm.m_stations.find? (fun s => decide (s.m_name = name))

/-- Lookup `getStationIdByName`: `-1` when the name is unknown. -/
def getStationIdByName (dm : DataManager) (name : String) : Int :=
  match dm.getStationByName name with
  | some s => s.m_id
  | none => -1

/-- Total `getTotalPassengers` over all records. -/
def getTotalPassengers (dm : DataManager) : Int :=
  dm.m_passengerFlows.foldl (fun total flow => total + flow.getTotalPassengers) 0

/-- The mock station id chosen by `getPassengerFlowsByDateRange` for a station name:
the id of the first stored station of that name, and a fixed id (or, for an unlisted
name, a random one) when that search leaves `-1`.  Returns the id and the number of
`std::rand()` calls made so far. -/
def mockStationId (dm : DataManager) (rnd : Nat → Nat) (station : String) (k : Nat) :
    Int × Nat :=
  let stationId : Int :=
    match dm.m_stations.find? (fun (s : Station) => decide (s.m_name = station)) with
    | some s => s.m_id
    | none => -1
  if stationId = (-1 : Int) then
    if station = "成都东站" then (1695, k)
    else if station = "成都站" then (1640, k)
    else if station = "重庆北站" then (1037, k)
    else (1000 + ((rnd k % 1000 : Nat) : Int), k + 1)
  else (stationId, k)

/-- One mock record: three `std::rand()` calls give the boarding count, the alighting
count and the ticket price. -/
def mockRecord (rnd : Nat → Nat) (trainCode : String) (stationId : Int) (currentDate : QDate)
    (k : Nat) : PassengerFlow × Nat :=
  let boarding : Int := 50 + ((rnd k % 200 : Nat) : Int)
  let alighting : Int := 50 + ((rnd (k + 1) % 200 : Nat) : Int)
  let ticketPrice : ℚ := 75 + ((rnd (k + 2) % 50 : Nat) : ℚ) / 10
  let revenue : ℚ := ((boarding + alighting : Int) : ℚ) * ticketPrice
  (⟨"CD-CQ", trainCode, stationId, currentDate, QTime.mk 8 0, QTime.mk 8 5,
    boarding, alighting, "成人票", ticketPrice, revenue, "", ""⟩, k + 3)

/-- The inner loop over the five mock train codes. -/
def mockTrains (rnd : Nat → Nat) (stationId : Int) (currentDate : QDate) :
    List String → Nat → List PassengerFlow × Nat
  | [], k => ([], k)
  | trainCode :: rest, k =>
    let r := mockRecord rnd trainCode stationId currentDate k
    let rs := mockTrains rnd stationId currentDate rest r.2
    (r.1 :: rs.1, rs.2)

/-- The loop over the three mock station names for one day. -/
def mockStations (dm : DataManager) (rnd : Nat → Nat) (currentDate : QDate) :
    List String → Nat → List PassengerFlow × Nat
  | [], k => ([], k)
  | station :: rest, k =>
    let sid := mockStationId dm rnd station k
    let recs := mockTrains rnd sid.1 currentDate
      ["G8501", "G8502", "G8503", "G8504", "G8505"] sid.2
    let rs := mockStations dm rnd currentDate rest recs.2
    (recs.1 ++ rs.1, rs.2)

/-- The loop `while (currentDate <= endDate && dayCount < maxDays)`; the first argument
is `maxDays - dayCount`. -/
def mockDays (dm : DataManager) (rnd : Nat → Nat) (endDate : QDate) :
    Nat → QDate → Nat → List PassengerFlow × Nat
  | 0, _, k => ([], k)
  | remaining + 1, currentDate, k =>
    if currentDate ≤ endDate then
      let recs := mockStations dm rnd currentDate ["成都东站", "重庆北站", "成都站"] k
      let rs := mockDays dm rnd endDate remaining (QDate.addDays currentDate 1) recs.2
      (recs.1 ++ rs.1, rs.2)
    else ([], k)

/-- Range query `getPassengerFlowsByDateRange`.  On a store without records it
fabricates mock records for up to 30 days of the requested range from `std::rand()`
(whose successive values are `rnd 0, rnd 1, ...`); otherwise it keeps, in store order,
the records with a valid date inside the range. -/
def getPassengerFlowsByDateRange (dm : DataManager) (rnd : Nat → Nat)
    (startDate endDate : QDate) : List PassengerFlow :=
  if dm.m_passengerFlows.isEmpty then
    (mockDays dm rnd endDate 30 startDate 0).1
  else
    dm.m_passengerFlows.filter (fun flow =>
      QDate.isValid flow.m_date && (decide (flow.m_date ≥ startDate) &&
        decide (flow.m_date ≤ endDate)))

/-- The number of `std::rand()` calls made by `getPassengerFlowsByDateRange`. -/
def getPassengerFlowsByDateRangeDraws (dm : DataManager) (rnd : Nat → Nat)
    (startDate endDate : QDate) : Nat :=
  if dm.m_passengerFlows.isEmpty then (mockDays dm rnd endDate 30 startDate 0).2 else 0

/-- Filter `getPassengerFlowsByStation`. -/
def getPassengerFlowsByStation (dm : DataManager) (stationId : Int) : List PassengerFlow :=
  dm.m_passengerFlows.filter (fun flow => decide (flow.m_stationId = stationId))

/-- Tally `getStationPassengerStats`: passengers per station name, over the records whose
station id resolves. -/
def getStationPassengerStats (dm : DataManager) : QMap String Int :=
  dm.m_passengerFlows.foldl (fun stats flow =>
    match dm.getStationById flow.m_stationId with
    | some station =>
      QMap.update stats station.m_name 0 (fun v => v + flow.getTotalPassengers)
    | none => stats) []

end DataManager

/-! ## QString helpers -/

/-- Test `QChar::isSpace()`: space, the controls U+0009..U+000D, U+0085, U+00A0 and the
Unicode separators. -/
def qCharIsSpace (c : Char) : Bool :=
  let n := c.toNat
  n == 0x20 || (0x09 ≤ n && n ≤ 0x0D) || n == 0x85 || n == 0xA0 || n == 0x1680 ||
    (0x2000 ≤ n && n ≤ 0x200A) || n == 0x2028 || n == 0x2029 || n == 0x202F ||
    n == 0x205F || n == 0x3000

/-- Trimming `QString::trimmed()`: whitespace removed from both ends. -/
def qStringTrimmed (s : String) : String :=
  String.mk (((s.toList.dropWhile qCharIsSpace).reverse.dropWhile qCharIsSpace).reverse)

/-- The value of a string of decimal digits. -/
def digitsValue (ds : List Char) : Int :=
  ds.foldl (fun (acc : Int) (c : Char) => acc * 10 + ((c.toNat - 48 : Nat) : Int)) 0

/-- Conversion `QString::toInt()`: the decimal integer written in the string (surrounding
whitespace and a sign are accepted), and 0 when the string is not such a number or the
number does not fit an `int`. -/
def qStringToInt (s : String) : Int :=
  let signed : Bool × List Char :=
    match (qStringTrimmed s).toList with
    | '-' :: ds => (true, ds)
    | '+' :: ds => (false, ds)
    | ds => (false, ds)
  if signed.2 ≠ [] ∧ signed.2.all Char.isDigit = true then
    let v : Int := if signed.1 then -(digitsValue signed.2) else digitsValue signed.2
    if -2147483648 ≤ v ∧ v ≤ 2147483647 then v else 0
  else 0

/-! ## Aggregation engine (analysisengine.cpp) -/

/-- Result record `AnalysisEngine::StationStatistics`. -/
structure StationStatistics where
  stationName : String
  totalPassengers : Int
  boardingPassengers : Int
  alightingPassengers : Int
  averageTicketPrice : ℚ
  totalRevenue : ℚ
  peakHour : Int
  peakDay : Int
  deriving DecidableEq

/-- Result record `AnalysisEngine::TimeSeriesData`. -/
structure TimeSeriesData where
  date : QDate
  passengers : Int
  revenue : ℚ
  deriving DecidableEq

/-- The loop `for (flow : flows) map[key(flow)].append(flow)`, where a record without
a key is skipped. -/
def groupFlows {K : Type} [LinearOrder K] [DecidableEq K] (key : PassengerFlow → Option K)
    (flows : List PassengerFlow) : QMap K (List PassengerFlow) :=
  flows.foldl (fun m flow =>
    match key flow with
    | some k => QMap.update m k [] (fun v => v ++ [flow])
    | none => m) []

/-- The loop `for (flow : flows) tally[key(flow)] += flow->getTotalPassengers()`. -/
def tallyFlows (key : PassengerFlow → Int) (flows : List PassengerFlow) : QMap Int Int :=
  flows.foldl (fun m flow =>
    QMap.update m (key flow) 0 (fun v => v + flow.getTotalPassengers)) []

/-- The peak scan: starting from `maxValue = 0`, `maxKey = 0`, walk the tally in key
order and take an entry whenever its value is strictly larger than `maxValue`. -/
def peakKey (tally : QMap Int Int) : Int :=
  (tally.foldl (fun (acc : Int × Int) kv =>
    if kv.2 > acc.1 then (kv.2, kv.1) else acc) (0, 0)).2

/-- The body of the per-station loop of `getStationStatistics`. -/
def stationStatisticsOf (stationName : String) (flows : List PassengerFlow) :
    StationStatistics :=
  let totalRevenue : ℚ := flows.foldl (fun acc flow => acc + flow.m_revenue) 0
  { stationName := stationName
    totalPassengers := flows.foldl (fun acc flow => acc + flow.getTotalPassengers) 0
    boardingPassengers := flows.foldl (fun acc flow => acc + flow.m_boardingPassengers) 0
    alightingPassengers := flows.foldl (fun acc flow => acc + flow.m_alightingPassengers) 0
    totalRevenue := totalRevenue
    averageTicketPrice := if flows.length > 0 then totalRevenue / (flows.length : ℚ) else 0
    peakHour := peakKey (tallyFlows PassengerFlow.getHour flows)
    peakDay := peakKey (tallyFlows PassengerFlow.getDayOfWeek flows) }

/-- The station summaries in the iteration order of the grouping map, before sorting. -/
def stationStatisticsUnsorted (dm : DataManager) : List StationStatistics :=
  (groupFlows (fun flow => (dm.getStationById flow.m_stationId).map Station.m_name)
    dm.m_passengerFlows).map (fun kv => stationStatisticsOf kv.1 kv.2)

/-- Query `AnalysisEngine::getStationStatistics`. -/
def getStationStatistics (S : StdSort) (dm : DataManager) : List StationStatistics :=
  S.sort (fun a b => decide (a.totalPassengers > b.totalPassengers))
    (stationStatisticsUnsorted dm)

/-- The body of the per-date loop shared by the time-series queries. -/
def timeSeriesPointOf (date : QDate) (flows : List PassengerFlow) : TimeSeriesData :=
  { date := date
    passengers := flows.foldl (fun acc flow => acc + flow.getTotalPassengers) 0
    revenue := flows.foldl (fun acc flow => acc + flow.m_revenue) 0 }

/-- The per-date points in the iteration order of the grouping map, before sorting. -/
def timeSeriesUnsorted (flows : List PassengerFlow) : List TimeSeriesData :=
  (groupFlows (fun flow => some flow.m_date) flows).map
    (fun kv => timeSeriesPointOf kv.1 kv.2)

/-- Query `AnalysisEngine::getTimeSeriesData`. -/
def getTimeSeriesData (S : StdSort) (rnd : Nat → Nat) (dm : DataManager)
    (startDate endDate : QDate) : List TimeSeriesData :=
  S.sort (fun a b => decide (a.date < b.date))
    (timeSeriesUnsorted (dm.getPassengerFlowsByDateRange rnd startDate endDate))

/-- The station names the time-series queries are restricted to. -/
def targetStations : List String := ["重庆北站", "成都东站", "成都站"]

/-- Query `AnalysisEngine::getPassengerFlowTimeSeriesByStation`. -/
def getPassengerFlowTimeSeriesByStation (S : StdSort) (rnd : Nat → Nat) (dm : DataManager)
    (stationName : String) (startDate endDate : QDate) : List TimeSeriesData :=
  if ¬ stationName ∈ targetStations then []
  else
    let stationId := dm.getStationIdByName stationName
    if stationId = -1 then []
    else
      let flows := dm.getPassengerFlowsByDateRange rnd startDate endDate
      S.sort (fun a b => decide (a.date < b.date))
        ((groupFlows (fun flow =>
            if flow.m_stationId = stationId then some flow.m_date else none) flows).map
          (fun kv => timeSeriesPointOf kv.1 kv.2))

/-- Query `AnalysisEngine::getPassengerFlowTimeSeriesByTrain`. -/
def getPassengerFlowTimeSeriesByTrain (S : StdSort) (rnd : Nat → Nat) (dm : DataManager)
    (trainNumber : String) (startDate endDate : QDate) : List TimeSeriesData :=
  let flows := dm.getPassengerFlowsByDateRange rnd startDate endDate
  S.sort (fun a b => decide (a.date < b.date))
    ((groupFlows (fun flow =>
        if flow.m_trainCode = trainNumber then
          match dm.getStationById flow.m_stationId with
          | some station => if station.m_name ∈ targetStations then some flow.m_date else none
          | none => none
        else none) flows).map
      (fun kv => timeSeriesPointOf kv.1 kv.2))

/-- The accumulation loop `for (v : l) sum += v` over `int` values, in `double`. -/
noncomputable def sumAsReal (l : List Int) : ℝ :=
  l.foldl (fun (acc : ℝ) (v : Int) => acc + (v : ℝ)) 0

/-- The value stored by an `int` operation whose exact result is `v`: the 32-bit
two's-complement value congruent to `v` (the behaviour of the compiled code; formally a
signed overflow is undefined). -/
def wrapInt32 (v : Int) : Int := (v + 2147483648) % 4294967296 - 2147483648

/-- The `int` product `a * b`, as it is formed before it is widened to `double`. -/
def intMul (a b : Int) : Int := wrapInt32 (a * b)

/-- The local `numerator` of `calculateCorrelation`. -/
noncomputable def pearsonNumerator (x y : List Int) : ℝ :=
  (x.length : ℝ) * sumAsReal (List.zipWith intMul x y) - sumAsReal x * sumAsReal y

/-- The argument of `std::sqrt` in the local `denominator` of `calculateCorrelation`. -/
noncomputable def pearsonRadicand (x y : List Int) : ℝ :=
  ((x.length : ℝ) * sumAsReal (List.zipWith intMul x x) - sumAsReal x * sumAsReal x) *
    ((x.length : ℝ) * sumAsReal (List.zipWith intMul y y) - sumAsReal y * sumAsReal y)

/-- The local `denominator` of `calculateCorrelation`, for a radicand that is not
negative. -/
noncomputable def pearsonDenominator (x y : List Int) : ℝ :=
  Real.sqrt (pearsonRadicand x y)

/-- Helper `AnalysisEngine::calculateCorrelation`: the Pearson coefficient of two series,
`0` for unequal lengths, fewer than two points, or a zero denominator.  The result `none`
stands for NaN: `std::sqrt` of a negative radicand is NaN, `NaN != 0` holds, and the
quotient by NaN is NaN. -/
noncomputable def calculateCorrelation (x y : List Int) : Option ℝ :=
  if x.length ≠ y.length ∨ x.length < 2 then some 0
  else if pearsonRadicand x y < 0 then none
  else if pearsonDenominator x y ≠ 0 then some (pearsonNumerator x y / pearsonDenominator x y)
  else some 0

/-! ## Forecasting engine (predictionmodel.cpp) -/

/-- Conversion `static_cast<int>(double)`: truncation toward zero. -/
noncomputable def truncToInt (x : ℝ) : Int := if 0 ≤ x then ⌊x⌋ else ⌈x⌉

/-- Rounding to the nearest integer, ties to the even one (the IEEE 754 default rounding
of a significand). -/
noncomputable def roundHalfEven (x : ℝ) : Int :=
  if Int.fract x < 1 / 2 then ⌊x⌋
  else if 1 / 2 < Int.fract x then ⌊x⌋ + 1
  else if ⌊x⌋ % 2 = 0 then ⌊x⌋ else ⌊x⌋ + 1

/-- The result of a `double` operation whose exact value is `x`: the nearest number with a
53-bit significand, ties to even.  The exponent range is not bounded (no overflow to
infinity, no subnormal numbers). -/
noncomputable def roundToDouble (x : ℝ) : ℝ :=
  if x = 0 then 0
  else (roundHalfEven (x / (2 : ℝ) ^ (Int.log 2 |x| - 52)) : ℝ) * (2 : ℝ) ^ (Int.log 2 |x| - 52)

/-- Result record `PredictionModel::PredictionResult`. -/
structure PredictionResult where
  label : String
  date : QDate
  predictedPassengers : Int
  confidence : ℝ
  lowerBound : ℝ
  upperBound : ℝ

/-- Configuration record `PredictionModel::ModelParameters`. -/
structure ModelParameters where
  windowSize : Int
  alpha : ℝ
  beta : ℝ
  gamma : ℝ
  seasonality : Int

/-- The member `m_currentParams`, set once by the constructor. -/
noncomputable def currentParams : ModelParameters := ⟨7, 0.3, 0.1, 0.1, 7⟩

/-- A counted loop `for (int i = 0; i < n; ++i) result.append(step(i))` whose body may
have undefined behaviour (`none`). -/
def forLoop {α : Type} (step : Nat → Option α) : Nat → Option (List α)
  | 0 => some []
  | n + 1 =>
    match forLoop step n with
    | none => none
    | some acc =>
      match step n with
      | none => none
      | some r => some (acc ++ [r])

/-- Helper `extractTimeSeries`: the passenger counts as `double`s. -/
noncomputable def extractTimeSeries (data : List TimeSeriesData) : List ℝ :=
  data.map (fun item => (item.passengers : ℝ))

/-- Utility `calculateTrend`: the least-squares slope of the values against their index,
`0` for fewer than two values. -/
noncomputable def calculateTrend (data : List ℝ) : ℝ :=
  if data.length < 2 then 0
  else
    let n : ℝ := (data.length : ℝ)
    let sumX : ℝ := data.enum.foldl (fun acc iy => acc + (iy.1 : ℝ)) 0
    let sumY : ℝ := data.enum.foldl (fun acc iy => acc + iy.2) 0
    let sumXY : ℝ := data.enum.foldl (fun acc iy => acc + (iy.1 : ℝ) * iy.2) 0
    let sumX2 : ℝ := data.enum.foldl (fun acc iy => acc + (iy.1 : ℝ) * (iy.1 : ℝ)) 0
    (n * sumXY - sumX * sumY) / (n * sumX2 - sumX * sumX)

/-- Utility `calculateSeasonality`: empty when fewer than two periods of data exist,
otherwise the values `data[i - period]` for `i = period .. size - 1`; `none` when an
index falls outside the data (undefined behaviour). -/
noncomputable def calculateSeasonality (data : List ℝ) (period : Int) : Option (List ℝ) :=
  if (data.length : Int) < period * 2 then some []
  else forLoop (fun k => data[k]?) ((data.length : Int) - period).toNat

/-- Utility `calculateBaseLevel`: the mean of the last `min(7, size)` values, `0` for no
data. -/
noncomputable def calculateBaseLevel (data : List ℝ) : ℝ :=
  if data.isEmpty then 0
  else
    let recentDays : Nat := min 7 data.length
    (data.drop (data.length - recentDays)).foldl (fun acc v => acc + v) 0 / (recentDays : ℝ)

/-- Utility `calculateStandardDeviation`: the population standard deviation, `0` for no
data. -/
noncomputable def calculateStandardDeviation (data : List ℝ) : ℝ :=
  if data.isEmpty then 0
  else
    let mean : ℝ := data.foldl (fun acc v => acc + v) 0 / (data.length : ℝ)
    let variance : ℝ :=
      data.foldl (fun acc v => acc + (v - mean) * (v - mean)) 0 / (data.length : ℝ)
    Real.sqrt variance

/-- The local `confidenceWidth` of the forecast loop at offset `i`. -/
noncomputable def confidenceWidth (timeSeries : List ℝ) (i : Nat) : ℝ :=
  calculateStandardDeviation timeSeries * (1 + (i : ℝ) * 0.1)

/-- The local `basePrediction` of `predictPassengerFlow` at offset `i` before the
weekday/weekend multiplier: base level plus trend, plus the seasonal value when the
seasonal index is inside the seasonal pattern; `none` for the remainder by zero. -/
noncomputable def predictPassengerFlowBase (baseLevel trend : ℝ) (seasonalPattern : List ℝ)
    (size : Nat) (seasonality : Int) (i : Nat) : Option ℝ :=
  if seasonality = 0 then none
  else
    let basePrediction : ℝ := baseLevel + trend * (((i : Int) + 1 : Int) : ℝ)
    let seasonalIndex : Int := Int.tmod ((size : Int) + (i : Int)) seasonality
    if seasonalIndex < (seasonalPattern.length : Int) then
      some (basePrediction + seasonalPattern.getD seasonalIndex.toNat 0)
    else some basePrediction

/-- The local `basePrediction` of the forecast loop at offset `i` after the three statements
`basePrediction *= 0.8` (weekend) or `*= 1.1` (weekday), `basePrediction *= randomFactor`
and `basePrediction *= growthFactor`, each operation rounded to `double`; `base` is the
value before them and `draw` the value of `bounded(20)`. -/
noncomputable def adjustedPrediction (base : ℝ) (dayOfWeek : Int) (draw i : Nat) : ℝ :=
  let weekly : ℝ :=
    if dayOfWeek = 6 ∨ dayOfWeek = 7 then roundToDouble (base * roundToDouble 0.8)
    else roundToDouble (base * roundToDouble 1.1)
  let randomFactor : ℝ := roundToDouble (roundToDouble 0.9 + roundToDouble ((draw : ℝ) / 100))
  let jittered : ℝ := roundToDouble (weekly * randomFactor)
  let growthFactor : ℝ := roundToDouble (1 + roundToDouble ((i : ℝ) * roundToDouble 0.02))
  roundToDouble (jittered * growthFactor)

/-- The fully adjusted prediction in exact real arithmetic: base times weekday/weekend
multiplier times random factor times growth factor, without any rounding. -/
noncomputable def exactAdjustedPrediction (base : ℝ) (dayOfWeek : Int) (draw i : Nat) : ℝ :=
  (if dayOfWeek = 6 ∨ dayOfWeek = 7 then base * 0.8 else base * 1.1)
    * (0.9 + (draw : ℝ) / 100) * (1 + (i : ℝ) * 0.02)

/-- The body of the forecast loop of `predictPassengerFlow` at offset `i`; `jitter i` is
the value drawn by `QRandomGenerator::global()->bounded(20)` in that iteration. -/
noncomputable def predictPassengerFlowPoint (timeSeries : List ℝ) (modelParams : ModelParameters)
    (trend : ℝ) (seasonalPattern : List ℝ) (baseLevel : ℝ) (startDate : QDate)
    (jitter : Nat → Fin 20) (i : Nat) : Option PredictionResult :=
  let predictDate : QDate := QDate.addDays startDate (i : Int)
  match predictPassengerFlowBase baseLevel trend seasonalPattern timeSeries.length
      modelParams.seasonality i with
  | none => none
  | some base =>
    let dayOfWeek : Int := QDate.dayOfWeek predictDate
    let basePrediction : ℝ := adjustedPrediction base dayOfWeek (jitter i) i
    let predictedPassengers : Int := max 0 (truncToInt basePrediction)
    let width : ℝ := confidenceWidth timeSeries i
    some
      { label := QDate.toString predictDate
        date := predictDate
        predictedPassengers := predictedPassengers
        confidence := 0.95
        lowerBound := ((max 0 (predictedPassengers - truncToInt width) : Int) : ℝ)
        upperBound := ((predictedPassengers + truncToInt width : Int) : ℝ) }

/-- Forecast `PredictionModel::predictPassengerFlow`; `none` stands for undefined
behaviour. -/
noncomputable def predictPassengerFlow (S : StdSort) (rnd : Nat → Nat) (jitter : Nat → Fin 20)
    (dm : DataManager) (startDate : QDate) (days : Int) (params : ModelParameters) :
    Option (List PredictionResult) :=
  let trainingStart : QDate := QDate.addDays startDate (-30)
  let historicalData := getTimeSeriesData S rnd dm trainingStart (QDate.addDays startDate (-1))
  if historicalData.length < 10 then some []
  else
    let timeSeries := extractTimeSeries historicalData
    let modelParams := if params.windowSize > 0 then params else currentParams
    let trend := calculateTrend timeSeries
    match calculateSeasonality timeSeries modelParams.seasonality with
    | none => none
    | some seasonalPattern =>
      let baseLevel := calculateBaseLevel timeSeries
      forLoop (predictPassengerFlowPoint timeSeries modelParams trend seasonalPattern
        baseLevel startDate jitter) days.toNat

/-- The body of the forecast loop of `predictStationFlow` at offset `i`; `jitter i` is
the value drawn by `QRandomGenerator::global()->bounded(20)` in that iteration. -/
noncomputable def predictStationFlowPoint (timeSeries : List ℝ) (modelParams : ModelParameters)
    (trend : ℝ) (seasonalPattern : List ℝ) (baseLevel : ℝ) (startDate : QDate)
    (jitter : Nat → Fin 20) (i : Nat) : Option PredictionResult :=
  let predictDate : QDate := QDate.addDays startDate (i : Int)
  if modelParams.seasonality = 0 then none
  else
    let trended : ℝ := baseLevel + trend * (((i : Int) + 1 : Int) : ℝ)
    let seasonalIndex : Int :=
      Int.tmod ((timeSeries.length : Int) + (i : Int)) modelParams.seasonality
    let base : ℝ :=
      if seasonalIndex < (seasonalPattern.length : Int) then
        trended + seasonalPattern.getD seasonalIndex.toNat 0
      else trended
    let dayOfWeek : Int := QDate.dayOfWeek predictDate
    let weekly : ℝ :=
      if dayOfWeek = 6 ∨ dayOfWeek = 7 then roundToDouble (base * roundToDouble 0.8)
      else roundToDouble (base * roundToDouble 1.1)
    let randomFactor : ℝ :=
      roundToDouble (roundToDouble 0.9 + roundToDouble (((jitter i : Nat) : ℝ) / 100))
    let jittered : ℝ := roundToDouble (weekly * randomFactor)
    let growthFactor : ℝ := roundToDouble (1 + roundToDouble ((i : ℝ) * roundToDouble 0.02))
    let basePrediction : ℝ := roundToDouble (jittered * growthFactor)
    let predictedPassengers : Int := max 0 (truncToInt basePrediction)
    let width : ℝ := confidenceWidth timeSeries i
    some
      { label := QDate.toString predictDate
        date := predictDate
        predictedPassengers := predictedPassengers
        confidence := 0.95
        lowerBound := ((max 0 (predictedPassengers - truncToInt width) : Int) : ℝ)
        upperBound := ((predictedPassengers + truncToInt width : Int) : ℝ) }

/-- Forecast `PredictionModel::predictStationFlow`; `none` stands for undefined
behaviour. -/
noncomputable def predictStationFlow (S : StdSort) (rnd : Nat → Nat) (jitter : Nat → Fin 20)
    (dm : DataManager) (stationName : String) (startDate : QDate) (days : Int)
    (params : ModelParameters) : Option (List PredictionResult) :=
  let trainingStart : QDate := QDate.addDays startDate (-30)
  let historicalData := getPassengerFlowTimeSeriesByStation S rnd dm stationName trainingStart
    (QDate.addDays startDate (-1))
  if historicalData.length < 10 then some []
  else
    let timeSeries := extractTimeSeries historicalData
    let modelParams := if params.windowSize > 0 then params else currentParams
    let trend := calculateTrend timeSeries
    match calculateSeasonality timeSeries modelParams.seasonality with
    | none => none
    | some seasonalPattern =>
      let baseLevel := calculateBaseLevel timeSeries
      forLoop (predictStationFlowPoint timeSeries modelParams trend seasonalPattern
        baseLevel startDate jitter) days.toNat

/-- The body of the forecast loop of `predictTrainFlow` at offset `i`; `jitter i` is
the value drawn by `QRandomGenerator::global()->bounded(20)` in that iteration. -/
noncomputable def predictTrainFlowPoint (timeSeries : List ℝ) (modelParams : ModelParameters)
    (trend : ℝ) (seasonalPattern : List ℝ) (baseLevel : ℝ) (startDate : QDate)
    (jitter : Nat → Fin 20) (i : Nat) : Option PredictionResult :=
  let predictDate : QDate := QDate.addDays startDate (i : Int)
  if modelParams.seasonality = 0 then none
  else
    let trended : ℝ := baseLevel + trend * (((i : Int) + 1 : Int) : ℝ)
    let seasonalIndex : Int :=
      Int.tmod ((timeSeries.length : Int) + (i : Int)) modelParams.seasonality
    let base : ℝ :=
      if seasonalIndex < (seasonalPattern.length : Int) then
        trended + seasonalPattern.getD seasonalIndex.toNat 0
      else trended
    let dayOfWeek : Int := QDate.dayOfWeek predictDate
    let weekly : ℝ :=
      if dayOfWeek = 6 ∨ dayOfWeek = 7 then roundToDouble (base * roundToDouble 0.8)
      else roundToDouble (base * roundToDouble 1.1)
    let randomFactor : ℝ :=
      roundToDouble (roundToDouble 0.9 + roundToDouble (((jitter i : Nat) : ℝ) / 100))
    let jittered : ℝ := roundToDouble (weekly * randomFactor)
    let growthFactor : ℝ := roundToDouble (1 + roundToDouble ((i : ℝ) * roundToDouble 0.02))
    let basePrediction : ℝ := roundToDouble (jittered * growthFactor)
    let predictedPassengers : Int := max 0 (truncToInt basePrediction)
    let width : ℝ := confidenceWidth timeSeries i
    some
      { label := QDate.toString predictDate
        date := predictDate
        predictedPassengers := predictedPassengers
        confidence := 0.95
        lowerBound := ((max 0 (predictedPassengers - truncToInt width) : Int) : ℝ)
        upperBound := ((predictedPassengers + truncToInt width : Int) : ℝ) }

/-- Forecast `PredictionModel::predictTrainFlow`; `none` stands for undefined
behaviour. -/
noncomputable def predictTrainFlow (S : StdSort) (rnd : Nat → Nat) (jitter : Nat → Fin 20)
    (dm : DataManager) (trainNumber : String) (startDate : QDate) (days : Int)
    (params : ModelParameters) : Option (List PredictionResult) :=
  let trainingStart : QDate := QDate.addDays startDate (-30)
  let historicalData := getPassengerFlowTimeSeriesByTrain S rnd dm trainNumber trainingStart
    (QDate.addDays startDate (-1))
  if historicalData.length < 10 then some []
  else
    let timeSeries := extractTimeSeries historicalData
    let modelParams := if params.windowSize > 0 then params else currentParams
    let trend := calculateTrend timeSeries
    match calculateSeasonality timeSeries modelParams.seasonality with
    | none => none
    | some seasonalPattern =>
      let baseLevel := calculateBaseLevel timeSeries
      forLoop (predictTrainFlowPoint timeSeries modelParams trend seasonalPattern
        baseLevel startDate jitter) days.toNat

/-- The time series of a record collection over a date window: the points are in
strictly ascending date order, there is a point for a date exactly when the date is a
valid date inside the window that has at least one record, and each point carries the
passenger and revenue sums of the records of its date. -/
def IsTimeSeriesOf (flows : List PassengerFlow) (startDate endDate : QDate)
    (ts : List TimeSeriesData) : Prop :=
  ts.Pairwise (fun a b => a.date < b.date) ∧
  (∀ d : QDate, (∃ p ∈ ts, p.date = d) ↔
    (QDate.isValid d = true ∧ startDate ≤ d ∧ d ≤ endDate ∧ ∃ r ∈ flows, r.m_date = d)) ∧
  (∀ p ∈ ts,
    p.passengers = ((flows.filter (fun r => decide (r.m_date = p.date))).map
      PassengerFlow.getTotalPassengers).sum ∧
    p.revenue = ((flows.filter (fun r => decide (r.m_date = p.date))).map
      PassengerFlow.m_revenue).sum)

/-- Result record `AnalysisEngine::TicketTypeAnalysis`. -/
structure TicketTypeAnalysis where
  ticketType : String
  totalCount : Int
  totalPassengers : Int
  totalRevenue : ℚ
  averagePrice : ℚ
  deriving DecidableEq

/-- The grouping key of `getTicketTypeAnalysis`: for a record whose station resolves to one
of the three target stations, its trimmed ticket type ("未知" when that is empty); other
records are skipped. -/
def ticketTypeKey (dm : DataManager) (flow : PassengerFlow) : Option String :=
  match dm.getStationById flow.m_stationId with
  | some station =>
    if station.m_name = "成都东站" ∨ station.m_name = "重庆北站" ∨ station.m_name = "成都站" then
      some (if (qStringTrimmed flow.m_ticketType).isEmpty then "未知"
        else qStringTrimmed flow.m_ticketType)
    else none
  | none => none

/-- The body of the per-ticket-type loop of `getTicketTypeAnalysis`. -/
def ticketTypeAnalysisOf (ticketType : String) (ticketFlows : List PassengerFlow) :
    TicketTypeAnalysis :=
  let totalPrice : ℚ := ticketFlows.foldl (fun acc flow => acc + flow.m_ticketPrice) 0
  { ticketType := ticketType
    totalCount := (ticketFlows.length : Int)
    totalPassengers := ticketFlows.foldl (fun acc flow => acc + flow.getTotalPassengers) 0
    totalRevenue := ticketFlows.foldl (fun acc flow => acc + flow.m_revenue) 0
    averagePrice :=
      if (ticketFlows.length : Int) > 0 then totalPrice / (ticketFlows.length : ℚ) else 0 }

/-- The mock entries of `getTicketTypeAnalysis`: for every mock ticket type three
`std::rand()` calls give the count, the passengers per ticket and the average price. -/
def mockTicketTypes (rnd : Nat → Nat) : List String → Nat → List TicketTypeAnalysis
  | [], _ => []
  | type :: rest, k =>
    let totalCount : Int := 100 + ((rnd k % 500 : Nat) : Int)
    let totalPassengers : Int := totalCount * (1 + ((rnd (k + 1) % 3 : Nat) : Int))
    let averagePrice : ℚ := ((50 + ((rnd (k + 2) % 150 : Nat) : Int) : Int) : ℚ)
    { ticketType := type
      totalCount := totalCount
      totalPassengers := totalPassengers
      totalRevenue := (totalPassengers : ℚ) * averagePrice
      averagePrice := averagePrice } :: mockTicketTypes rnd rest (k + 3)

/-- The ticket-type entries computed from the records, before the mock fallback and the
sort. -/
def ticketTypeAnalysisUnsorted (dm : DataManager) (flows : List PassengerFlow) :
    List TicketTypeAnalysis :=
  (groupFlows (ticketTypeKey dm) flows).map (fun kv => ticketTypeAnalysisOf kv.1 kv.2)

/-- Query `AnalysisEngine::getTicketTypeAnalysis`. -/
def getTicketTypeAnalysis (S : StdSort) (rnd : Nat → Nat) (dm : DataManager)
    (startDate endDate : QDate) : List TicketTypeAnalysis :=
  let flows := dm.getPassengerFlowsByDateRange rnd startDate endDate
  let result := ticketTypeAnalysisUnsorted dm flows
  let result :=
    if result.isEmpty then
      mockTicketTypes rnd ["成人票", "学生票", "儿童票", "军人票", "老年票"]
        (dm.getPassengerFlowsByDateRangeDraws rnd startDate endDate)
    else result
  S.sort (fun a b => decide (a.totalPassengers > b.totalPassengers)) result

/-- The tally loop of `getTrainFlowByDateRange`: a record counts for its train when its
station id is one of 1695, 1640, 1037, or else resolves to a station named in
`targetStations`. -/
def trainFlowTally (dm : DataManager) (flows : List PassengerFlow) : QMap String ℚ :=
  flows.foldl (fun trainFlow flow =>
    if flow.m_stationId ∈ [(1695 : Int), 1640, 1037] then
      QMap.update trainFlow flow.m_trainCode 0 (fun v => v + (flow.getTotalPassengers : ℚ))
    else
      match dm.getStationById flow.m_stationId with
      | none => trainFlow
      | some station =>
        if station.m_name ∈ targetStations then
          QMap.update trainFlow flow.m_trainCode 0 (fun v => v + (flow.getTotalPassengers : ℚ))
        else trainFlow) []

/-- Query `AnalysisEngine::getTrainFlowByDateRange`; `trainAnalysisCount` is the value of
the function's static call counter on entry, which decides `shouldLog`.  The mock trains
are only added inside the `if (shouldLog)` block. -/
def getTrainFlowByDateRange (dm : DataManager) (rnd : Nat → Nat) (trainAnalysisCount : Nat)
    (startDate endDate : QDate) : QMap String ℚ :=
  let shouldLog : Bool := trainAnalysisCount % 10 == 0
  let flows := dm.getPassengerFlowsByDateRange rnd startDate endDate
  let k := dm.getPassengerFlowsByDateRangeDraws rnd startDate endDate
  let trainFlow := trainFlowTally dm flows
  if shouldLog = true ∧ trainFlow.isEmpty = true then
    let trainFlow := QMap.update trainFlow "G8501" 0
      (fun _ => (((1250 + (rnd k % 500 : Nat) : Nat) : Int) : ℚ))
    let trainFlow := QMap.update trainFlow "G8502" 0
      (fun _ => (((1100 + (rnd (k + 1) % 500 : Nat) : Nat) : Int) : ℚ))
    let trainFlow := QMap.update trainFlow "G8503" 0
      (fun _ => (((950 + (rnd (k + 2) % 500 : Nat) : Nat) : Int) : ℚ))
    let trainFlow := QMap.update trainFlow "G8504" 0
      (fun _ => (((1050 + (rnd (k + 3) % 500 : Nat) : Nat) : Int) : ℚ))
    QMap.update trainFlow "G8505" 0
      (fun _ => (((1200 + (rnd (k + 4) % 500 : Nat) : Nat) : Int) : ℚ))
  else trainFlow

/-- The number of `std::rand()` calls made by `getTrainFlowByDateRange`. -/
def getTrainFlowByDateRangeDraws (dm : DataManager) (rnd : Nat → Nat)
    (trainAnalysisCount : Nat) (startDate endDate : QDate) : Nat :=
  dm.getPassengerFlowsByDateRangeDraws rnd startDate endDate +
    (if (trainAnalysisCount % 10 == 0) = true ∧
        (trainFlowTally dm (dm.getPassengerFlowsByDateRange rnd startDate endDate)).isEmpty
          = true then 5 else 0)

/-- A record contributes to the train tally. -/
def countsForTrainFlow (dm : DataManager) (flow : PassengerFlow) : Bool :=
  decide (flow.m_stationId ∈ [(1695 : Int), 1640, 1037]) ||
    (match dm.getStationById flow.m_stationId with
      | some station => decide (station.m_name ∈ targetStations)
      | none => false)

/-- The records that enter the time series of train `trainNumber`: those with that train
code whose station id resolves to a station named in `targetStations`. -/
def trainSeriesFilter (dm : DataManager) (trainNumber : String) (flow : PassengerFlow) : Bool :=
  decide (flow.m_trainCode = trainNumber) &&
    (match dm.getStationById flow.m_stationId with
      | some station => decide (station.m_name ∈ targetStations)
      | none => false)

/-- The key `k` is a peak of the tally: it is present in the tally, its count is the
maximum count of the tally, and it is the smallest key attaining that maximum. -/
def IsPeakOf (tally : QMap Int Int) (k : Int) : Prop :=
  ∃ v, (k, v) ∈ tally ∧ (∀ kv ∈ tally, kv.2 ≤ v) ∧ (∀ kv ∈ tally, kv.2 = v → k ≤ kv.1)

/-- The key `k` is a peak of the tally when the tally has a positive count, and is 0
when no count of the tally is positive. -/
def IsPeakOrZero (tally : QMap Int Int) (k : Int) : Prop :=
  ((∃ kv ∈ tally, 0 < kv.2) → IsPeakOf tally k) ∧ ((∀ kv ∈ tally, kv.2 ≤ 0) → k = 0)

/-- Result record `AnalysisEngine::TrainStatistics`. -/
structure TrainStatistics where
  trainCode : String
  totalPassengers : Int
  utilizationRate : ℚ
  averageTicketPrice : ℚ
  totalRevenue : ℚ
  totalTrips : Int
  deriving DecidableEq

/-- The body of the per-train loop of `getTrainStatistics`. -/
def trainStatisticsOf (dm : DataManager) (trainCode : String) (flows : List PassengerFlow) :
    TrainStatistics :=
  let totalPassengers : Int := flows.foldl (fun acc flow => acc + flow.getTotalPassengers) 0
  let totalRevenue : ℚ := flows.foldl (fun acc flow => acc + flow.m_revenue) 0
  { trainCode := trainCode
    totalPassengers := totalPassengers
    totalRevenue := totalRevenue
    totalTrips := (flows.length : Int)
    utilizationRate :=
      match dm.getTrainByCode trainCode with
      | some train =>
        if train.m_capacity > 0 then (totalPassengers : ℚ) / (train.m_capacity : ℚ) else 0
      | none => 0
    averageTicketPrice := if flows.length > 0 then totalRevenue / (flows.length : ℚ) else 0 }

/-- The train summaries in the iteration order of the grouping map, before sorting. -/
def trainStatisticsUnsorted (dm : DataManager) : List TrainStatistics :=
  (groupFlows (fun flow => some flow.m_trainCode) dm.m_passengerFlows).map
    (fun kv => trainStatisticsOf dm kv.1 kv.2)

/-- Query `AnalysisEngine::getTrainStatistics`. -/
def getTrainStatistics (S : StdSort) (dm : DataManager) : List TrainStatistics :=
  S.sort (fun a b => decide (a.totalPassengers > b.totalPassengers))
    (trainStatisticsUnsorted dm)

/-- Ranking `AnalysisEngine::getStationEfficiency`: revenue per passenger of every station
summary (0 without passengers), sorted by descending score. -/
def getStationEfficiency (S : StdSort) (dm : DataManager) : List (String × ℚ) :=
  S.sort (fun a b => decide (a.2 > b.2))
    ((getStationStatistics S dm).map (fun stat =>
      (stat.stationName,
        if stat.totalPassengers > 0 then stat.totalRevenue / (stat.totalPassengers : ℚ)
        else 0)))

/-- Ranking `AnalysisEngine::getTrainEfficiency`. -/
def getTrainEfficiency (S : StdSort) (dm : DataManager) : List (String × ℚ) :=
  S.sort (fun a b => decide (a.2 > b.2))
    ((getTrainStatistics S dm).map (fun stat =>
      (stat.trainCode,
        if stat.totalPassengers > 0 then stat.totalRevenue / (stat.totalPassengers : ℚ)
        else 0)))

/-- The iteration order of a `QSet<QDate>`: some enumeration of its elements (the order
depends on the hash seed and is not specified). -/
structure QSetOrder where
  /-- The elements in iteration order. -/
  toList : List QDate → List QDate
  /-- Every element is visited once. -/
  perm : ∀ l : List QDate, List.Perm (toList l) l

/-- One admissible iteration order: the order of insertion. -/
def insertionQSetOrder : QSetOrder := ⟨fun l => l, fun l => List.Perm.refl l⟩

/-- The pairs `(l[i], l[j])` with `i < j`, in the order of the nested loops
`for i { for j = i + 1 .. }`. -/
def orderedPairs {α : Type} : List α → List (α × α)
  | [] => []
  | x :: xs => xs.map (fun y => (x, y)) ++ orderedPairs xs

/-- The body of the nested loops of `getStationCorrelations` for one pair of station
names: whether the pair is reported.  The names are converted with `toInt()` and looked up
by id; the looked-up pointers are dereferenced without a null check, so an unresolved
lookup is undefined behaviour (`none`).  The two key sets are modelled as the sets of
dates of the two daily tallies, as the range constructors are meant to build them.  For a
NaN correlation the test `std::abs(correlation) > 0.5` is false. -/
noncomputable def stationPairSignificant (Q : QSetOrder) (dm : DataManager)
    (station1 station2 : String) : Option Bool :=
  match dm.getStationById (qStringToInt station1) with
  | none => none
  | some s1 =>
    match dm.getStationById (qStringToInt station2) with
    | none => none
    | some s2 =>
      let flows1 := dm.getPassengerFlowsByStation s1.m_id
      let flows2 := dm.getPassengerFlowsByStation s2.m_id
      let daily1 := tallyFlows PassengerFlow.m_date flows1
      let daily2 := tallyFlows PassengerFlow.m_date flows2
      let commonDates : List QDate :=
        Q.toList ((daily1.map Prod.fst).filter (fun d => decide (d ∈ daily2.map Prod.fst)))
      if commonDates.length > 10 then
        let series1 : List Int := commonDates.map (fun d => (QMap.lookup daily1 d).getD 0)
        let series2 : List Int := commonDates.map (fun d => (QMap.lookup daily2 d).getD 0)
        match calculateCorrelation series1 series2 with
        | some correlation => some (decide (|correlation| > 0.5))
        | none => some false
      else some false

/-- The nested loops of `getStationCorrelations` over the pairs of station names. -/
noncomputable def correlationLoop (Q : QSetOrder) (dm : DataManager) :
    List (String × String) → Option (List (String × String))
  | [] => some []
  | pair :: rest =>
    match stationPairSignificant Q dm pair.1 pair.2 with
    | none => none
    | some significant =>
      match correlationLoop Q dm rest with
      | none => none
      | some correlations => some (if significant then pair :: correlations else correlations)

/-- Query `AnalysisEngine::getStationCorrelations`; `none` stands for undefined behaviour
(a null pointer dereference). -/
noncomputable def getStationCorrelations (Q : QSetOrder) (dm : DataManager) :
    Option (List (String × String)) :=
  correlationLoop Q dm (orderedPairs (dm.getStationPassengerStats.map Prod.fst))

/-- Result record `PredictionModel::ModelEvaluation`; in `rmse` the value `none` stands
for NaN. -/
structure ModelEvaluation where
  mae : ℝ
  mse : ℝ
  rmse : Option ℝ
  mape : ℝ

/-- Evaluation `PredictionModel::evaluateModel`.  The loop over `i < n`,
`n = qMin(predictions.size(), actual.size())`, reads `predictions[i]` and `actual[i]`,
i.e. it runs over the pairs of `predictions.zip actual`.  The square
`absError * absError` is an `int` product; `std::sqrt` of a negative `mse` is NaN. -/
noncomputable def evaluateModel (predictions : List PredictionResult)
    (actual : List TimeSeriesData) : ModelEvaluation :=
  if predictions.isEmpty ∨ actual.isEmpty then ⟨0, 0, some 0, 0⟩
  else
    let n : ℝ := ((min predictions.length actual.length : Nat) : ℝ)
    let pairs : List (Int × Int) :=
      (predictions.zip actual).map (fun pa => (pa.1.predictedPassengers, pa.2.passengers))
    let sumAbsError : ℝ :=
      pairs.foldl (fun (acc : ℝ) (pa : Int × Int) => acc + ((|pa.1 - pa.2| : Int) : ℝ)) 0
    let sumSquaredError : ℝ :=
      pairs.foldl (fun (acc : ℝ) (pa : Int × Int) =>
        acc + ((intMul |pa.1 - pa.2| |pa.1 - pa.2| : Int) : ℝ)) 0
    let sumPercentageError : ℝ :=
      pairs.foldl (fun (acc : ℝ) (pa : Int × Int) =>
        if pa.2 > 0 then acc + |((pa.1 - pa.2 : Int) : ℝ) / (pa.2 : ℝ)| else acc) 0
    { mae := sumAbsError / n
      mse := sumSquaredError / n
      rmse := if sumSquaredError / n < 0 then none else some (Real.sqrt (sumSquaredError / n))
      mape := sumPercentageError / n * 100 }

/-- The mean absolute percentage error as the specification words it: 100 times the mean
of `|predicted - actual| / actual` over those of the first `n` pairs whose actual value is
positive, the mean being taken over the number of such pairs. -/
noncomputable def mapeOverPositiveActuals (predictions : List PredictionResult)
    (actual : List TimeSeriesData) : ℝ :=
  let positive : List (Int × Int) :=
    ((predictions.zip actual).map
      (fun pa => (pa.1.predictedPassengers, pa.2.passengers))).filter
        (fun (pa : Int × Int) => decide (pa.2 > 0))
  100 * ((positive.map (fun (pa : Int × Int) => |((pa.1 - pa.2 : Int) : ℝ)| / (pa.2 : ℝ))).sum
    / (positive.length : ℝ))

/-- The constant `std::numeric_limits<double>::max()`. -/
noncomputable def doubleMax : ℝ := (2 ^ 53 - 1) * 2 ^ 971

/-- The candidates of the grid search of `optimizeParameters`, in the order of the three
nested loops over `alphas`, `betas` and `windows` (`gamma = 0.1`, `seasonality = 7`). -/
noncomputable def gridCandidates : List ModelParameters :=
  ([0.1, 0.2, 0.3, 0.4, 0.5] : List ℝ).flatMap (fun alpha =>
    ([0.05, 0.1, 0.15, 0.2] : List ℝ).flatMap (fun beta =>
      ([3, 5, 7, 10, 14] : List Int).map (fun window => ⟨window, alpha, beta, 0.1, 7⟩)))

/-- The split `validationData = data.mid(testSize, testSize)` with
`testSize = qMin(30, data.size() / 2)`. -/
def validationSplit (data : List TimeSeriesData) : List TimeSeriesData :=
  (data.drop (min 30 (data.length / 2))).take (min 30 (data.length / 2))

/-- The evaluation of one grid candidate: the RMSE of the forecast over the validation
split (`none` for NaN), together with the numbers of `std::rand()` calls and of jitter
draws made so far; `rndUsed` and `jitterUsed` are those numbers before the evaluation.
The outer `none` stands for undefined behaviour. -/
noncomputable def evaluateCandidate (S : StdSort) (rnd : Nat → Nat) (jitter : Nat → Fin 20)
    (dm : DataManager) (data : List TimeSeriesData) (rndUsed jitterUsed : Nat)
    (params : ModelParameters) : Option (Option ℝ × Nat × Nat) :=
  match (validationSplit data).head? with
  | none => none
  | some first =>
    match predictPassengerFlow S (fun i => rnd (i + rndUsed)) (fun i => jitter (i + jitterUsed))
        dm first.date ((validationSplit data).length : Int) params with
    | none => none
    | some predictions =>
      some ((evaluateModel predictions (validationSplit data)).rmse,
        rndUsed + dm.getPassengerFlowsByDateRangeDraws (fun i => rnd (i + rndUsed))
          (QDate.addDays first.date (-30)) (QDate.addDays first.date (-1)),
        jitterUsed + predictions.length)

/-- The state of the grid search: the best parameters and score so far and the numbers of
random draws made so far. -/
structure SearchState where
  bestParams : ModelParameters
  bestScore : ℝ
  rndUsed : Nat
  jitterUsed : Nat

/-- The body of the innermost loop of `optimizeParameters` for one candidate; the test
`evaluation.rmse < bestScore` is false for a NaN `rmse`. -/
noncomputable def optimizeStep (S : StdSort) (rnd : Nat → Nat) (jitter : Nat → Fin 20)
    (dm : DataManager) (data : List TimeSeriesData) (state : SearchState)
    (params : ModelParameters) : Option SearchState :=
  if (validationSplit data).length < 5 then some state
  else
    match evaluateCandidate S rnd jitter dm data state.rndUsed state.jitterUsed params with
    | none => none
    | some (some rmse, rndUsed, jitterUsed) =>
      if rmse < state.bestScore then some ⟨params, rmse, rndUsed, jitterUsed⟩
      else some ⟨state.bestParams, state.bestScore, rndUsed, jitterUsed⟩
    | some (none, rndUsed, jitterUsed) =>
      some ⟨state.bestParams, state.bestScore, rndUsed, jitterUsed⟩

/-- The grid search loop over a list of candidates. -/
noncomputable def optimizeLoop (S : StdSort) (rnd : Nat → Nat) (jitter : Nat → Fin 20)
    (dm : DataManager) (data : List TimeSeriesData) :
    List ModelParameters → SearchState → Option SearchState
  | [], state => some state
  | params :: rest, state =>
    match optimizeStep S rnd jitter dm data state params with
    | none => none
    | some state' => optimizeLoop S rnd jitter dm data rest state'

/-- Search `PredictionModel::optimizeParameters`. -/
noncomputable def optimizeParameters (S : StdSort) (rnd : Nat → Nat) (jitter : Nat → Fin 20)
    (dm : DataManager) (data : List TimeSeriesData) : Option ModelParameters :=
  (optimizeLoop S rnd jitter dm data gridCandidates ⟨currentParams, doubleMax, 0, 0⟩).map
    SearchState.bestParams

/-- The candidates of a grid search with the RMSE computed for each (`none` for NaN), in
evaluation order. -/
noncomputable def searchTrace (S : StdSort) (rnd : Nat → Nat) (jitter : Nat → Fin 20)
    (dm : DataManager) (data : List TimeSeriesData) :
    List ModelParameters → Nat → Nat → Option (List (ModelParameters × Option ℝ))
  | [], _, _ => some []
  | params :: rest, rndUsed, jitterUsed =>
    match evaluateCandidate S rnd jitter dm data rndUsed jitterUsed params with
    | none => none
    | some (rmse, rndUsed', jitterUsed') =>
      match searchTrace S rnd jitter dm data rest rndUsed' jitterUsed' with
      | none => none
      | some trace => some ((params, rmse) :: trace)

/-! ## Regression (predictionmodel.cpp) -/

/-- The numerator `n * sumXY - sumX * sumY` of the slope computed by `calculateTrend`. -/
noncomputable def trendNumerator (data : List ℝ) : ℝ :=
  (data.length : ℝ) * data.enum.foldl (fun acc iy => acc + (iy.1 : ℝ) * iy.2) 0
    - data.enum.foldl (fun acc iy => acc + (iy.1 : ℝ)) 0 *
      data.enum.foldl (fun acc iy => acc + iy.2) 0

/-- The denominator `n * sumX2 - sumX * sumX` of the slope computed by `calculateTrend`. -/
noncomputable def trendDenominator (data : List ℝ) : ℝ :=
  (data.length : ℝ) * data.enum.foldl (fun acc iy => acc + (iy.1 : ℝ) * (iy.1 : ℝ)) 0
    - data.enum.foldl (fun acc iy => acc + (iy.1 : ℝ)) 0 *
      data.enum.foldl (fun acc iy => acc + (iy.1 : ℝ)) 0

/-- The local `slope` numerator `n * sumXY - sumX * sumY` of `fitLinearRegression`; the
loop over `i < n` reads `x[i]` and `y[i]`, i.e. it runs over the pairs of `x.zip y`. -/
noncomputable def regressionNumerator (x y : List ℝ) : ℝ :=
  (x.length : ℝ) * (x.zip y).foldl (fun acc xy => acc + xy.1 * xy.2) 0
    - (x.zip y).foldl (fun acc xy => acc + xy.1) 0 * (x.zip y).foldl (fun acc xy => acc + xy.2) 0

/-- The local `slope` denominator `n * sumX2 - sumX * sumX` of `fitLinearRegression`. -/
noncomputable def regressionDenominator (x y : List ℝ) : ℝ :=
  (x.length : ℝ) * (x.zip y).foldl (fun acc xy => acc + xy.1 * xy.1) 0
    - (x.zip y).foldl (fun acc xy => acc + xy.1) 0 * (x.zip y).foldl (fun acc xy => acc + xy.1) 0

/-- Helper `PredictionModel::fitLinearRegression`: the least-squares line through the
points `(x[i], y[i])`, returned as `[intercept, slope]`; empty for unequal sizes or fewer
than two points. -/
noncomputable def fitLinearRegression (x y : List ℝ) : List ℝ :=
  if x.length ≠ y.length ∨ x.length < 2 then []
  else
    let n : ℝ := (x.length : ℝ)
    let sumX : ℝ := (x.zip y).foldl (fun acc xy => acc + xy.1) 0
    let sumY : ℝ := (x.zip y).foldl (fun acc xy => acc + xy.2) 0
    let slope : ℝ := regressionNumerator x y / regressionDenominator x y
    let intercept : ℝ := (sumY - slope * sumX) / n
    [intercept, slope]

/-- Training `PredictionModel::trainModel`: the returned flag together with the new value
of the member `m_trainedCoefficients`, whose previous value is `trained`.  The loop
appends `i` to `x` and `timeSeries[i]` to `y` for every index `i` of the series. -/
noncomputable def trainModel (trained : List ℝ) (trainingData : List TimeSeriesData) :
    Bool × List ℝ :=
  if trainingData.length < 10 then (false, trained)
  else
    let timeSeries := extractTimeSeries trainingData
    let x : List ℝ := timeSeries.enum.map (fun iy => (iy.1 : ℝ))
    let y : List ℝ := timeSeries.enum.map (fun iy => iy.2)
    let coefficients := fitLinearRegression x y
    (decide (coefficients.length ≥ 2), coefficients)

/-! ## Ticket price queries (analysisengine.cpp) -/

/-- Function `std::round`: the nearest integer, halfway cases away from zero. -/
def stdRound (x : ℚ) : Int := if 0 ≤ x then ⌊x + 1 / 2⌋ else ⌈x - 1 / 2⌉

/-- The local `roundedPrice` of the ticket price loops:
`std::round(flow->getTicketPrice() / 5.0) * 5.0`. -/
def roundedPrice (flow : PassengerFlow) : ℚ :=
  ((stdRound (flow.m_ticketPrice / 5) : Int) : ℚ) * 5

/-- The bucket of a record in `getTicketPriceDistribution`: for a record whose station
resolves to one of the three target stations, its rounded price; other records are
skipped. -/
def priceBucket (dm : DataManager) (flow : PassengerFlow) : Option ℚ :=
  match dm.getStationById flow.m_stationId with
  | some station =>
    if station.m_name = "成都东站" ∨ station.m_name = "重庆北站" ∨ station.m_name = "成都站" then
      some (roundedPrice flow)
    else none
  | none => none

/-- The loop `for (flow : flows) tally[key(flow)] += flow->getTotalPassengers()`, where a
record without a key is skipped. -/
def tallyFlowsBy {K : Type} [LinearOrder K] [DecidableEq K] (key : PassengerFlow → Option K)
    (flows : List PassengerFlow) : QMap K Int :=
  flows.foldl (fun m flow =>
    match key flow with
    | some k => QMap.update m k 0 (fun v => v + flow.getTotalPassengers)
    | none => m) []

/-- Conversion of a `double` to `int` in an initialisation: truncation toward zero. -/
def truncRatToInt (x : ℚ) : Int := if 0 ≤ x then ⌊x⌋ else ⌈x⌉

/-- The mock loop of `getTicketPriceDistribution`: the mock price at position `k` uses the
value `rnd k` of `std::rand()`. -/
def mockPriceDistribution (rnd : Nat → Nat) : QMap ℚ Int :=
  ([50, 75, 100, 125, 150, 175, 200] : List ℚ).enum.foldl (fun distribution kp =>
    let passengerCount : Int :=
      truncRatToInt (1000 - (kp.2 - 50) * 3 + (((rnd kp.1 % 200 : Nat) : Int) : ℚ))
    QMap.update distribution kp.2 0
      (fun _ => if passengerCount < 100 then 100 else passengerCount)) []

/-- Query `AnalysisEngine::getTicketPriceDistribution`: passengers per rounded price over
the records of the target stations, and mock entries when that tally is empty. -/
def getTicketPriceDistribution (dm : DataManager) (rnd : Nat → Nat) : QMap ℚ Int :=
  let distribution := tallyFlowsBy (priceBucket dm) dm.m_passengerFlows
  if distribution.isEmpty then mockPriceDistribution rnd else distribution

/-- Query `AnalysisEngine::getTicketTypeAndPriceAnalysis`: passengers per ticket type and
rounded price over the records of the target stations. -/
def getTicketTypeAndPriceAnalysis (dm : DataManager) : QMap String (QMap ℚ Int) :=
  dm.m_passengerFlows.foldl (fun analysis flow =>
    match ticketTypeKey dm flow with
    | some ticketType =>
      QMap.update analysis ticketType []
        (fun prices => QMap.update prices (roundedPrice flow) 0
          (fun v => v + flow.getTotalPassengers))
    | none => analysis) []

/-! ## Example data -/

/-- A station named "X". -/
def stationX : Station := ⟨1, "X", "XXX", "X", "XXX"⟩

/-- Scenario A, day 1: 10 boarding and 5 alighting at station X (2015-01-01, 08:05). -/
def flowA1 : PassengerFlow :=
  ⟨"CD-CQ", "G8501", 1, 2457024, QTime.mk 8 0, QTime.mk 8 5, 10, 5, "adult", 80, 1200, "X", "Y"⟩

/-- Scenario A, day 2: 20 boarding and 10 alighting at station X (2015-01-02, 17:30). -/
def flowA2 : PassengerFlow :=
  ⟨"CD-CQ", "G8502", 1, 2457025, QTime.mk 17 25, QTime.mk 17 30, 20, 10, "adult", 80, 2400,
    "X", "Y"⟩

/-- The store of scenario A, as the loaders build it. -/
def storeA : DataManager :=
  DataManager.load [stationX] [⟨"G8501", "G8501", 500⟩, ⟨"G8502", "G8502", 500⟩]
    [flowA1, flowA2]

/-- The station 成都东站 with the id the analysis code expects for it. -/
def stationChengduEast : Station := ⟨1695, "成都东站", "CDE", "成都东", "CDE"⟩

/-- Scenario B: ten consecutive days (2015-01-01 .. 2015-01-10) at 成都东站 with the daily
totals 100, 110, ..., 190. -/
def flowsB : List PassengerFlow :=
  (List.range 10).map (fun k =>
    ⟨"CD-CQ", "G8501", 1695, 2457024 + (k : Int), QTime.mk 8 0, QTime.mk 8 5,
      60 + 10 * (k : Int), 40, "adult", 80, 8000 + 800 * (k : ℚ), "成都东站", "重庆北站"⟩)

/-- The store of scenario B, as the loaders build it. -/
def storeB : DataManager :=
  DataManager.load [stationChengduEast] [⟨"G8501", "G8501", 500⟩] flowsB

/-- The training series of scenario B. -/
noncomputable def seriesB : List ℝ := [100, 110, 120, 130, 140, 150, 160, 170, 180, 190]

/-- A record at station X, departing 08:05, with no boarding and no alighting passenger. -/
def flowZ : PassengerFlow :=
  ⟨"CD-CQ", "G8501", 1, 2457024, QTime.mk 8 0, QTime.mk 8 5, 0, 0, "adult", 80, 0, "X", "Y"⟩

/-- A store whose only record carries no passengers. -/
def storeZ : DataManager :=
  DataManager.load [stationX] [⟨"G8501", "G8501", 500⟩] [flowZ]

/-- A store that holds the station 成都东站 but no record. -/
def storeStationsOnly : DataManager :=
  DataManager.load [stationChengduEast] [⟨"G8501", "G8501", 500⟩] []

/-- A station named "A". -/
def stationA : Station := ⟨1, "A", "AAA", "A", "AAA"⟩

/-- A station named "B". -/
def stationB : Station := ⟨2, "B", "BBB", "B", "BBB"⟩

/-- A record at station "A": 10 passengers, revenue 20. -/
def flowC1 : PassengerFlow :=
  ⟨"CD-CQ", "G8501", 1, 2457024, QTime.mk 8 0, QTime.mk 8 5, 6, 4, "adult", 2, 20, "A", "B"⟩

/-- A record at station "B": 20 passengers, revenue 40. -/
def flowC2 : PassengerFlow :=
  ⟨"CD-CQ", "G8501", 2, 2457024, QTime.mk 9 0, QTime.mk 9 5, 12, 8, "adult", 2, 40, "A", "B"⟩

/-- Two stations with the same revenue per passenger: "B" carries 20 passengers for a
revenue of 40, "A" carries 10 passengers for a revenue of 20. -/
def storeC : DataManager :=
  DataManager.load [stationA, stationB] [⟨"G8501", "G8501", 500⟩] [flowC1, flowC2]

/-- The property that ties of a ranking are broken by ascending key: whenever two adjacent
entries have equal scores, the first has the smaller key. -/
def TiesBrokenByKey (ranking : List (String × ℚ)) : Prop :=
  List.Chain' (fun a b => a.2 = b.2 → a.1 < b.1) ranking

/-- Ten observed points (2015-01-11 .. 2015-01-20, 100 passengers each) handed to the
parameter search. -/
def dataW : List TimeSeriesData :=
  (List.range 10).map (fun k => ⟨2457034 + (k : Int), 100, 0⟩)

/-- A forecast point predicting `v` passengers (the other fields do not enter the
evaluation). -/
noncomputable def predictionOf (v : Int) : PredictionResult :=
  ⟨"", 2457034, v, 0.95, (v : ℝ), (v : ℝ)⟩

/-- An observed point with `v` passengers. -/
def actualOf (v : Int) : TimeSeriesData := ⟨2457034, v, 0⟩

/-! ## Theorems -/

/-- A summation loop computes the sum of the summands. -/
theorem foldl_add_eq_sum {α M : Type} [AddCommMonoid M] (g : α → M) (l : List α) (a : M) :
    l.foldl (fun acc x => acc + g x) a = a + (l.map g).sum := by
  induction l generalizing a with
  | nil => simp
  | cons x xs ih => simp [ih, add_assoc]

/-- Every entry of the sorted result is an entry of the unsorted list. -/
theorem mem_getStationStatistics (S : StdSort) (dm : DataManager) (s : StationStatistics) :
    s ∈ getStationStatistics S dm ↔ s ∈ stationStatisticsUnsorted dm :=
  (S.perm _ _).mem_iff

/-- C1: in every station summary returned by `getStationStatistics`, the total passenger
count is the boarding count plus the alighting count. -/
theorem stationStatistics_total_eq_boarding_add_alighting (S : StdSort) (dm : DataManager)
    (s : StationStatistics) (hs : s ∈ getStationStatistics S dm) :
    s.totalPassengers = s.boardingPassengers + s.alightingPassengers := by
  rw [mem_getStationStatistics] at hs
  unfold stationStatisticsUnsorted at hs
  obtain ⟨kv, -, rfl⟩ := List.mem_map.1 hs
  simp only [stationStatisticsOf, foldl_add_eq_sum, zero_add]
  unfold PassengerFlow.getTotalPassengers
  induction kv.2 with
  | nil => simp
  | cons x xs ih => simp only [List.map_cons, List.sum_cons, ih]; ring


/-- The scenario A store holds its two records. -/
theorem storeA_flows : storeA.m_passengerFlows = [flowA1, flowA2] := rfl

/-- The scenario A store is not empty. -/
theorem storeA_flows_ne_nil : storeA.m_passengerFlows ≠ [] := by
  rw [storeA_flows]
  exact List.cons_ne_nil _ _

/-! ### QMap lemmas -/

/-- A key below all keys of a map is not found. -/
theorem QMap.lookup_eq_none_of_forall_ne {K V : Type} [DecidableEq K] (m : QMap K V) (k : K)
    (h : ∀ kv ∈ m, kv.1 ≠ k) : QMap.lookup m k = none := by
  induction m with
  | nil => rfl
  | cons kv rest ih =>
    have hk : k ≠ kv.1 := fun e => h kv (List.mem_cons_self _ _) e.symm
    rw [QMap.lookup, if_neg hk]
    exact ih (fun kv' hkv' => h kv' (List.mem_cons_of_mem _ hkv'))

/-- In a map with ascending keys, membership of an entry is lookup of its key. -/
theorem QMap.mem_iff_lookup {K V : Type} [LinearOrder K] [DecidableEq K] (m : QMap K V)
    (hm : m.Pairwise (fun a b => a.1 < b.1)) (k : K) (v : V) :
    (k, v) ∈ m ↔ QMap.lookup m k = some v := by
  induction m with
  | nil => simp [QMap.lookup]
  | cons kv rest ih =>
    obtain ⟨k0, v0⟩ := kv
    rw [List.pairwise_cons] at hm
    rw [QMap.lookup]
    by_cases hk : k = k0
    · subst hk
      rw [if_pos rfl, List.mem_cons]
      constructor
      · rintro (h | h)
        · rw [(Prod.mk.inj h).2]
        · exact absurd (hm.1 _ h) (lt_irrefl _)
      · intro h
        rw [Option.some.inj h]
        exact Or.inl rfl
    · rw [if_neg hk, List.mem_cons, ← ih hm.2]
      constructor
      · rintro (h | h)
        · exact absurd (Prod.mk.inj h).1 hk
        · exact h
      · exact Or.inr

/-- Every entry of an updated map carries the updated key or a key of the old map. -/
theorem QMap.key_of_mem_update {K V : Type} [LinearOrder K] [DecidableEq K] (m : QMap K V)
    (k : K) (d : V) (f : V → V) (kv : K × V) (h : kv ∈ QMap.update m k d f) :
    kv.1 = k ∨ ∃ kv' ∈ m, kv'.1 = kv.1 := by
  induction m with
  | nil =>
    rw [QMap.update, List.mem_singleton] at h
    exact Or.inl (by rw [h])
  | cons e rest ih =>
    obtain ⟨k0, v0⟩ := e
    rw [QMap.update] at h
    split_ifs at h with h1 h2
    · rcases List.mem_cons.1 h with h | h
      · exact Or.inl (by rw [h, h1])
      · exact Or.inr ⟨kv, List.mem_cons_of_mem _ h, rfl⟩
    · rcases List.mem_cons.1 h with h | h
      · exact Or.inl (by rw [h])
      · exact Or.inr ⟨kv, h, rfl⟩
    · rcases List.mem_cons.1 h with h | h
      · exact Or.inr ⟨(k0, v0), List.mem_cons_self _ _, by rw [h]⟩
      · rcases ih h with h | ⟨kv', hkv', e⟩
        · exact Or.inl h
        · exact Or.inr ⟨kv', List.mem_cons_of_mem _ hkv', e⟩

/-- Updating a map keeps its keys in ascending order. -/
theorem QMap.update_sorted {K V : Type} [LinearOrder K] [DecidableEq K] (m : QMap K V)
    (hm : m.Pairwise (fun a b => a.1 < b.1)) (k : K) (d : V) (f : V → V) :
    (QMap.update m k d f).Pairwise (fun a b => a.1 < b.1) := by
  induction m with
  | nil => simp [QMap.update]
  | cons e rest ih =>
    obtain ⟨k0, v0⟩ := e
    rw [List.pairwise_cons] at hm
    rw [QMap.update]
    split_ifs with h1 h2
    · exact List.pairwise_cons.2 ⟨hm.1, hm.2⟩
    · refine List.pairwise_cons.2 ⟨?_, List.pairwise_cons.2 hm⟩
      intro kv hkv
      rcases List.mem_cons.1 hkv with h | h
      · rw [h]; exact h2
      · exact lt_trans h2 (hm.1 kv h)
    · refine List.pairwise_cons.2 ⟨?_, ih hm.2⟩
      intro kv hkv
      rcases QMap.key_of_mem_update rest k d f kv hkv with h | ⟨kv', hkv', e⟩
      · rw [h]
        exact lt_of_le_of_ne (not_lt.1 h2) (fun e => h1 e.symm)
      · rw [← e]
        exact hm.1 kv' hkv'

/-- Lookup after an update, in a map with ascending keys. -/
theorem QMap.lookup_update {K V : Type} [LinearOrder K] [DecidableEq K] (m : QMap K V)
    (hm : m.Pairwise (fun a b => a.1 < b.1)) (k : K) (d : V) (f : V → V) (k' : K) :
    QMap.lookup (QMap.update m k d f) k' =
      if k' = k then some (f ((QMap.lookup m k).getD d)) else QMap.lookup m k' := by
  induction m with
  | nil => simp [QMap.update, QMap.lookup]
  | cons e rest ih =>
    obtain ⟨k0, v0⟩ := e
    rw [List.pairwise_cons] at hm
    rw [QMap.update]
    by_cases h1 : k = k0
    · subst h1
      rw [if_pos rfl]
      by_cases h3 : k' = k
      · subst h3
        simp [QMap.lookup]
      · simp [QMap.lookup, h3]
    · rw [if_neg h1]
      by_cases h2 : k < k0
      · rw [if_pos h2]
        have hnone : QMap.lookup ((k0, v0) :: rest) k = none := by
          apply QMap.lookup_eq_none_of_forall_ne
          intro kv hkv
          rcases List.mem_cons.1 hkv with h | h
          · rw [h]; exact fun e => h1 e.symm
          · exact fun e => absurd (hm.1 kv h) (by rw [e]; exact not_lt.2 (le_of_lt h2))
        by_cases h3 : k' = k
        · subst h3
          rw [hnone]
          simp [QMap.lookup]
        · rw [if_neg h3]
          conv_lhs => rw [QMap.lookup, if_neg h3]
      · rw [if_neg h2]
        conv_lhs => rw [QMap.lookup]
        by_cases h4 : k' = k0
        · have h3 : k' ≠ k := fun e => h1 (e.symm.trans h4)
          rw [if_pos h4, if_neg h3, QMap.lookup, if_pos h4]
        · rw [if_neg h4, ih hm.2]
          by_cases h3 : k' = k
          · subst h3
            rw [if_pos rfl, if_pos rfl]
            conv_rhs => rw [QMap.lookup, if_neg h1]
          · rw [if_neg h3, if_neg h3]
            conv_rhs => rw [QMap.lookup, if_neg h4]

/-! ### Grouping lemmas -/

/-- One more iteration of the grouping loop. -/
theorem groupFlows_append_singleton {K : Type} [LinearOrder K] [DecidableEq K]
    (key : PassengerFlow → Option K) (l : List PassengerFlow) (x : PassengerFlow) :
    groupFlows key (l ++ [x]) =
      match key x with
      | some k => QMap.update (groupFlows key l) k [] (fun v => v ++ [x])
      | none => groupFlows key l := by
  simp [groupFlows, List.foldl_append]

/-- The grouping map has ascending keys. -/
theorem groupFlows_sorted {K : Type} [LinearOrder K] [DecidableEq K]
    (key : PassengerFlow → Option K) (l : List PassengerFlow) :
    (groupFlows key l).Pairwise (fun a b => a.1 < b.1) := by
  induction l using List.reverseRecOn with
  | nil => simp [groupFlows]
  | append_singleton l x ih =>
    rw [groupFlows_append_singleton]
    cases key x with
    | none => exact ih
    | some k => exact QMap.update_sorted _ ih _ _ _

/-- The group stored under a key is the list of the records with that key, in input
order; keys without a record are absent. -/
theorem groupFlows_lookup {K : Type} [LinearOrder K] [DecidableEq K]
    (key : PassengerFlow → Option K) (l : List PassengerFlow) (k : K) :
    QMap.lookup (groupFlows key l) k =
      if l.filter (fun x => decide (key x = some k)) = [] then none
      else some (l.filter (fun x => decide (key x = some k))) := by
  induction l using List.reverseRecOn with
  | nil => simp [groupFlows, QMap.lookup]
  | append_singleton l x ih =>
    rw [groupFlows_append_singleton]
    cases hx : key x with
    | none => simp [List.filter_append, List.filter_cons, hx, ih]
    | some k0 =>
      simp only []
      rw [QMap.lookup_update _ (groupFlows_sorted key l)]
      by_cases hk : k = k0
      · subst hk
        rw [if_pos rfl, ih]
        have hfx : List.filter (fun x => decide (key x = some k)) [x] = [x] := by
          simp [List.filter_cons, hx]
        rw [List.filter_append, hfx]
        by_cases he : l.filter (fun x => decide (key x = some k)) = []
        · simp [he]
        · simp [he]
      · rw [if_neg hk, ih]
        have hfx : List.filter (fun x => decide (key x = some k)) [x] = [] := by
          simp only [List.filter_cons, hx, List.filter_nil]
          rw [if_neg]
          simpa using fun e => hk e.symm
        rw [List.filter_append, hfx, List.append_nil]

/-- The entries of the grouping map: one per key that occurs, holding the records with
that key in input order. -/
theorem mem_groupFlows {K : Type} [LinearOrder K] [DecidableEq K]
    (key : PassengerFlow → Option K) (l : List PassengerFlow) (k : K)
    (vs : List PassengerFlow) :
    (k, vs) ∈ groupFlows key l ↔
      vs = l.filter (fun x => decide (key x = some k)) ∧ vs ≠ [] := by
  rw [QMap.mem_iff_lookup _ (groupFlows_sorted key l), groupFlows_lookup]
  by_cases he : l.filter (fun x => decide (key x = some k)) = []
  · rw [if_pos he, he]
    constructor
    · intro h; cases h
    · rintro ⟨h1, h2⟩; exact absurd h1 h2
  · rw [if_neg he]
    constructor
    · intro h
      have := Option.some.inj h
      exact ⟨this.symm, this ▸ he⟩
    · rintro ⟨h1, -⟩; rw [h1]

/-! ### Time-series lemmas -/

/-- The date comparator of the time-series queries is a strict weak ordering. -/
theorem dateLess_strictWeakOrder :
    StrictWeakOrder (fun (a b : TimeSeriesData) => decide (a.date < b.date)) where
  asymm := fun a b h => by
    have h1 : a.date < b.date := of_decide_eq_true h
    exact decide_eq_false (not_lt.2 (le_of_lt h1))
  negTrans := fun a b c h => by
    have h1 : a.date < c.date := of_decide_eq_true h
    rcases lt_or_le a.date b.date with h2 | h2
    · exact Or.inl (decide_eq_true h2)
    · exact Or.inr (decide_eq_true (lt_of_le_of_lt h2 h1))

/-- Sorting by date a list whose dates are already strictly ascending changes nothing. -/
theorem StdSort.sort_dates_eq_self (S : StdSort) (l : List TimeSeriesData)
    (hl : l.Pairwise (fun a b => a.date < b.date)) :
    S.sort (fun a b => decide (a.date < b.date)) l = l := by
  have hperm := S.perm (fun (a b : TimeSeriesData) => decide (a.date < b.date)) l
  have hle := S.sorted (fun (a b : TimeSeriesData) => decide (a.date < b.date)) l
    dateLess_strictWeakOrder
  have hne : (S.sort (fun (a b : TimeSeriesData) => decide (a.date < b.date)) l).Pairwise
      (fun a b => a.date ≠ b.date) :=
    (hperm.pairwise_iff (fun {a b} (h : a.date ≠ b.date) => h.symm)).2
      (hl.imp (fun h => ne_of_lt h))
  have hlt : (S.sort (fun (a b : TimeSeriesData) => decide (a.date < b.date)) l).Pairwise
      (fun a b => a.date < b.date) :=
    (hle.and hne).imp (fun h => lt_of_le_of_ne (not_lt.1 (of_decide_eq_false h.1)) h.2)
  haveI : IsAntisymm TimeSeriesData (fun a b => a.date < b.date) :=
    ⟨fun a b h1 h2 => absurd h1 (not_lt.2 (le_of_lt h2))⟩
  exact List.eq_of_perm_of_sorted hperm hlt hl

/-- The unsorted points already come in strictly ascending date order. -/
theorem timeSeriesUnsorted_pairwise (l : List PassengerFlow) :
    (timeSeriesUnsorted l).Pairwise (fun a b => a.date < b.date) := by
  unfold timeSeriesUnsorted
  rw [List.pairwise_map]
  exact groupFlows_sorted _ l

/-- The unsorted points: one per date that occurs, built from the records of that date. -/
theorem mem_timeSeriesUnsorted (l : List PassengerFlow) (p : TimeSeriesData) :
    p ∈ timeSeriesUnsorted l ↔
      l.filter (fun r => decide (r.m_date = p.date)) ≠ [] ∧
      p = timeSeriesPointOf p.date (l.filter (fun r => decide (r.m_date = p.date))) := by
  unfold timeSeriesUnsorted
  rw [List.mem_map]
  have hf : ∀ d : QDate, (fun (x : PassengerFlow) => decide (some x.m_date = some d)) =
      (fun r => decide (r.m_date = d)) := by
    intro d; funext x; simp
  constructor
  · rintro ⟨⟨d, vs⟩, hmem, rfl⟩
    rw [mem_groupFlows, hf] at hmem
    obtain ⟨h1, h2⟩ := hmem
    subst h1
    exact ⟨h2, rfl⟩
  · rintro ⟨h1, h2⟩
    refine ⟨(p.date, l.filter (fun r => decide (r.m_date = p.date))), ?_, h2.symm⟩
    rw [mem_groupFlows, hf]
    exact ⟨rfl, h1⟩

/-- On a store with records the range query is a filter. -/
theorem getPassengerFlowsByDateRange_of_ne_nil (dm : DataManager) (rnd : Nat → Nat)
    (startDate endDate : QDate) (h : dm.m_passengerFlows ≠ []) :
    dm.getPassengerFlowsByDateRange rnd startDate endDate =
      dm.m_passengerFlows.filter (fun flow =>
        QDate.isValid flow.m_date && (decide (flow.m_date ≥ startDate) &&
          decide (flow.m_date ≤ endDate))) := by
  unfold DataManager.getPassengerFlowsByDateRange
  rw [if_neg]
  simpa using h

/-- The time series of a store with records, without the final (idle) sort. -/
theorem getTimeSeriesData_of_ne_nil (S : StdSort) (rnd : Nat → Nat) (dm : DataManager)
    (startDate endDate : QDate) (h : dm.m_passengerFlows ≠ []) :
    getTimeSeriesData S rnd dm startDate endDate =
      timeSeriesUnsorted (dm.m_passengerFlows.filter (fun flow =>
        QDate.isValid flow.m_date && (decide (flow.m_date ≥ startDate) &&
          decide (flow.m_date ≤ endDate)))) := by
  unfold getTimeSeriesData
  rw [S.sort_dates_eq_self _ (timeSeriesUnsorted_pairwise _),
    getPassengerFlowsByDateRange_of_ne_nil dm rnd startDate endDate h]

/-- Selecting the records of one date commutes with the range filter when some record
of that date passes the range filter. -/
theorem filter_date_filter_range (flows : List PassengerFlow) (startDate endDate d : QDate)
    (h : (flows.filter (fun flow => QDate.isValid flow.m_date &&
      (decide (flow.m_date ≥ startDate) && decide (flow.m_date ≤ endDate)))).filter
        (fun r => decide (r.m_date = d)) ≠ []) :
    (QDate.isValid d = true ∧ startDate ≤ d ∧ d ≤ endDate) ∧
    (flows.filter (fun flow => QDate.isValid flow.m_date &&
      (decide (flow.m_date ≥ startDate) && decide (flow.m_date ≤ endDate)))).filter
        (fun r => decide (r.m_date = d)) = flows.filter (fun r => decide (r.m_date = d)) := by
  obtain ⟨r, hr⟩ := List.exists_mem_of_ne_nil _ h
  simp only [List.mem_filter, Bool.and_eq_true, decide_eq_true_eq, ge_iff_le] at hr
  obtain ⟨⟨-, hv, hs, he⟩, hd⟩ := hr
  subst hd
  refine ⟨⟨hv, hs, he⟩, ?_⟩
  rw [List.filter_filter]
  apply List.filter_congr
  intro x _
  by_cases hx : x.m_date = r.m_date
  · simp [hx, hv, hs, he]
  · simp [hx]

/-- C4 (amended): on a store with at least one record, `getTimeSeriesData` returns the
time series of the stored records over the window: strictly ascending dates, one point
per valid in-window date that has a record, each with the sums over that date. -/
theorem getTimeSeriesData_isTimeSeries (S : StdSort) (rnd : Nat → Nat) (dm : DataManager)
    (startDate endDate : QDate) (h : dm.m_passengerFlows ≠ []) :
    IsTimeSeriesOf dm.m_passengerFlows startDate endDate
      (getTimeSeriesData S rnd dm startDate endDate) := by
  rw [getTimeSeriesData_of_ne_nil S rnd dm startDate endDate h]
  refine ⟨timeSeriesUnsorted_pairwise _, ?_, ?_⟩
  · intro d
    constructor
    · rintro ⟨p, hp, rfl⟩
      rw [mem_timeSeriesUnsorted] at hp
      obtain ⟨⟨hv, hs, he⟩, heq⟩ := filter_date_filter_range _ _ _ _ hp.1
      refine ⟨hv, hs, he, ?_⟩
      have hne := hp.1
      rw [heq] at hne
      obtain ⟨r, hr⟩ := List.exists_mem_of_ne_nil _ hne
      rw [List.mem_filter] at hr
      exact ⟨r, hr.1, of_decide_eq_true hr.2⟩
    · rintro ⟨hv, hs, he, r, hr, rfl⟩
      refine ⟨timeSeriesPointOf r.m_date ((dm.m_passengerFlows.filter (fun flow =>
        QDate.isValid flow.m_date && (decide (flow.m_date ≥ startDate) &&
          decide (flow.m_date ≤ endDate)))).filter (fun x => decide (x.m_date = r.m_date))),
        ?_, rfl⟩
      rw [mem_timeSeriesUnsorted]
      refine ⟨?_, rfl⟩
      apply List.ne_nil_of_mem (a := r)
      simp [List.mem_filter, hr, hv, hs, he, timeSeriesPointOf]
  · intro p hp
    rw [mem_timeSeriesUnsorted] at hp
    obtain ⟨-, heq⟩ := filter_date_filter_range _ _ _ _ hp.1
    have hp2 := hp.2
    rw [heq] at hp2
    constructor
    · conv_lhs => rw [hp2]
      simp [timeSeriesPointOf, foldl_add_eq_sum]
    · conv_lhs => rw [hp2]
      simp [timeSeriesPointOf, foldl_add_eq_sum]

/-- C4, witness: the time series of the scenario A store over a window around its dates. -/
theorem getTimeSeriesData_isTimeSeries_witness :
    storeA.m_passengerFlows ≠ [] ∧
    IsTimeSeriesOf storeA.m_passengerFlows 2457000 2457030
      (getTimeSeriesData insertionStdSort (fun _ => 0) storeA 2457000 2457030) :=
  ⟨storeA_flows_ne_nil,
    getTimeSeriesData_isTimeSeries insertionStdSort (fun _ => 0) storeA 2457000 2457030
      storeA_flows_ne_nil⟩

/-- C4, counterexample: on the empty store the query for the single day 2015-01-01
returns a point although no record exists, so the result is not the time series of the
stored records. -/
theorem getTimeSeriesData_empty_store_not_timeSeries :
    ¬ IsTimeSeriesOf DataManager.empty.m_passengerFlows 2457024 2457024
      (getTimeSeriesData insertionStdSort (fun _ => 0) DataManager.empty 2457024 2457024) := by
  intro h
  have hd : (getTimeSeriesData insertionStdSort (fun _ => 0) DataManager.empty
      2457024 2457024).map (fun p => p.date) = [2457024] := by decide
  have hex : ∃ p ∈ getTimeSeriesData insertionStdSort (fun _ => 0) DataManager.empty
      2457024 2457024, p.date = 2457024 := by
    have hm : (2457024 : QDate) ∈ (getTimeSeriesData insertionStdSort (fun _ => 0)
        DataManager.empty 2457024 2457024).map (fun p => p.date) := by
      rw [hd]; exact List.mem_singleton.2 rfl
    obtain ⟨p, hp, hpd⟩ := List.mem_map.1 hm
    exact ⟨p, hp, hpd⟩
  obtain ⟨-, -, -, r, hr, -⟩ := (h.2.1 2457024).1 hex
  exact List.not_mem_nil r hr

/-- Appending a record to one group adds its value to the sum over all groups. -/
theorem QMap.sum_update_append {K : Type} [LinearOrder K] [DecidableEq K]
    (g : PassengerFlow → Int) (m : QMap K (List PassengerFlow)) (k : K) (x : PassengerFlow) :
    ((QMap.update m k [] (fun v => v ++ [x])).map (fun kv => (kv.2.map g).sum)).sum =
      (m.map (fun kv => (kv.2.map g).sum)).sum + g x := by
  induction m with
  | nil => simp [QMap.update]
  | cons e rest ih =>
    obtain ⟨k0, v0⟩ := e
    rw [QMap.update]
    split_ifs with h1 h2
    · simp only [List.map_cons, List.sum_cons, List.map_append, List.sum_append, List.map_nil,
        List.sum_nil]
      ring
    · simp only [List.map_cons, List.sum_cons, List.map_append, List.sum_append, List.map_nil,
        List.sum_nil]
      ring
    · simp only [List.map_cons, List.sum_cons, ih]
      ring

/-- Summing group by group is summing over all records when every record has a key. -/
theorem groupFlows_sum {K : Type} [LinearOrder K] [DecidableEq K] (key : PassengerFlow → K)
    (g : PassengerFlow → Int) (l : List PassengerFlow) :
    ((groupFlows (fun x => some (key x)) l).map (fun kv => (kv.2.map g).sum)).sum =
      (l.map g).sum := by
  induction l using List.reverseRecOn with
  | nil => simp [groupFlows]
  | append_singleton l x ih =>
    rw [groupFlows_append_singleton]
    simp only []
    rw [QMap.sum_update_append, ih]
    simp

/-- The passenger counts of the unsorted points add up to the total over the records. -/
theorem timeSeriesUnsorted_sum (l : List PassengerFlow) :
    ((timeSeriesUnsorted l).map (fun p => p.passengers)).sum =
      (l.map PassengerFlow.getTotalPassengers).sum := by
  rw [← groupFlows_sum PassengerFlow.m_date PassengerFlow.getTotalPassengers l]
  unfold timeSeriesUnsorted
  rw [List.map_map]
  congr 1
  apply List.map_congr_left
  intro kv _
  simp [timeSeriesPointOf, foldl_add_eq_sum]

/-- C5 (amended): on a store with at least one record, when every record carries a valid
date inside the queried window, the passenger counts of the time-series points add up to
`DataManager::getTotalPassengers`. -/
theorem timeSeries_sum_eq_total (S : StdSort) (rnd : Nat → Nat) (dm : DataManager)
    (startDate endDate : QDate) (hne : dm.m_passengerFlows ≠ [])
    (hcover : ∀ r ∈ dm.m_passengerFlows,
      QDate.isValid r.m_date = true ∧ startDate ≤ r.m_date ∧ r.m_date ≤ endDate) :
    ((getTimeSeriesData S rnd dm startDate endDate).map (fun p => p.passengers)).sum =
      dm.getTotalPassengers := by
  rw [getTimeSeriesData_of_ne_nil S rnd dm startDate endDate hne]
  have hfilter : dm.m_passengerFlows.filter (fun flow =>
      QDate.isValid flow.m_date && (decide (flow.m_date ≥ startDate) &&
        decide (flow.m_date ≤ endDate))) = dm.m_passengerFlows := by
    rw [List.filter_eq_self]
    intro r hr
    obtain ⟨hv, hs, he⟩ := hcover r hr
    simp [hv, hs, he]
  rw [hfilter, timeSeriesUnsorted_sum]
  unfold DataManager.getTotalPassengers
  rw [foldl_add_eq_sum, zero_add]

/-- C5, witness: the scenario A store over a window around its two dates. -/
theorem timeSeries_sum_eq_total_witness :
    storeA.m_passengerFlows ≠ [] ∧
    ((getTimeSeriesData insertionStdSort (fun _ => 0) storeA 2457000 2457030).map
      (fun p => p.passengers)).sum = storeA.getTotalPassengers :=
  ⟨storeA_flows_ne_nil,
    timeSeries_sum_eq_total insertionStdSort (fun _ => 0) storeA 2457000 2457030
      storeA_flows_ne_nil (by rw [storeA_flows]; decide)⟩

/-- C5, counterexample: on the empty store the window 2015-01-01 .. 2015-01-01 covers the
dates of all (zero) records, the time series sums to 1500 passengers, and the manual
total over the records is 0. -/
theorem timeSeries_sum_ne_total_empty_store :
    (∀ r ∈ DataManager.empty.m_passengerFlows,
      QDate.isValid r.m_date = true ∧ (2457024 : QDate) ≤ r.m_date ∧ r.m_date ≤ 2457024) ∧
    ((getTimeSeriesData insertionStdSort (fun _ => 0) DataManager.empty 2457024 2457024).map
      (fun p => p.passengers)).sum = 1500 ∧
    DataManager.empty.getTotalPassengers = 0 ∧
    ((getTimeSeriesData insertionStdSort (fun _ => 0) DataManager.empty 2457024 2457024).map
      (fun p => p.passengers)).sum ≠ DataManager.empty.getTotalPassengers := by
  refine ⟨fun r hr => absurd hr (List.not_mem_nil r), by decide, by decide, by decide⟩

/-- Sorting a one-element list leaves it unchanged. -/
theorem StdSort.sort_singleton (S : StdSort) {α : Type} (comp : α → α → Bool) (a : α) :
    S.sort comp [a] = [a] :=
  List.perm_singleton.1 (S.perm comp [a])

/-- Sorting the empty list gives the empty list. -/
theorem StdSort.sort_nil (S : StdSort) {α : Type} (comp : α → α → Bool) :
    S.sort comp ([] : List α) = [] :=
  List.perm_nil.1 (S.perm comp [])

/-- Two records that resolve to the same station form a single group. -/
theorem stationStatisticsUnsorted_pair (dm : DataManager) (st : Station)
    (r1 r2 : PassengerFlow) (hflows : dm.m_passengerFlows = [r1, r2])
    (h1 : dm.getStationById r1.m_stationId = some st)
    (h2 : dm.getStationById r2.m_stationId = some st) :
    stationStatisticsUnsorted dm = [stationStatisticsOf st.m_name [r1, r2]] := by
  simp [stationStatisticsUnsorted, groupFlows, hflows, h1, h2, QMap.update]

/-- C1, witness: the summary of station X in scenario A. -/
theorem stationStatistics_total_eq_boarding_add_alighting_witness :
    stationStatisticsOf "X" [flowA1, flowA2] ∈ getStationStatistics insertionStdSort storeA ∧
    (stationStatisticsOf "X" [flowA1, flowA2]).totalPassengers =
      (stationStatisticsOf "X" [flowA1, flowA2]).boardingPassengers +
      (stationStatisticsOf "X" [flowA1, flowA2]).alightingPassengers :=
  have hmem : stationStatisticsOf "X" [flowA1, flowA2] ∈
      getStationStatistics insertionStdSort storeA := by
    rw [mem_getStationStatistics,
      stationStatisticsUnsorted_pair storeA stationX flowA1 flowA2 rfl rfl rfl]
    exact List.mem_singleton.2 rfl
  ⟨hmem, stationStatistics_total_eq_boarding_add_alighting insertionStdSort storeA _ hmem⟩

/-- C2 (scenario A): when the store holds exactly two records, both resolving to a
station named "X", with 10 boarding / 5 alighting and 20 boarding / 10 alighting,
`getStationStatistics` returns exactly one summary, for "X", with 45 total, 30 boarding
and 15 alighting passengers. -/
theorem scenarioA_stationStatistics (S : StdSort) (dm : DataManager) (st : Station)
    (r1 r2 : PassengerFlow) (hflows : dm.m_passengerFlows = [r1, r2])
    (h1 : dm.getStationById r1.m_stationId = some st)
    (h2 : dm.getStationById r2.m_stationId = some st)
    (hname : st.m_name = "X")
    (hb1 : r1.m_boardingPassengers = 10) (ha1 : r1.m_alightingPassengers = 5)
    (hb2 : r2.m_boardingPassengers = 20) (ha2 : r2.m_alightingPassengers = 10) :
    ∃ s, getStationStatistics S dm = [s] ∧ s.stationName = "X" ∧
      s.totalPassengers = 45 ∧ s.boardingPassengers = 30 ∧ s.alightingPassengers = 15 := by
  refine ⟨stationStatisticsOf st.m_name [r1, r2], ?_, hname, ?_, ?_, ?_⟩
  · unfold getStationStatistics
    rw [stationStatisticsUnsorted_pair dm st r1 r2 hflows h1 h2, S.sort_singleton]
  · simp [stationStatisticsOf, PassengerFlow.getTotalPassengers, hb1, ha1, hb2, ha2]
  · simp [stationStatisticsOf, hb1, hb2]
  · simp [stationStatisticsOf, ha1, ha2]

/-- C2, witness: the loaded store of scenario A. -/
theorem scenarioA_stationStatistics_witness :
    ∃ s, getStationStatistics insertionStdSort storeA = [s] ∧ s.stationName = "X" ∧
      s.totalPassengers = 45 ∧ s.boardingPassengers = 30 ∧ s.alightingPassengers = 15 :=
  scenarioA_stationStatistics insertionStdSort storeA stationX flowA1 flowA2 rfl rfl rfl rfl
    rfl rfl rfl rfl

/-- C3: on a store without records, whatever stations and trains it holds,
`getStationStatistics` returns the empty list. -/
theorem getStationStatistics_no_records (S : StdSort) (stations : List Station)
    (trains : List Train) (stationMap : QMap Int Station) (trainMap : QMap String Train) :
    getStationStatistics S ⟨stations, trains, [], stationMap, trainMap⟩ = [] := by
  unfold getStationStatistics stationStatisticsUnsorted groupFlows
  exact S.sort_nil _

/-! ### Correlation lemmas -/

/-- The `double` accumulation of `int` values is the sum of their casts. -/
theorem sumAsReal_eq (l : List Int) : sumAsReal l = (l.map (fun (v : Int) => (v : ℝ))).sum := by
  unfold sumAsReal
  rw [foldl_add_eq_sum, zero_add]

/-- The sum of the products of a series with itself. -/
theorem sumAsReal_zipWith_self (l : List Int) :
    sumAsReal (List.zipWith (fun (a b : Int) => a * b) l l) =
      (l.map (fun (v : Int) => (v : ℝ) * (v : ℝ))).sum := by
  rw [sumAsReal_eq]
  induction l with
  | nil => rfl
  | cons a l ih =>
    simp only [List.zipWith_cons_cons, List.map_cons, List.sum_cons, ih]
    push_cast
    ring

/-- The sum of a negated series. -/
theorem sumAsReal_neg (l : List Int) :
    sumAsReal (l.map (fun (v : Int) => -v)) = -(l.map (fun (v : Int) => (v : ℝ))).sum := by
  rw [sumAsReal_eq]
  induction l with
  | nil => simp
  | cons a l ih =>
    simp only [List.map_cons, List.sum_cons, ih]
    push_cast
    ring

/-- The sum of the products of a series with its negation. -/
theorem sumAsReal_zipWith_neg (l : List Int) :
    sumAsReal (List.zipWith (fun (a b : Int) => a * b) l (l.map (fun (v : Int) => -v))) =
      -(l.map (fun (v : Int) => (v : ℝ) * (v : ℝ))).sum := by
  rw [sumAsReal_eq]
  induction l with
  | nil => simp
  | cons a l ih =>
    simp only [List.zipWith_cons_cons, List.map_cons, List.sum_cons, ih]
    push_cast
    ring

/-- The sum of the squares of a negated series. -/
theorem sumAsReal_zipWith_neg_neg (l : List Int) :
    sumAsReal (List.zipWith (fun (a b : Int) => a * b) (l.map (fun (v : Int) => -v))
      (l.map (fun (v : Int) => -v))) =
      (l.map (fun (v : Int) => (v : ℝ) * (v : ℝ))).sum := by
  rw [sumAsReal_eq]
  induction l with
  | nil => rfl
  | cons a l ih =>
    simp only [List.zipWith_cons_cons, List.map_cons, List.sum_cons, ih]
    push_cast
    ring

/-- Expansion of the sum of squared deviations from an arbitrary centre. -/
theorem sum_sq_dev (l : List Int) (c : ℝ) :
    (l.map (fun (v : Int) => ((v : ℝ) - c) * ((v : ℝ) - c))).sum =
      (l.map (fun (v : Int) => (v : ℝ) * (v : ℝ))).sum - 2 * c * (l.map (fun (v : Int) => (v : ℝ))).sum
        + (l.length : ℝ) * (c * c) := by
  induction l with
  | nil => simp
  | cons a l ih =>
    simp only [List.map_cons, List.sum_cons, ih, List.length_cons, Nat.cast_add, Nat.cast_one]
    ring

/-- The factor `n * Sxx - Sx * Sx` is `n` times the sum of squared deviations from the
mean. -/
theorem pearson_factor_eq (l : List Int) (hl : l ≠ []) :
    (l.length : ℝ) * (l.map (fun (v : Int) => (v : ℝ) * (v : ℝ))).sum
        - (l.map (fun (v : Int) => (v : ℝ))).sum * (l.map (fun (v : Int) => (v : ℝ))).sum =
      (l.length : ℝ) * (l.map (fun (v : Int) =>
        ((v : ℝ) - (l.map (fun (v : Int) => (v : ℝ))).sum / (l.length : ℝ)) *
        ((v : ℝ) - (l.map (fun (v : Int) => (v : ℝ))).sum / (l.length : ℝ)))).sum := by
  have hn : (l.length : ℝ) ≠ 0 := by
    have : l.length ≠ 0 := fun h => hl (List.length_eq_zero.1 h)
    exact_mod_cast this
  rw [sum_sq_dev]
  field_simp
  ring

/-- A sum of squared deviations is non-negative. -/
theorem sum_sq_dev_nonneg (l : List Int) (c : ℝ) :
    0 ≤ (l.map (fun (v : Int) => ((v : ℝ) - c) * ((v : ℝ) - c))).sum := by
  apply List.sum_nonneg
  intro a ha
  obtain ⟨v, -, rfl⟩ := List.mem_map.1 ha
  exact mul_self_nonneg _

/-- A sum of squared deviations is positive as soon as one value differs from the centre. -/
theorem sum_sq_dev_pos (l : List Int) (c : ℝ) (h : ∃ v ∈ l, (v : ℝ) ≠ c) :
    0 < (l.map (fun (v : Int) => ((v : ℝ) - c) * ((v : ℝ) - c))).sum := by
  induction l with
  | nil => obtain ⟨v, hv, -⟩ := h; cases hv
  | cons a l ih =>
    rw [List.map_cons, List.sum_cons]
    obtain ⟨v, hv, hne⟩ := h
    rcases List.mem_cons.1 hv with e | hv'
    · subst e
      have h1 : 0 < ((v : ℝ) - c) * ((v : ℝ) - c) := mul_self_pos.2 (sub_ne_zero.2 hne)
      have h2 := sum_sq_dev_nonneg l c
      linarith
    · have h1 : 0 ≤ ((a : ℝ) - c) * ((a : ℝ) - c) := mul_self_nonneg _
      have h2 := ih ⟨v, hv', hne⟩
      linarith

/-- The factor `n * Sxx - Sx * Sx` is never negative. -/
theorem pearson_factor_nonneg (l : List Int) :
    0 ≤ (l.length : ℝ) * (l.map (fun (v : Int) => (v : ℝ) * (v : ℝ))).sum
        - (l.map (fun (v : Int) => (v : ℝ))).sum * (l.map (fun (v : Int) => (v : ℝ))).sum := by
  by_cases hl : l = []
  · subst hl; simp
  · rw [pearson_factor_eq l hl]
    exact mul_nonneg (Nat.cast_nonneg _) (sum_sq_dev_nonneg l _)

/-- The factor `n * Sxx - Sx * Sx` is positive for a series that is not constant. -/
theorem pearson_factor_pos (l : List Int) (hnc : ¬ ∃ c : Int, ∀ v ∈ l, v = c) :
    0 < (l.length : ℝ) * (l.map (fun (v : Int) => (v : ℝ) * (v : ℝ))).sum
        - (l.map (fun (v : Int) => (v : ℝ))).sum * (l.map (fun (v : Int) => (v : ℝ))).sum := by
  have hl : l ≠ [] := by
    rintro rfl
    exact hnc ⟨0, fun v hv => absurd hv (List.not_mem_nil v)⟩
  rw [pearson_factor_eq l hl]
  have hn : (0 : ℝ) < (l.length : ℝ) := by
    have : 0 < l.length := List.length_pos.2 hl
    exact_mod_cast this
  apply mul_pos hn
  apply sum_sq_dev_pos
  by_contra hall
  push_neg at hall
  obtain ⟨a, ha⟩ := List.exists_mem_of_ne_nil l hl
  apply hnc
  refine ⟨a, fun v hv => ?_⟩
  have h1 := hall v hv
  have h2 := hall a ha
  exact_mod_cast h1.trans h2.symm

/-- The factor `n * Sxx - Sx * Sx` vanishes for a constant series. -/
theorem pearson_factor_const (l : List Int) (hc : ∃ c : Int, ∀ v ∈ l, v = c) :
    (l.length : ℝ) * (l.map (fun (v : Int) => (v : ℝ) * (v : ℝ))).sum
        - (l.map (fun (v : Int) => (v : ℝ))).sum * (l.map (fun (v : Int) => (v : ℝ))).sum = 0 := by
  obtain ⟨c, hc⟩ := hc
  have hrep : l = List.replicate l.length c := List.eq_replicate_iff.2 ⟨rfl, hc⟩
  have h1 : (l.map (fun (v : Int) => (v : ℝ) * (v : ℝ))).sum = (l.length : ℝ) * ((c : ℝ) * (c : ℝ)) := by
    conv_lhs => rw [hrep]
    simp
  have h2 : (l.map (fun (v : Int) => (v : ℝ))).sum = (l.length : ℝ) * (c : ℝ) := by
    conv_lhs => rw [hrep]
    simp
  rw [h1, h2]
  ring

/-- A value inside the range of `int` is not changed by the reduction to 32 bits. -/
theorem wrapInt32_of_bounded (v : Int) (h1 : -2147483648 ≤ v) (h2 : v < 2147483648) :
    wrapInt32 v = v := by
  unfold wrapInt32
  omega

/-- The product of two values of absolute value at most 46340 fits an `int`. -/
theorem intMul_of_bounded (a b : Int) (ha : |a| ≤ 46340) (hb : |b| ≤ 46340) :
    intMul a b = a * b := by
  have h : |a * b| ≤ 46340 * 46340 := by
    rw [abs_mul]
    exact mul_le_mul ha hb (abs_nonneg _) (by norm_num)
  have h' := abs_le.1 h
  unfold intMul
  exact wrapInt32_of_bounded _ (by linarith [h'.1]) (by linarith [h'.2])

/-- For series of values of absolute value at most 46340 the `int` products are the exact
products. -/
theorem zipWith_intMul_of_bounded (x y : List Int) (hx : ∀ v ∈ x, |v| ≤ 46340)
    (hy : ∀ v ∈ y, |v| ≤ 46340) :
    List.zipWith intMul x y = List.zipWith (fun (a b : Int) => a * b) x y := by
  induction x generalizing y with
  | nil => simp
  | cons a x ih =>
    cases y with
    | nil => simp
    | cons b y =>
      simp only [List.zipWith_cons_cons]
      rw [intMul_of_bounded a b (hx a (List.mem_cons_self _ _)) (hy b (List.mem_cons_self _ _)),
        ih y (fun v hv => hx v (List.mem_cons_of_mem _ hv))
          (fun v hv => hy v (List.mem_cons_of_mem _ hv))]

/-- The negation of a bounded series is bounded. -/
theorem bounded_neg (x : List Int) (hx : ∀ v ∈ x, |v| ≤ 46340) :
    ∀ v ∈ x.map (fun (v : Int) => -v), |v| ≤ 46340 := by
  intro v hv
  obtain ⟨w, hw, rfl⟩ := List.mem_map.1 hv
  rw [abs_neg]
  exact hx w hw

/-- The radicand of the series 50000, 60000 against itself: both factors are
-17079869184, because the squares 2500000000 and 3600000000 do not fit an `int`. -/
theorem pearsonRadicand_overflow :
    pearsonRadicand [50000, 60000] [50000, 60000] = 17079869184 * 17079869184 ∧
    pearsonNumerator [50000, 60000] [50000, 60000] = -17079869184 ∧
    pearsonRadicand [50000, 60000] ([50000, 60000].map (fun (v : Int) => -v))
      = 17079869184 * 17079869184 ∧
    pearsonNumerator [50000, 60000] ([50000, 60000].map (fun (v : Int) => -v))
      = 17079869184 := by
  refine ⟨?_, ?_, ?_, ?_⟩ <;>
  norm_num [pearsonRadicand, pearsonNumerator, sumAsReal, intMul, wrapInt32]

/-- C6: for every integer series of length at least 2 that is not constant and whose
values are at most 46340 in absolute value (so that their products fit an `int`), the
correlation of the series with itself is 1 and with its element-wise negation is -1
(exact real arithmetic); but for the series 50000, 60000, whose squares overflow the
`int` product, the code returns -1 for the series with itself and 1 for the series with
its negation. -/
theorem calculateCorrelation_self_overflow :
    (∀ x : List Int, 2 ≤ x.length → (¬ ∃ c : Int, ∀ v ∈ x, v = c) →
      (∀ v ∈ x, |v| ≤ 46340) →
      calculateCorrelation x x = some 1 ∧
      calculateCorrelation x (x.map (fun (v : Int) => -v)) = some (-1)) ∧
    calculateCorrelation [50000, 60000] [50000, 60000] = some (-1) ∧
    calculateCorrelation [50000, 60000] ([50000, 60000].map (fun (v : Int) => -v))
      = some 1 := by
  refine ⟨fun x hlen hnc hb => ?_, ?_, ?_⟩
  · have hpos := pearson_factor_pos x hnc
    have hsqrt := Real.sqrt_mul_self (le_of_lt hpos)
    have hbn := bounded_neg x hb
    have hrad : pearsonRadicand x x =
        ((x.length : ℝ) * (x.map (fun (v : Int) => (v : ℝ) * (v : ℝ))).sum
          - (x.map (fun (v : Int) => (v : ℝ))).sum * (x.map (fun (v : Int) => (v : ℝ))).sum) *
        ((x.length : ℝ) * (x.map (fun (v : Int) => (v : ℝ) * (v : ℝ))).sum
          - (x.map (fun (v : Int) => (v : ℝ))).sum *
            (x.map (fun (v : Int) => (v : ℝ))).sum) := by
      unfold pearsonRadicand
      rw [zipWith_intMul_of_bounded x x hb hb, sumAsReal_zipWith_self, sumAsReal_eq]
    have hnum : pearsonNumerator x x =
        (x.length : ℝ) * (x.map (fun (v : Int) => (v : ℝ) * (v : ℝ))).sum
          - (x.map (fun (v : Int) => (v : ℝ))).sum * (x.map (fun (v : Int) => (v : ℝ))).sum := by
      unfold pearsonNumerator
      rw [zipWith_intMul_of_bounded x x hb hb, sumAsReal_zipWith_self, sumAsReal_eq]
    have hradn : pearsonRadicand x (x.map (fun (v : Int) => -v)) =
        ((x.length : ℝ) * (x.map (fun (v : Int) => (v : ℝ) * (v : ℝ))).sum
          - (x.map (fun (v : Int) => (v : ℝ))).sum * (x.map (fun (v : Int) => (v : ℝ))).sum) *
        ((x.length : ℝ) * (x.map (fun (v : Int) => (v : ℝ) * (v : ℝ))).sum
          - (x.map (fun (v : Int) => (v : ℝ))).sum *
            (x.map (fun (v : Int) => (v : ℝ))).sum) := by
      unfold pearsonRadicand
      rw [zipWith_intMul_of_bounded x x hb hb, zipWith_intMul_of_bounded _ _ hbn hbn,
        sumAsReal_zipWith_self, sumAsReal_zipWith_neg_neg, sumAsReal_neg, sumAsReal_eq,
        neg_mul_neg]
    have hnumn : pearsonNumerator x (x.map (fun (v : Int) => -v)) =
        -((x.length : ℝ) * (x.map (fun (v : Int) => (v : ℝ) * (v : ℝ))).sum
          - (x.map (fun (v : Int) => (v : ℝ))).sum *
            (x.map (fun (v : Int) => (v : ℝ))).sum) := by
      unfold pearsonNumerator
      rw [zipWith_intMul_of_bounded x _ hb hbn, sumAsReal_zipWith_neg, sumAsReal_neg,
        sumAsReal_eq]
      ring
    have hnn : ¬ pearsonRadicand x x < 0 := by
      rw [hrad]
      exact not_lt.2 (mul_self_nonneg _)
    have hnnn : ¬ pearsonRadicand x (x.map (fun (v : Int) => -v)) < 0 := by
      rw [hradn]
      exact not_lt.2 (mul_self_nonneg _)
    constructor
    · unfold calculateCorrelation
      rw [if_neg (by omega), if_neg hnn]
      unfold pearsonDenominator
      rw [hrad, hnum, hsqrt, if_pos (ne_of_gt hpos), div_self (ne_of_gt hpos)]
    · unfold calculateCorrelation
      rw [if_neg (by simp; omega), if_neg hnnn]
      unfold pearsonDenominator
      rw [hradn, hnumn, hsqrt, if_pos (ne_of_gt hpos), neg_div, div_self (ne_of_gt hpos)]
  · obtain ⟨hrad, hnum, -, -⟩ := pearsonRadicand_overflow
    unfold calculateCorrelation
    rw [if_neg (by decide)]
    unfold pearsonDenominator
    rw [hrad, hnum, if_neg (by norm_num), Real.sqrt_mul_self (by norm_num),
      if_pos (by norm_num)]
    norm_num
  · obtain ⟨-, -, hrad, hnum⟩ := pearsonRadicand_overflow
    unfold calculateCorrelation
    rw [if_neg (by decide)]
    unfold pearsonDenominator
    rw [hrad, hnum, if_neg (by norm_num), Real.sqrt_mul_self (by norm_num),
      if_pos (by norm_num)]
    norm_num

/-- C6, witness: the series 1, 2. -/
theorem calculateCorrelation_self_overflow_witness :
    calculateCorrelation [1, 2] [1, 2] = some 1 ∧
    calculateCorrelation [1, 2] ([1, 2].map (fun (v : Int) => -v)) = some (-1) :=
  calculateCorrelation_self_overflow.1 [1, 2] (by decide) (by
    rintro ⟨c, hc⟩
    have h1 := hc 1 (by simp)
    have h2 := hc 2 (by simp)
    omega) (by
    intro v hv
    simp only [List.mem_cons, List.mem_singleton, List.not_mem_nil, or_false] at hv
    rcases hv with rfl | rfl <;> decide)

/-- The radicand of the constant series 50000, 50000 against 1, 2 is negative: the first
factor is -17179869184, because the square 2500000000 does not fit an `int`. -/
theorem pearsonRadicand_constant_overflow :
    pearsonRadicand [50000, 50000] [1, 2] = -17179869184 := by
  norm_num [pearsonRadicand, sumAsReal, intMul, wrapInt32]

/-- C7: whenever the Pearson denominator, the root of a radicand that is not negative,
is 0, the result of `calculateCorrelation` is 0 (the quotient is only formed in the branch
where the denominator is not 0); for two series of equal length of which one is constant
and whose values are at most 46340 in absolute value the denominator is 0, so the result
is 0; but for the constant series 50000, 50000 against 1, 2 the `int` square overflows,
the radicand is negative and the code returns NaN. -/
theorem calculateCorrelation_constant_overflow :
    (∀ x y : List Int, 0 ≤ pearsonRadicand x y → pearsonDenominator x y = 0 →
      calculateCorrelation x y = some 0) ∧
    (∀ x y : List Int, x.length = y.length →
      (∀ v ∈ x, |v| ≤ 46340) → (∀ v ∈ y, |v| ≤ 46340) →
      (∃ c : Int, ∀ v ∈ x, v = c) ∨ (∃ c : Int, ∀ v ∈ y, v = c) →
      pearsonRadicand x y = 0 ∧ pearsonDenominator x y = 0 ∧
        calculateCorrelation x y = some 0) ∧
    calculateCorrelation [50000, 50000] [1, 2] = none := by
  have hzero : ∀ x y : List Int, 0 ≤ pearsonRadicand x y → pearsonDenominator x y = 0 →
      calculateCorrelation x y = some 0 := by
    intro x y hr h
    unfold calculateCorrelation
    by_cases h1 : x.length ≠ y.length ∨ x.length < 2
    · rw [if_pos h1]
    · rw [if_neg h1, if_neg (not_lt.2 hr), if_neg (not_not.2 h)]
  refine ⟨hzero, fun x y hlen hx hy hc => ?_, ?_⟩
  · have hrad : pearsonRadicand x y = 0 := by
      unfold pearsonRadicand
      rw [zipWith_intMul_of_bounded x x hx hx, zipWith_intMul_of_bounded y y hy hy,
        sumAsReal_zipWith_self, sumAsReal_zipWith_self, sumAsReal_eq, sumAsReal_eq]
      rcases hc with hc | hc
      · rw [pearson_factor_const x hc, zero_mul]
      · rw [hlen, pearson_factor_const y hc, mul_zero]
    have hden : pearsonDenominator x y = 0 := by
      unfold pearsonDenominator
      rw [hrad, Real.sqrt_zero]
    exact ⟨hrad, hden, hzero x y (le_of_eq hrad.symm) hden⟩
  · unfold calculateCorrelation
    rw [if_neg (by decide), pearsonRadicand_constant_overflow, if_pos (by norm_num)]

/-- C7, witness: the constant series 3, 3, 3 against 1, 2, 3. -/
theorem calculateCorrelation_constant_overflow_witness :
    pearsonRadicand [1, 2, 3] [3, 3, 3] = 0 ∧ pearsonDenominator [1, 2, 3] [3, 3, 3] = 0 ∧
    calculateCorrelation [1, 2, 3] [3, 3, 3] = some 0 :=
  calculateCorrelation_constant_overflow.2.1 [1, 2, 3] [3, 3, 3] rfl
    (by
      intro v hv
      simp only [List.mem_cons, List.mem_singleton, List.not_mem_nil, or_false] at hv
      rcases hv with rfl | rfl | rfl <;> decide)
    (by
      intro v hv
      simp only [List.mem_cons, List.mem_singleton, List.not_mem_nil, or_false] at hv
      rcases hv with rfl | rfl | rfl <;> decide)
    (Or.inr ⟨3, by decide⟩)

/-! ### Forecast lemmas -/

/-- A counted loop whose body is defined at every index returns one result per index. -/
theorem forLoop_eq_some {α : Type} (step : Nat → Option α) (n : Nat)
    (h : ∀ i, i < n → ∃ r, step i = some r) :
    ∃ l, forLoop step n = some l ∧ l.length = n := by
  induction n with
  | zero => exact ⟨[], rfl, rfl⟩
  | succ n ih =>
    obtain ⟨l, hl, hlen⟩ := ih (fun i hi => h i (Nat.lt_succ_of_lt hi))
    obtain ⟨r, hr⟩ := h n (Nat.lt_succ_self n)
    refine ⟨l ++ [r], ?_, ?_⟩
    · simp [forLoop, hl, hr]
    · simp [hlen]

/-- The results of a counted loop are the results of its body, in index order. -/
theorem forLoop_getElem? {α : Type} (step : Nat → Option α) (n : Nat) (l : List α)
    (h : forLoop step n = some l) : l.length = n ∧ ∀ i, i < n → l[i]? = step i := by
  induction n generalizing l with
  | zero =>
    simp only [forLoop, Option.some.injEq] at h
    subst h
    exact ⟨rfl, fun i hi => absurd hi (Nat.not_lt_zero i)⟩
  | succ n ih =>
    rw [forLoop] at h
    cases hacc : forLoop step n with
    | none => rw [hacc] at h; cases h
    | some acc =>
      rw [hacc] at h
      cases hr : step n with
      | none => rw [hr] at h; cases h
      | some r =>
        rw [hr] at h
        simp only [Option.some.injEq] at h
        subst h
        obtain ⟨hlen, hget⟩ := ih acc hacc
        refine ⟨by simp [hlen], fun i hi => ?_⟩
        rcases Nat.lt_succ_iff_lt_or_eq.1 hi with hi' | rfl
        · rw [List.getElem?_append_left (by omega), hget i hi']
        · rw [List.getElem?_append_right (by omega), hlen, hr]
          simp

/-- For a non-negative period every index read by `calculateSeasonality` is inside the
data, so a seasonal pattern is returned. -/
theorem calculateSeasonality_eq_some (data : List ℝ) (period : Int) (hp : 0 ≤ period) :
    ∃ pattern, calculateSeasonality data period = some pattern := by
  unfold calculateSeasonality
  split_ifs with h
  · exact ⟨[], rfl⟩
  · obtain ⟨l, hl, -⟩ := forLoop_eq_some (fun k => data[k]?)
      ((data.length : Int) - period).toNat (fun i hi => by
        have hi' : i < data.length := by omega
        exact ⟨data[i], List.getElem?_eq_getElem hi'⟩)
    exact ⟨l, hl⟩

/-- The parameters used by a forecast have a positive seasonality whenever the supplied
ones do (the stored defaults have seasonality 7). -/
theorem effective_seasonality_pos (params : ModelParameters)
    (h : 0 < params.windowSize → 0 < params.seasonality) :
    0 < (if params.windowSize > 0 then params else currentParams).seasonality := by
  split_ifs with hw
  · exact h hw
  · simp [currentParams]

/-- The pre-multiplier base is defined for a non-zero seasonality. -/
theorem predictPassengerFlowBase_eq_some (baseLevel trend : ℝ) (seasonalPattern : List ℝ)
    (size : Nat) (seasonality : Int) (i : Nat) (h : seasonality ≠ 0) :
    ∃ base, predictPassengerFlowBase baseLevel trend seasonalPattern size seasonality i
      = some base := by
  unfold predictPassengerFlowBase
  rw [if_neg h]
  simp only []
  split_ifs
  · exact ⟨_, rfl⟩
  · exact ⟨_, rfl⟩

/-- The forecast loop body of `predictPassengerFlow` is defined for a non-zero seasonality,
and the distance from the prediction to the upper bound is the truncated width. -/
theorem predictPassengerFlowPoint_eq_some (timeSeries : List ℝ) (modelParams : ModelParameters)
    (trend : ℝ) (seasonalPattern : List ℝ) (baseLevel : ℝ) (startDate : QDate)
    (jitter : Nat → Fin 20) (i : Nat) (h : modelParams.seasonality ≠ 0) :
    ∃ r, predictPassengerFlowPoint timeSeries modelParams trend seasonalPattern baseLevel
      startDate jitter i = some r ∧
      r.upperBound - (r.predictedPassengers : ℝ) = (truncToInt (confidenceWidth timeSeries i) : ℝ) := by
  obtain ⟨base, hbase⟩ := predictPassengerFlowBase_eq_some baseLevel trend seasonalPattern
    timeSeries.length modelParams.seasonality i h
  unfold predictPassengerFlowPoint
  simp only [hbase]
  exact ⟨_, rfl, by push_cast; ring⟩

/-- The forecast loop body of `predictStationFlow` is defined for a non-zero seasonality. -/
theorem predictStationFlowPoint_eq_some (timeSeries : List ℝ) (modelParams : ModelParameters)
    (trend : ℝ) (seasonalPattern : List ℝ) (baseLevel : ℝ) (startDate : QDate)
    (jitter : Nat → Fin 20) (i : Nat) (h : modelParams.seasonality ≠ 0) :
    ∃ r, predictStationFlowPoint timeSeries modelParams trend seasonalPattern baseLevel
      startDate jitter i = some r := by
  unfold predictStationFlowPoint
  rw [if_neg h]
  exact ⟨_, rfl⟩

/-- The forecast loop body of `predictTrainFlow` is defined for a non-zero seasonality. -/
theorem predictTrainFlowPoint_eq_some (timeSeries : List ℝ) (modelParams : ModelParameters)
    (trend : ℝ) (seasonalPattern : List ℝ) (baseLevel : ℝ) (startDate : QDate)
    (jitter : Nat → Fin 20) (i : Nat) (h : modelParams.seasonality ≠ 0) :
    ∃ r, predictTrainFlowPoint timeSeries modelParams trend seasonalPattern baseLevel
      startDate jitter i = some r := by
  unfold predictTrainFlowPoint
  rw [if_neg h]
  exact ⟨_, rfl⟩

/-- With at least 10 training points and a positive effective seasonality,
`predictPassengerFlow` returns one point per requested day. -/
theorem predictPassengerFlow_eq_some (S : StdSort) (rnd : Nat → Nat) (jitter : Nat → Fin 20)
    (dm : DataManager) (startDate : QDate) (days : Int) (params : ModelParameters)
    (hlen : 10 ≤ (getTimeSeriesData S rnd dm (QDate.addDays startDate (-30))
      (QDate.addDays startDate (-1))).length)
    (hp : 0 < params.windowSize → 0 < params.seasonality) :
    ∃ l, predictPassengerFlow S rnd jitter dm startDate days params = some l ∧
      l.length = days.toNat := by
  have hs := effective_seasonality_pos params hp
  obtain ⟨pattern, hpat⟩ := calculateSeasonality_eq_some
    (extractTimeSeries (getTimeSeriesData S rnd dm (QDate.addDays startDate (-30))
      (QDate.addDays startDate (-1)))) _ (le_of_lt hs)
  unfold predictPassengerFlow
  simp only []
  rw [if_neg (by omega), hpat]
  exact forLoop_eq_some _ _ (fun i _ => by
    obtain ⟨r, hr, -⟩ := predictPassengerFlowPoint_eq_some _ _ _ _ _ _ _ i (ne_of_gt hs)
    exact ⟨r, hr⟩)

/-- With at least 10 training points and a positive effective seasonality,
`predictStationFlow` returns one point per requested day. -/
theorem predictStationFlow_eq_some (S : StdSort) (rnd : Nat → Nat) (jitter : Nat → Fin 20)
    (dm : DataManager) (stationName : String) (startDate : QDate) (days : Int)
    (params : ModelParameters)
    (hlen : 10 ≤ (getPassengerFlowTimeSeriesByStation S rnd dm stationName
      (QDate.addDays startDate (-30)) (QDate.addDays startDate (-1))).length)
    (hp : 0 < params.windowSize → 0 < params.seasonality) :
    ∃ l, predictStationFlow S rnd jitter dm stationName startDate days params = some l ∧
      l.length = days.toNat := by
  have hs := effective_seasonality_pos params hp
  obtain ⟨pattern, hpat⟩ := calculateSeasonality_eq_some
    (extractTimeSeries (getPassengerFlowTimeSeriesByStation S rnd dm stationName
      (QDate.addDays startDate (-30)) (QDate.addDays startDate (-1)))) _ (le_of_lt hs)
  unfold predictStationFlow
  simp only []
  rw [if_neg (by omega), hpat]
  exact forLoop_eq_some _ _ (fun i _ =>
    predictStationFlowPoint_eq_some _ _ _ _ _ _ _ i (ne_of_gt hs))

/-- With at least 10 training points and a positive effective seasonality,
`predictTrainFlow` returns one point per requested day. -/
theorem predictTrainFlow_eq_some (S : StdSort) (rnd : Nat → Nat) (jitter : Nat → Fin 20)
    (dm : DataManager) (trainNumber : String) (startDate : QDate) (days : Int)
    (params : ModelParameters)
    (hlen : 10 ≤ (getPassengerFlowTimeSeriesByTrain S rnd dm trainNumber
      (QDate.addDays startDate (-30)) (QDate.addDays startDate (-1))).length)
    (hp : 0 < params.windowSize → 0 < params.seasonality) :
    ∃ l, predictTrainFlow S rnd jitter dm trainNumber startDate days params = some l ∧
      l.length = days.toNat := by
  have hs := effective_seasonality_pos params hp
  obtain ⟨pattern, hpat⟩ := calculateSeasonality_eq_some
    (extractTimeSeries (getPassengerFlowTimeSeriesByTrain S rnd dm trainNumber
      (QDate.addDays startDate (-30)) (QDate.addDays startDate (-1)))) _ (le_of_lt hs)
  unfold predictTrainFlow
  simp only []
  rw [if_neg (by omega), hpat]
  exact forLoop_eq_some _ _ (fun i _ =>
    predictTrainFlowPoint_eq_some _ _ _ _ _ _ _ i (ne_of_gt hs))

/-- C8: when the training time series (the 30 days before the start date) has fewer than
10 points, `predictPassengerFlow`, `predictStationFlow` and `predictTrainFlow` return an
empty result; with at least 10 points, at least one requested day and parameters whose
seasonality is positive whenever they are used (`windowSize > 0`), the result is not
empty. -/
theorem predict_empty_iff_insufficient (S : StdSort) (rnd : Nat → Nat) (jitter : Nat → Fin 20)
    (dm : DataManager) (stationName trainNumber : String) (startDate : QDate) (days : Int)
    (params : ModelParameters) :
    ((getTimeSeriesData S rnd dm (QDate.addDays startDate (-30))
        (QDate.addDays startDate (-1))).length < 10 →
      predictPassengerFlow S rnd jitter dm startDate days params = some []) ∧
    (10 ≤ (getTimeSeriesData S rnd dm (QDate.addDays startDate (-30))
        (QDate.addDays startDate (-1))).length → 1 ≤ days →
      (0 < params.windowSize → 0 < params.seasonality) →
      ∃ l, predictPassengerFlow S rnd jitter dm startDate days params = some l ∧ l ≠ []) ∧
    ((getPassengerFlowTimeSeriesByStation S rnd dm stationName (QDate.addDays startDate (-30))
        (QDate.addDays startDate (-1))).length < 10 →
      predictStationFlow S rnd jitter dm stationName startDate days params = some []) ∧
    (10 ≤ (getPassengerFlowTimeSeriesByStation S rnd dm stationName
        (QDate.addDays startDate (-30)) (QDate.addDays startDate (-1))).length → 1 ≤ days →
      (0 < params.windowSize → 0 < params.seasonality) →
      ∃ l, predictStationFlow S rnd jitter dm stationName startDate days params = some l ∧
        l ≠ []) ∧
    ((getPassengerFlowTimeSeriesByTrain S rnd dm trainNumber (QDate.addDays startDate (-30))
        (QDate.addDays startDate (-1))).length < 10 →
      predictTrainFlow S rnd jitter dm trainNumber startDate days params = some []) ∧
    (10 ≤ (getPassengerFlowTimeSeriesByTrain S rnd dm trainNumber
        (QDate.addDays startDate (-30)) (QDate.addDays startDate (-1))).length → 1 ≤ days →
      (0 < params.windowSize → 0 < params.seasonality) →
      ∃ l, predictTrainFlow S rnd jitter dm trainNumber startDate days params = some l ∧
        l ≠ []) := by
  have hne : ∀ l : List PredictionResult, 1 ≤ days → l.length = days.toNat → l ≠ [] := by
    intro l hd hl he
    rw [he] at hl
    simp only [List.length_nil] at hl
    omega
  refine ⟨fun h => ?_, fun h hd hp => ?_, fun h => ?_, fun h hd hp => ?_, fun h => ?_,
    fun h hd hp => ?_⟩
  · unfold predictPassengerFlow
    simp only []
    rw [if_pos h]
  · obtain ⟨l, hl, hlen⟩ := predictPassengerFlow_eq_some S rnd jitter dm startDate days params
      h hp
    exact ⟨l, hl, hne l hd hlen⟩
  · unfold predictStationFlow
    simp only []
    rw [if_pos h]
  · obtain ⟨l, hl, hlen⟩ := predictStationFlow_eq_some S rnd jitter dm stationName startDate
      days params h hp
    exact ⟨l, hl, hne l hd hlen⟩
  · unfold predictTrainFlow
    simp only []
    rw [if_pos h]
  · obtain ⟨l, hl, hlen⟩ := predictTrainFlow_eq_some S rnd jitter dm trainNumber startDate
      days params h hp
    exact ⟨l, hl, hne l hd hlen⟩

/-- C8, witness: the two-record store of scenario A gives an empty forecast, and the
ten-day store of scenario B a non-empty one for each of the three forecasts (default
parameters, three days from 2015-01-11). -/
theorem predict_empty_iff_insufficient_witness :
    predictPassengerFlow insertionStdSort (fun _ => 0) (fun _ => 10) storeA 2457034 3
      ⟨0, 0, 0, 0, 0⟩ = some [] ∧
    (∃ l, predictPassengerFlow insertionStdSort (fun _ => 0) (fun _ => 10) storeB 2457034 3
      ⟨0, 0, 0, 0, 0⟩ = some l ∧ l ≠ []) ∧
    (∃ l, predictStationFlow insertionStdSort (fun _ => 0) (fun _ => 10) storeB "成都东站"
      2457034 3 ⟨0, 0, 0, 0, 0⟩ = some l ∧ l ≠ []) ∧
    (∃ l, predictTrainFlow insertionStdSort (fun _ => 0) (fun _ => 10) storeB "G8501"
      2457034 3 ⟨0, 0, 0, 0, 0⟩ = some l ∧ l ≠ []) :=
  ⟨(predict_empty_iff_insufficient insertionStdSort (fun _ => 0) (fun _ => 10) storeA
      "成都东站" "G8501" 2457034 3 ⟨0, 0, 0, 0, 0⟩).1 (by decide),
    (predict_empty_iff_insufficient insertionStdSort (fun _ => 0) (fun _ => 10) storeB
      "成都东站" "G8501" 2457034 3 ⟨0, 0, 0, 0, 0⟩).2.1 (by decide) (by decide)
      (fun h => absurd h (by decide)),
    (predict_empty_iff_insufficient insertionStdSort (fun _ => 0) (fun _ => 10) storeB
      "成都东站" "G8501" 2457034 3 ⟨0, 0, 0, 0, 0⟩).2.2.2.1 (by decide) (by decide)
      (fun h => absurd h (by decide)),
    (predict_empty_iff_insufficient insertionStdSort (fun _ => 0) (fun _ => 10) storeB
      "成都东站" "G8501" 2457034 3 ⟨0, 0, 0, 0, 0⟩).2.2.2.2.2 (by decide) (by decide)
      (fun h => absurd h (by decide))⟩

/-- C9 (scenario B): for the training series 100, 110, ..., 190 and seasonality 7,
`calculateBaseLevel` returns 160, `calculateTrend` returns 10, the seasonal pattern is
empty (fewer than two periods of data), and the day-0 base before the multipliers is
exactly 170. -/
theorem scenarioB_base_level_trend :
    calculateBaseLevel seriesB = 160 ∧ calculateTrend seriesB = 10 ∧
    calculateSeasonality seriesB 7 = some [] ∧
    predictPassengerFlowBase (calculateBaseLevel seriesB) (calculateTrend seriesB) []
      seriesB.length 7 0 = some 170 := by
  have hb : calculateBaseLevel seriesB = 160 := by
    norm_num [calculateBaseLevel, seriesB]
  have ht : calculateTrend seriesB = 10 := by
    norm_num [calculateTrend, seriesB, List.enum, List.enumFrom]
  refine ⟨hb, ht, ?_, ?_⟩
  · simp [calculateSeasonality, seriesB]
  · rw [hb, ht]
    norm_num [predictPassengerFlowBase, seriesB]

/-! ### Confidence width -/

/-- The standard deviation is never negative. -/
theorem calculateStandardDeviation_nonneg (data : List ℝ) :
    0 ≤ calculateStandardDeviation data := by
  unfold calculateStandardDeviation
  split_ifs
  · exact le_refl 0
  · exact Real.sqrt_nonneg _

/-- The confidence width is never negative. -/
theorem confidenceWidth_nonneg (timeSeries : List ℝ) (i : Nat) :
    0 ≤ confidenceWidth timeSeries i := by
  unfold confidenceWidth
  apply mul_nonneg (calculateStandardDeviation_nonneg timeSeries)
  have : (0 : ℝ) ≤ (i : ℝ) := Nat.cast_nonneg i
  linarith

/-- The confidence width does not decrease from one offset to the next. -/
theorem confidenceWidth_le_succ (timeSeries : List ℝ) (i : Nat) :
    confidenceWidth timeSeries i ≤ confidenceWidth timeSeries (i + 1) := by
  unfold confidenceWidth
  apply mul_le_mul_of_nonneg_left _ (calculateStandardDeviation_nonneg timeSeries)
  push_cast
  linarith

/-- Truncation preserves the order of non-negative values. -/
theorem truncToInt_le_of_nonneg (a b : ℝ) (ha : 0 ≤ a) (hab : a ≤ b) :
    truncToInt a ≤ truncToInt b := by
  unfold truncToInt
  rw [if_pos ha, if_pos (le_trans ha hab)]
  exact Int.floor_mono hab

/-- The forecast loop body of `predictPassengerFlow` is undefined for seasonality 0. -/
theorem predictPassengerFlowPoint_eq_none (timeSeries : List ℝ) (modelParams : ModelParameters)
    (trend : ℝ) (seasonalPattern : List ℝ) (baseLevel : ℝ) (startDate : QDate)
    (jitter : Nat → Fin 20) (i : Nat) (h : modelParams.seasonality = 0) :
    predictPassengerFlowPoint timeSeries modelParams trend seasonalPattern baseLevel
      startDate jitter i = none := by
  have hbase : predictPassengerFlowBase baseLevel trend seasonalPattern timeSeries.length
      modelParams.seasonality i = none := by
    unfold predictPassengerFlowBase
    rw [if_pos h]
  unfold predictPassengerFlowPoint
  simp only [hbase]

/-- In a forecast returned by `predictPassengerFlow`, the distance from the prediction to
the upper bound at offset `i` is the truncated confidence width of the training series. -/
theorem predictPassengerFlow_upper_sub (S : StdSort) (rnd : Nat → Nat) (jitter : Nat → Fin 20)
    (dm : DataManager) (startDate : QDate) (days : Int) (params : ModelParameters)
    (l : List PredictionResult)
    (hl : predictPassengerFlow S rnd jitter dm startDate days params = some l)
    (i : Nat) (r : PredictionResult) (hr : l[i]? = some r) :
    r.upperBound - (r.predictedPassengers : ℝ) =
      (truncToInt (confidenceWidth (extractTimeSeries (getTimeSeriesData S rnd dm
        (QDate.addDays startDate (-30)) (QDate.addDays startDate (-1)))) i) : ℝ) := by
  unfold predictPassengerFlow at hl
  simp only [] at hl
  generalize (if params.windowSize > 0 then params else currentParams) = modelParams at hl
  generalize extractTimeSeries (getTimeSeriesData S rnd dm (QDate.addDays startDate (-30))
    (QDate.addDays startDate (-1))) = timeSeries at hl ⊢
  by_cases hlen : (getTimeSeriesData S rnd dm (QDate.addDays startDate (-30))
      (QDate.addDays startDate (-1))).length < 10
  · rw [if_pos hlen] at hl
    simp only [Option.some.injEq] at hl
    subst hl
    simp at hr
  · rw [if_neg hlen] at hl
    cases hpat : calculateSeasonality timeSeries modelParams.seasonality with
    | none => rw [hpat] at hl; cases hl
    | some pattern =>
      rw [hpat] at hl
      simp only [] at hl
      obtain ⟨hn, hget⟩ := forLoop_getElem? _ _ _ hl
      have hi : i < days.toNat := by
        rw [← hn]
        exact (List.getElem?_eq_some_iff.1 hr).1
      have hstep := hget i hi
      rw [hr] at hstep
      by_cases h0 : modelParams.seasonality = 0
      · rw [predictPassengerFlowPoint_eq_none _ _ _ _ _ _ _ i h0] at hstep
        cases hstep
      · obtain ⟨r0, hr0, hdiff⟩ := predictPassengerFlowPoint_eq_some timeSeries modelParams
          (calculateTrend timeSeries) pattern (calculateBaseLevel timeSeries) startDate
          jitter i h0
        rw [hr0] at hstep
        rw [Option.some.inj hstep]
        exact hdiff

/-- C10: the confidence width `stddev * (1 + 0.1 * i)` of every training series does not
decrease from offset `i` to offset `i + 1`, and neither does the width reflected in the
result of `predictPassengerFlow`, `upperBound - predictedPassengers`. -/
theorem confidence_width_nondecreasing (S : StdSort) (rnd : Nat → Nat)
    (jitter : Nat → Fin 20) (dm : DataManager) (startDate : QDate) (days : Int)
    (params : ModelParameters) (l : List PredictionResult)
    (hl : predictPassengerFlow S rnd jitter dm startDate days params = some l)
    (i : Nat) (r r' : PredictionResult) (hr : l[i]? = some r) (hr' : l[i + 1]? = some r') :
    (∀ timeSeries : List ℝ,
      confidenceWidth timeSeries i ≤ confidenceWidth timeSeries (i + 1)) ∧
    r.upperBound - (r.predictedPassengers : ℝ) ≤
      r'.upperBound - (r'.predictedPassengers : ℝ) := by
  refine ⟨fun timeSeries => confidenceWidth_le_succ timeSeries i, ?_⟩
  rw [predictPassengerFlow_upper_sub S rnd jitter dm startDate days params l hl i r hr,
    predictPassengerFlow_upper_sub S rnd jitter dm startDate days params l hl (i + 1) r' hr']
  exact_mod_cast truncToInt_le_of_nonneg _ _ (confidenceWidth_nonneg _ i)
    (confidenceWidth_le_succ _ i)

/-- C10, witness: the first two points of a two-day forecast on the scenario B store. -/
theorem confidence_width_nondecreasing_witness :
    ∃ l r r', predictPassengerFlow insertionStdSort (fun _ => 0) (fun _ => 10) storeB
        2457034 2 ⟨0, 0, 0, 0, 0⟩ = some l ∧ l[0]? = some r ∧ l[1]? = some r' ∧
      r.upperBound - (r.predictedPassengers : ℝ) ≤
        r'.upperBound - (r'.predictedPassengers : ℝ) := by
  obtain ⟨l, hl, hlen⟩ := predictPassengerFlow_eq_some insertionStdSort (fun _ => 0)
    (fun _ => 10) storeB 2457034 2 ⟨0, 0, 0, 0, 0⟩ (by decide) (fun h => absurd h (by decide))
  have h0 : 0 < l.length := by rw [hlen]; decide
  have h1 : 1 < l.length := by rw [hlen]; decide
  exact ⟨l, l[0], l[1], hl, List.getElem?_eq_getElem h0, List.getElem?_eq_getElem h1,
    (confidence_width_nondecreasing insertionStdSort (fun _ => 0) (fun _ => 10) storeB
      2457034 2 ⟨0, 0, 0, 0, 0⟩ l hl 0 l[0] l[1] (List.getElem?_eq_getElem h0)
      (List.getElem?_eq_getElem h1)).2⟩

/-! ### Sanity checks on the example data -/

/-- The complete summary computed for the scenario A store. -/
theorem storeA_stationStatistics :
    getStationStatistics insertionStdSort storeA = [⟨"X", 45, 30, 15, 1800, 3600, 17, 5⟩] := by
  unfold getStationStatistics
  rw [stationStatisticsUnsorted_pair storeA stationX flowA1 flowA2 rfl rfl rfl]
  simp [insertionStdSort, stationStatisticsOf]
  norm_num [stationX, flowA1, flowA2, PassengerFlow.getTotalPassengers, tallyFlows,
    QMap.update, peakKey, PassengerFlow.getHour, PassengerFlow.getDayOfWeek, QTime.hour,
    QTime.isValid, QTime.mk, QDate.dayOfWeek, QDate.isValid, QDate.minJd, QDate.maxJd]

/-- The training series of the scenario B store for a forecast from 2015-01-11 is the
series 100, 110, ..., 190. -/
theorem storeB_training_series :
    extractTimeSeries (getTimeSeriesData insertionStdSort (fun _ => 0) storeB
      (QDate.addDays 2457034 (-30)) (QDate.addDays 2457034 (-1))) = seriesB := by
  have h : (getTimeSeriesData insertionStdSort (fun _ => 0) storeB
      (QDate.addDays 2457034 (-30)) (QDate.addDays 2457034 (-1))).map (fun p => p.passengers)
      = [100, 110, 120, 130, 140, 150, 160, 170, 180, 190] := by decide
  have h2 : extractTimeSeries (getTimeSeriesData insertionStdSort (fun _ => 0) storeB
      (QDate.addDays 2457034 (-30)) (QDate.addDays 2457034 (-1))) =
      ((getTimeSeriesData insertionStdSort (fun _ => 0) storeB
        (QDate.addDays 2457034 (-30)) (QDate.addDays 2457034 (-1))).map
          (fun p => p.passengers)).map (fun (v : Int) => (v : ℝ)) := by
    unfold extractTimeSeries
    rw [List.map_map]
    rfl
  rw [h2, h]
  norm_num [seriesB]

/-! ### Model evaluation -/

/-- The evaluation only looks at the first `min` pairs of its two arguments. -/
theorem evaluateModel_take (predictions : List PredictionResult)
    (actual : List TimeSeriesData) :
    evaluateModel predictions actual =
      evaluateModel (predictions.take (min predictions.length actual.length))
        (actual.take (min predictions.length actual.length)) := by
  have hzip : (predictions.take (min predictions.length actual.length)).zip
      (actual.take (min predictions.length actual.length)) = predictions.zip actual := by
    exact (List.zip_eq_zip_take_min predictions actual).symm
  cases predictions with
  | nil => simp [evaluateModel]
  | cons p ps =>
    cases actual with
    | nil => simp [evaluateModel]
    | cons a as =>
      unfold evaluateModel
      rw [hzip]
      simp [List.length_take]

/-- A guarded summation loop computes the sum over the entries that pass the guard. -/
theorem foldl_if_add_eq_sum {α : Type} (c : α → Bool) (g : α → ℝ) (l : List α) (a : ℝ) :
    l.foldl (fun acc x => if c x = true then acc + g x else acc) a =
      a + ((l.filter c).map g).sum := by
  induction l generalizing a with
  | nil => simp
  | cons x xs ih =>
    rw [List.foldl_cons, ih]
    cases hc : c x
    · simp [List.filter_cons, hc]
    · simp [List.filter_cons, hc, add_assoc]

/-- The value of `mape` computed by the code for non-empty arguments: 100 times the sum of
`|predicted - actual| / actual` over the compared pairs with a positive actual value,
divided by the number `n` of all compared pairs. -/
theorem evaluateModel_mape_eq (predictions : List PredictionResult)
    (actual : List TimeSeriesData) (hp : predictions ≠ []) (ha : actual ≠ []) :
    (evaluateModel predictions actual).mape =
      ((((predictions.zip actual).map
          (fun pa => (pa.1.predictedPassengers, pa.2.passengers))).filter
            (fun (pa : Int × Int) => decide (pa.2 > 0))).map
          (fun (pa : Int × Int) => |((pa.1 - pa.2 : Int) : ℝ) / (pa.2 : ℝ)|)).sum
        / ((min predictions.length actual.length : Nat) : ℝ) * 100 := by
  unfold evaluateModel
  rw [if_neg (by simp [hp, ha])]
  simp only []
  have h := foldl_if_add_eq_sum (fun (pa : Int × Int) => decide (pa.2 > 0))
    (fun (pa : Int × Int) => |((pa.1 - pa.2 : Int) : ℝ) / (pa.2 : ℝ)|)
    ((predictions.zip actual).map (fun pa => (pa.1.predictedPassengers, pa.2.passengers))) 0
  simp only [decide_eq_true_eq, zero_add] at h
  rw [h]

/-- C11: on the predictions 100, 100 against the actuals 0, 50 the code returns
`mape = 50` (one percentage error of 1, divided by the two compared pairs), whereas the
mean over the single pair with a positive actual value is 100. -/
theorem evaluateModel_mape_divides_by_all_pairs :
    (evaluateModel [predictionOf 100, predictionOf 100] [actualOf 0, actualOf 50]).mape = 50 ∧
    mapeOverPositiveActuals [predictionOf 100, predictionOf 100] [actualOf 0, actualOf 50]
      = 100 := by
  constructor
  · norm_num [evaluateModel, predictionOf, actualOf]
  · norm_num [mapeOverPositiveActuals, predictionOf, actualOf]

/-- C12 (scenario D): for the predictions 100, 110, 120 and the actuals 105, 100, 130,
`evaluateModel` yields `mae = 25/3`, `mse = 225/3 = 75` (from the absolute errors
5, 10, 10) and `rmse = sqrt(mse)`, a number. -/
theorem scenarioD_evaluateModel :
    (evaluateModel [predictionOf 100, predictionOf 110, predictionOf 120]
      [actualOf 105, actualOf 100, actualOf 130]).mae = 25 / 3 ∧
    (evaluateModel [predictionOf 100, predictionOf 110, predictionOf 120]
      [actualOf 105, actualOf 100, actualOf 130]).mse = 225 / 3 ∧
    (evaluateModel [predictionOf 100, predictionOf 110, predictionOf 120]
      [actualOf 105, actualOf 100, actualOf 130]).mse = 75 ∧
    (evaluateModel [predictionOf 100, predictionOf 110, predictionOf 120]
      [actualOf 105, actualOf 100, actualOf 130]).rmse =
      some (Real.sqrt (evaluateModel [predictionOf 100, predictionOf 110, predictionOf 120]
        [actualOf 105, actualOf 100, actualOf 130]).mse) ∧
    (25 / 3 : ℝ) > 8.33 ∧ (25 / 3 : ℝ) < 8.34 := by
  have hmse : (evaluateModel [predictionOf 100, predictionOf 110, predictionOf 120]
      [actualOf 105, actualOf 100, actualOf 130]).mse = 75 := by
    norm_num [evaluateModel, predictionOf, actualOf, intMul, wrapInt32]
  have hrmse : (evaluateModel [predictionOf 100, predictionOf 110, predictionOf 120]
      [actualOf 105, actualOf 100, actualOf 130]).rmse =
      (if (evaluateModel [predictionOf 100, predictionOf 110, predictionOf 120]
        [actualOf 105, actualOf 100, actualOf 130]).mse < 0 then none
      else some (Real.sqrt (evaluateModel [predictionOf 100, predictionOf 110, predictionOf 120]
        [actualOf 105, actualOf 100, actualOf 130]).mse)) := by
    simp only [evaluateModel]
    rfl
  refine ⟨?_, ?_, hmse, ?_, by norm_num, by norm_num⟩
  · norm_num [evaluateModel, predictionOf, actualOf]
  · rw [hmse]
    norm_num
  · rw [hrmse, hmse, if_neg (by norm_num)]

/-! ### Rankings -/

/-- A comparator "greater score first" is a strict weak ordering. -/
theorem descending_strictWeakOrder {α β : Type} [LinearOrder β] (score : α → β) :
    StrictWeakOrder (fun (a b : α) => decide (score a > score b)) where
  asymm := fun a b h => by
    have h1 : score a > score b := of_decide_eq_true h
    exact decide_eq_false (not_lt.2 (le_of_lt h1))
  negTrans := fun a b c h => by
    have h1 : score a > score c := of_decide_eq_true h
    rcases lt_or_le (score b) (score a) with h2 | h2
    · exact Or.inl (decide_eq_true h2)
    · exact Or.inr (decide_eq_true (lt_of_lt_of_le h1 h2))

/-- Sorting with the comparator "greater score first" leaves the scores in non-increasing
order, for every behaviour of `std::sort`. -/
theorem StdSort.sort_descending (S : StdSort) {α β : Type} [LinearOrder β] (score : α → β)
    (l : List α) :
    (S.sort (fun (a b : α) => decide (score a > score b)) l).Pairwise
      (fun a b => score a ≥ score b) :=
  (S.sorted (fun (a b : α) => decide (score a > score b)) l
    (descending_strictWeakOrder score)).imp
    (fun h => not_lt.1 (of_decide_eq_false h))

/-- C15: for every store, the lists returned by `getStationStatistics` and by
`getTrainStatistics` are in non-increasing order of `totalPassengers`. -/
theorem statistics_sorted_by_totalPassengers (S : StdSort) (dm : DataManager) :
    (getStationStatistics S dm).Pairwise
      (fun a b => a.totalPassengers ≥ b.totalPassengers) ∧
    (getTrainStatistics S dm).Pairwise
      (fun a b => a.totalPassengers ≥ b.totalPassengers) :=
  ⟨S.sort_descending StationStatistics.totalPassengers _,
    S.sort_descending TrainStatistics.totalPassengers _⟩

/-- C16 (amended): for every store, the `getStationStatistics` result and the
`getStationEfficiency` and `getTrainEfficiency` rankings are in non-increasing order of
the ranked metric (nothing is said about the order of entries with equal metric). -/
theorem rankings_sorted_by_metric (S : StdSort) (dm : DataManager) :
    (getStationStatistics S dm).Pairwise
      (fun a b => a.totalPassengers ≥ b.totalPassengers) ∧
    (getStationEfficiency S dm).Pairwise (fun a b => a.2 ≥ b.2) ∧
    (getTrainEfficiency S dm).Pairwise (fun a b => a.2 ≥ b.2) :=
  ⟨S.sort_descending StationStatistics.totalPassengers _,
    S.sort_descending (fun (a : String × ℚ) => a.2) _,
    S.sort_descending (fun (a : String × ℚ) => a.2) _⟩

/-- The two station groups of the store with stations "A" and "B". -/
theorem storeC_stationStatisticsUnsorted :
    stationStatisticsUnsorted storeC =
      [stationStatisticsOf "A" [flowC1], stationStatisticsOf "B" [flowC2]] := by
  have hf : storeC.m_passengerFlows = [flowC1, flowC2] := rfl
  have h1 : storeC.getStationById flowC1.m_stationId = some stationA := by decide
  have h2 : storeC.getStationById flowC2.m_stationId = some stationB := by decide
  have hne : ¬ ("B" = "A") := by decide
  have hlt : ¬ (['B'] < ['A']) := by decide
  simp [stationStatisticsUnsorted, groupFlows, hf, h1, h2, QMap.update,
    String.lt_iff_toList_lt, stationA, stationB, hlt]

/-- The efficiency ranking computed for the store with stations "A" and "B" when
`std::sort` behaves as insertion sort: "B" precedes "A" with the same score. -/
theorem storeC_stationEfficiency :
    getStationEfficiency insertionStdSort storeC = [("B", 2), ("A", 2)] := by
  unfold getStationEfficiency getStationStatistics
  rw [storeC_stationStatisticsUnsorted]
  simp [insertionStdSort, stationStatisticsOf, flowC1, flowC2,
    PassengerFlow.getTotalPassengers]
  norm_num

/-- C16, counterexample: on the store with stations "A" (10 passengers, revenue 20) and
"B" (20 passengers, revenue 40) the efficiency ranking is "B", "A" with equal scores 2,
so the tie is not broken by ascending key. -/
theorem stationEfficiency_tie_not_by_key :
    ¬ TiesBrokenByKey (getStationEfficiency insertionStdSort storeC) := by
  rw [storeC_stationEfficiency]
  intro h
  have h1 : ("B" : String) < "A" := by
    have := List.chain'_cons.1 h
    exact this.1 rfl
  rw [String.lt_iff_toList_lt] at h1
  exact absurd h1 (by decide)

/-! ### Peak hour and peak day -/

/-- One more iteration of a tally loop. -/
theorem tallyFlows_append_singleton (key : PassengerFlow → Int) (l : List PassengerFlow)
    (x : PassengerFlow) :
    tallyFlows key (l ++ [x]) =
      QMap.update (tallyFlows key l) (key x) 0 (fun v => v + x.getTotalPassengers) := by
  simp [tallyFlows, List.foldl_append]

/-- A tally has ascending keys. -/
theorem tallyFlows_sorted (key : PassengerFlow → Int) (l : List PassengerFlow) :
    (tallyFlows key l).Pairwise (fun a b => a.1 < b.1) := by
  induction l using List.reverseRecOn with
  | nil => simp [tallyFlows]
  | append_singleton l x ih =>
    rw [tallyFlows_append_singleton]
    exact QMap.update_sorted _ ih _ _ _

/-- The peak scan from a running maximum `acc = (maxValue, maxKey)` over entries in
ascending key order: it keeps `acc` when no count exceeds `maxValue`, and otherwise ends
on the smallest key whose count is the maximum. -/
theorem peakScan_spec (l : List (Int × Int)) (hl : l.Pairwise (fun a b => a.1 < b.1))
    (acc : Int × Int) :
    ((∀ kv ∈ l, kv.2 ≤ acc.1) →
      l.foldl (fun (acc : Int × Int) kv => if kv.2 > acc.1 then (kv.2, kv.1) else acc) acc
        = acc) ∧
    ((∃ kv ∈ l, acc.1 < kv.2) →
      ((l.foldl (fun (acc : Int × Int) kv => if kv.2 > acc.1 then (kv.2, kv.1) else acc)
          acc).2,
        (l.foldl (fun (acc : Int × Int) kv => if kv.2 > acc.1 then (kv.2, kv.1) else acc)
          acc).1) ∈ l ∧
      acc.1 < (l.foldl (fun (acc : Int × Int) kv =>
        if kv.2 > acc.1 then (kv.2, kv.1) else acc) acc).1 ∧
      (∀ kv ∈ l, kv.2 ≤ (l.foldl (fun (acc : Int × Int) kv =>
        if kv.2 > acc.1 then (kv.2, kv.1) else acc) acc).1) ∧
      (∀ kv ∈ l, kv.2 = (l.foldl (fun (acc : Int × Int) kv =>
        if kv.2 > acc.1 then (kv.2, kv.1) else acc) acc).1 →
        (l.foldl (fun (acc : Int × Int) kv =>
          if kv.2 > acc.1 then (kv.2, kv.1) else acc) acc).2 ≤ kv.1)) := by
  induction l generalizing acc with
  | nil =>
    refine ⟨fun _ => rfl, ?_⟩
    rintro ⟨kv, hkv, -⟩
    cases hkv
  | cons e t ih =>
    obtain ⟨k, v⟩ := e
    rw [List.pairwise_cons] at hl
    obtain ⟨hk, ht⟩ := hl
    simp only [List.foldl_cons]
    by_cases hv : v > acc.1
    · rw [if_pos hv]
      constructor
      · intro hall
        have := hall (k, v) (List.mem_cons_self _ _)
        simp only at this
        omega
      · intro _
        by_cases hex : ∃ kv ∈ t, v < kv.2
        · obtain ⟨h1, h2, h3, h4⟩ := (ih ht (v, k)).2 hex
          simp only at h2
          refine ⟨List.mem_cons_of_mem _ h1, by omega, ?_, ?_⟩
          · intro kv hkv
            rcases List.mem_cons.1 hkv with rfl | hkv'
            · simp only; omega
            · exact h3 kv hkv'
          · intro kv hkv heq
            rcases List.mem_cons.1 hkv with rfl | hkv'
            · simp only at heq; omega
            · exact h4 kv hkv' heq
        · have hall : ∀ kv ∈ t, kv.2 ≤ (v, k).1 := by
            intro kv hkv
            by_contra hc
            exact hex ⟨kv, hkv, by simpa using hc⟩
          rw [(ih ht (v, k)).1 hall]
          refine ⟨List.mem_cons_self _ _, hv, ?_, ?_⟩
          · intro kv hkv
            rcases List.mem_cons.1 hkv with rfl | hkv'
            · exact le_refl _
            · exact hall kv hkv'
          · intro kv hkv _
            rcases List.mem_cons.1 hkv with rfl | hkv'
            · exact le_refl _
            · exact le_of_lt (hk kv hkv')
    · rw [if_neg hv]
      constructor
      · intro hall
        exact (ih ht acc).1 (fun kv hkv => hall kv (List.mem_cons_of_mem _ hkv))
      · rintro ⟨kv, hkv, hlt⟩
        have hex : ∃ kv ∈ t, acc.1 < kv.2 := by
          rcases List.mem_cons.1 hkv with rfl | hkv'
          · exact absurd hlt hv
          · exact ⟨kv, hkv', hlt⟩
        obtain ⟨h1, h2, h3, h4⟩ := (ih ht acc).2 hex
        refine ⟨List.mem_cons_of_mem _ h1, h2, ?_, ?_⟩
        · intro kv' hkv'
          rcases List.mem_cons.1 hkv' with rfl | hkv''
          · simp only; omega
          · exact h3 kv' hkv''
        · intro kv' hkv' heq
          rcases List.mem_cons.1 hkv' with rfl | hkv''
          · simp only at heq; omega
          · exact h4 kv' hkv'' heq

/-- The peak key of a tally with ascending keys is a peak when some count is positive, and
0 otherwise. -/
theorem peakKey_spec (tally : QMap Int Int) (ht : tally.Pairwise (fun a b => a.1 < b.1)) :
    IsPeakOrZero tally (peakKey tally) := by
  obtain ⟨h1, h2⟩ := peakScan_spec tally ht (0, 0)
  constructor
  · intro hex
    obtain ⟨hm, -, hmax, hmin⟩ := h2 hex
    exact ⟨_, hm, hmax, hmin⟩
  · intro hall
    unfold peakKey
    rw [h1 hall]

/-- Every summary of `getStationStatistics` is built from one group of the grouping map. -/
theorem exists_group_of_mem_getStationStatistics (S : StdSort) (dm : DataManager)
    (s : StationStatistics) (hs : s ∈ getStationStatistics S dm) :
    ∃ name flows,
      (name, flows) ∈ groupFlows
        (fun flow => (dm.getStationById flow.m_stationId).map Station.m_name)
        dm.m_passengerFlows ∧
      s = stationStatisticsOf name flows := by
  rw [mem_getStationStatistics] at hs
  unfold stationStatisticsUnsorted at hs
  obtain ⟨kv, hkv, rfl⟩ := List.mem_map.1 hs
  exact ⟨kv.1, kv.2, hkv, rfl⟩

/-- C17 (amended): every station summary of `getStationStatistics` is built from a group
of records whose hour tally (resp. day-of-week tally) has `peakHour` (resp. `peakDay`) as
its peak, the smallest key attaining the maximum count, whenever some tallied count is
positive; when no tallied count is positive, `peakHour` (resp. `peakDay`) is 0. -/
theorem stationStatistics_peak (S : StdSort) (dm : DataManager) (s : StationStatistics)
    (hs : s ∈ getStationStatistics S dm) :
    ∃ name flows,
      (name, flows) ∈ groupFlows
        (fun flow => (dm.getStationById flow.m_stationId).map Station.m_name)
        dm.m_passengerFlows ∧
      s = stationStatisticsOf name flows ∧
      IsPeakOrZero (tallyFlows PassengerFlow.getHour flows) s.peakHour ∧
      IsPeakOrZero (tallyFlows PassengerFlow.getDayOfWeek flows) s.peakDay := by
  obtain ⟨name, flows, hmem, rfl⟩ := exists_group_of_mem_getStationStatistics S dm s hs
  exact ⟨name, flows, hmem, rfl, peakKey_spec _ (tallyFlows_sorted _ flows),
    peakKey_spec _ (tallyFlows_sorted _ flows)⟩

/-- The summary of station X is in the result for the scenario A store. -/
theorem storeA_summary_mem :
    stationStatisticsOf "X" [flowA1, flowA2] ∈ getStationStatistics insertionStdSort storeA := by
  rw [mem_getStationStatistics,
    stationStatisticsUnsorted_pair storeA stationX flowA1 flowA2 rfl rfl rfl]
  exact List.mem_singleton.2 rfl

/-- C17, witness: the summary of station X in scenario A. -/
theorem stationStatistics_peak_witness :
    ∃ name flows,
      (name, flows) ∈ groupFlows
        (fun flow => (storeA.getStationById flow.m_stationId).map Station.m_name)
        storeA.m_passengerFlows ∧
      stationStatisticsOf "X" [flowA1, flowA2] = stationStatisticsOf name flows ∧
      IsPeakOrZero (tallyFlows PassengerFlow.getHour flows)
        (stationStatisticsOf "X" [flowA1, flowA2]).peakHour ∧
      IsPeakOrZero (tallyFlows PassengerFlow.getDayOfWeek flows)
        (stationStatisticsOf "X" [flowA1, flowA2]).peakDay :=
  stationStatistics_peak insertionStdSort storeA _ storeA_summary_mem

/-- C17, counterexample: for a store whose only record (station X, 08:05) carries no
passengers, the summary of X is built from the hour tally `[(8, 0)]` and has
`peakHour = 0`, an hour that is not present in the tally. -/
theorem stationStatistics_peak_all_zero :
    getStationStatistics insertionStdSort storeZ = [stationStatisticsOf "X" [flowZ]] ∧
    tallyFlows PassengerFlow.getHour [flowZ] = [(8, 0)] ∧
    (stationStatisticsOf "X" [flowZ]).peakHour = 0 ∧
    ¬ IsPeakOf (tallyFlows PassengerFlow.getHour [flowZ])
      (stationStatisticsOf "X" [flowZ]).peakHour := by
  have htally : tallyFlows PassengerFlow.getHour [flowZ] = [(8, 0)] := by decide
  have hpeak : (stationStatisticsOf "X" [flowZ]).peakHour = 0 := by decide
  refine ⟨?_, htally, hpeak, ?_⟩
  · unfold getStationStatistics
    have hu : stationStatisticsUnsorted storeZ = [stationStatisticsOf "X" [flowZ]] := by
      have hf : storeZ.m_passengerFlows = [flowZ] := rfl
      have h1 : storeZ.getStationById flowZ.m_stationId = some stationX := by decide
      simp [stationStatisticsUnsorted, groupFlows, hf, h1, QMap.update, stationX]
    rw [hu, StdSort.sort_singleton]
  · rw [htally, hpeak]
    rintro ⟨v, hmem, -⟩
    simp at hmem

/-! ### Train-scoped time series -/

/-- Grouping skips the records without a key. -/
theorem foldl_group_filter {K : Type} [LinearOrder K] [DecidableEq K]
    (key : PassengerFlow → Option K) (l : List PassengerFlow)
    (m : QMap K (List PassengerFlow)) :
    l.foldl (fun m flow =>
      match key flow with
      | some k => QMap.update m k [] (fun v => v ++ [flow])
      | none => m) m =
    (l.filter (fun flow => (key flow).isSome)).foldl (fun m flow =>
      match key flow with
      | some k => QMap.update m k [] (fun v => v ++ [flow])
      | none => m) m := by
  induction l generalizing m with
  | nil => rfl
  | cons x xs ih =>
    cases hx : key x with
    | none => simp [List.filter_cons, hx, ih]
    | some k => simp [List.filter_cons, hx, ih]

/-- Grouping depends on the key function only through its values on the records. -/
theorem foldl_group_congr {K : Type} [LinearOrder K] [DecidableEq K]
    (key key' : PassengerFlow → Option K) (l : List PassengerFlow)
    (h : ∀ x ∈ l, key x = key' x) (m : QMap K (List PassengerFlow)) :
    l.foldl (fun m flow =>
      match key flow with
      | some k => QMap.update m k [] (fun v => v ++ [flow])
      | none => m) m =
    l.foldl (fun m flow =>
      match key' flow with
      | some k => QMap.update m k [] (fun v => v ++ [flow])
      | none => m) m := by
  induction l generalizing m with
  | nil => rfl
  | cons x xs ih =>
    simp only [List.foldl_cons]
    rw [h x (List.mem_cons_self _ _)]
    exact ih (fun y hy => h y (List.mem_cons_of_mem _ hy)) _

/-- Grouping by date the records selected by a test is grouping by date the filtered
list. -/
theorem groupFlows_ite_date (c : PassengerFlow → Bool) (l : List PassengerFlow) :
    groupFlows (fun flow => if c flow = true then some flow.m_date else none) l =
      groupFlows (fun flow => some flow.m_date) (l.filter c) := by
  have hf : l.filter (fun flow =>
      (if c flow = true then some flow.m_date else none).isSome) = l.filter c := by
    apply List.filter_congr
    intro x _
    cases c x <;> simp
  have h1 : groupFlows (fun flow => if c flow = true then some flow.m_date else none) l =
      groupFlows (fun flow => if c flow = true then some flow.m_date else none)
        (l.filter c) := by
    conv_rhs => rw [← hf]
    exact foldl_group_filter _ l []
  rw [h1]
  exact foldl_group_congr (fun flow => if c flow = true then some flow.m_date else none)
    (fun flow => some flow.m_date) (l.filter c) (fun x hx => by
      have := (List.mem_filter.1 hx).2
      simp [this]) []

/-- The unsorted points of the range-filtered records form the time series of the records
over the window. -/
theorem isTimeSeriesOf_filter_range (flows : List PassengerFlow) (startDate endDate : QDate) :
    IsTimeSeriesOf flows startDate endDate
      (timeSeriesUnsorted (flows.filter (fun flow =>
        QDate.isValid flow.m_date && (decide (flow.m_date ≥ startDate) &&
          decide (flow.m_date ≤ endDate))))) := by
  refine ⟨timeSeriesUnsorted_pairwise _, ?_, ?_⟩
  · intro d
    constructor
    · rintro ⟨p, hp, rfl⟩
      rw [mem_timeSeriesUnsorted] at hp
      obtain ⟨⟨hv, hs, he⟩, heq⟩ := filter_date_filter_range _ _ _ _ hp.1
      refine ⟨hv, hs, he, ?_⟩
      have hne := hp.1
      rw [heq] at hne
      obtain ⟨r, hr⟩ := List.exists_mem_of_ne_nil _ hne
      rw [List.mem_filter] at hr
      exact ⟨r, hr.1, of_decide_eq_true hr.2⟩
    · rintro ⟨hv, hs, he, r, hr, rfl⟩
      refine ⟨timeSeriesPointOf r.m_date ((flows.filter (fun flow =>
        QDate.isValid flow.m_date && (decide (flow.m_date ≥ startDate) &&
          decide (flow.m_date ≤ endDate)))).filter (fun x => decide (x.m_date = r.m_date))),
        ?_, rfl⟩
      rw [mem_timeSeriesUnsorted]
      refine ⟨?_, rfl⟩
      apply List.ne_nil_of_mem (a := r)
      simp [List.mem_filter, hr, hv, hs, he, timeSeriesPointOf]
  · intro p hp
    rw [mem_timeSeriesUnsorted] at hp
    obtain ⟨-, heq⟩ := filter_date_filter_range _ _ _ _ hp.1
    have hp2 := hp.2
    rw [heq] at hp2
    constructor
    · conv_lhs => rw [hp2]
      simp [timeSeriesPointOf, foldl_add_eq_sum]
    · conv_lhs => rw [hp2]
      simp [timeSeriesPointOf, foldl_add_eq_sum]

/-- On a store with records, the train-scoped query computes the unsorted points of the
records that pass the train filter, the station filter and the range filter. -/
theorem getPassengerFlowTimeSeriesByTrain_of_ne_nil (S : StdSort) (rnd : Nat → Nat)
    (dm : DataManager) (trainNumber : String) (startDate endDate : QDate)
    (h : dm.m_passengerFlows ≠ []) :
    getPassengerFlowTimeSeriesByTrain S rnd dm trainNumber startDate endDate =
      timeSeriesUnsorted ((dm.m_passengerFlows.filter (trainSeriesFilter dm trainNumber)).filter
        (fun flow => QDate.isValid flow.m_date && (decide (flow.m_date ≥ startDate) &&
          decide (flow.m_date ≤ endDate)))) := by
  have hkey : (fun (flow : PassengerFlow) =>
      if flow.m_trainCode = trainNumber then
        match dm.getStationById flow.m_stationId with
        | some station => if station.m_name ∈ targetStations then some flow.m_date else none
        | none => none
      else none) =
      (fun flow => if trainSeriesFilter dm trainNumber flow = true then some flow.m_date
        else none) := by
    funext flow
    unfold trainSeriesFilter
    by_cases ht : flow.m_trainCode = trainNumber
    · cases hst : dm.getStationById flow.m_stationId with
      | none => simp [ht]
      | some st =>
        by_cases hn : st.m_name ∈ targetStations
        · simp [ht, hn]
        · simp [ht, hn]
    · simp [ht]
  unfold getPassengerFlowTimeSeriesByTrain
  simp only []
  rw [hkey, groupFlows_ite_date, getPassengerFlowsByDateRange_of_ne_nil dm rnd startDate
    endDate h, List.filter_comm]
  exact S.sort_dates_eq_self _ (timeSeriesUnsorted_pairwise _)

/-- C18 (amended): on a store with at least one record,
`getPassengerFlowTimeSeriesByTrain(t, start, end)` is the time series over the window of
the records with train code `t` whose station resolves to one of the three target
stations: strictly ascending dates, one point per valid in-window date that has such a
record, each with the passenger and revenue sums of those records. -/
theorem getPassengerFlowTimeSeriesByTrain_isTimeSeries (S : StdSort) (rnd : Nat → Nat)
    (dm : DataManager) (trainNumber : String) (startDate endDate : QDate)
    (h : dm.m_passengerFlows ≠ []) :
    IsTimeSeriesOf (dm.m_passengerFlows.filter (trainSeriesFilter dm trainNumber))
      startDate endDate
      (getPassengerFlowTimeSeriesByTrain S rnd dm trainNumber startDate endDate) := by
  rw [getPassengerFlowTimeSeriesByTrain_of_ne_nil S rnd dm trainNumber startDate endDate h]
  exact isTimeSeriesOf_filter_range _ startDate endDate

/-- The scenario B store is not empty. -/
theorem storeB_flows_ne_nil : storeB.m_passengerFlows ≠ [] := by
  have h : storeB.m_passengerFlows.length = 10 := by decide
  intro he
  rw [he] at h
  cases h

/-- C18, witness: train G8501 on the scenario B store (all records at 成都东站). -/
theorem getPassengerFlowTimeSeriesByTrain_isTimeSeries_witness :
    storeB.m_passengerFlows ≠ [] ∧
    IsTimeSeriesOf (storeB.m_passengerFlows.filter (trainSeriesFilter storeB "G8501"))
      2457004 2457033
      (getPassengerFlowTimeSeriesByTrain insertionStdSort (fun _ => 0) storeB "G8501"
        2457004 2457033) :=
  ⟨storeB_flows_ne_nil,
    getPassengerFlowTimeSeriesByTrain_isTimeSeries insertionStdSort (fun _ => 0) storeB
      "G8501" 2457004 2457033 storeB_flows_ne_nil⟩

/-- C18, counterexample: in the scenario A store the record of train G8501 on 2015-01-01
lies in the window, but its station "X" is not a target station, so the train-scoped
series is empty and is not the time series of the records with that train code; and on a
store holding the station 成都东站 but no record, the series has a point although no record
exists. -/
theorem getPassengerFlowTimeSeriesByTrain_not_train_only :
    ¬ IsTimeSeriesOf
        (storeA.m_passengerFlows.filter (fun flow => decide (flow.m_trainCode = "G8501")))
        2457000 2457030
        (getPassengerFlowTimeSeriesByTrain insertionStdSort (fun _ => 0) storeA "G8501"
          2457000 2457030) ∧
    ¬ IsTimeSeriesOf
        (storeStationsOnly.m_passengerFlows.filter
          (fun flow => decide (flow.m_trainCode = "G8501")))
        2457024 2457024
        (getPassengerFlowTimeSeriesByTrain insertionStdSort (fun _ => 0) storeStationsOnly
          "G8501" 2457024 2457024) := by
  constructor
  · intro h
    have hempty : (getPassengerFlowTimeSeriesByTrain insertionStdSort (fun _ => 0) storeA
        "G8501" 2457000 2457030).length = 0 := by decide
    have hex := (h.2.1 2457024).2 ⟨by decide, by decide, by decide, flowA1, by
      rw [storeA_flows]
      simp [flowA1], rfl⟩
    obtain ⟨p, hp, -⟩ := hex
    rw [List.length_eq_zero.1 hempty] at hp
    cases hp
  · intro h
    have hd : (getPassengerFlowTimeSeriesByTrain insertionStdSort (fun _ => 0)
        storeStationsOnly "G8501" 2457024 2457024).map (fun p => p.date) = [2457024] := by
      decide
    have hm : (2457024 : QDate) ∈ (getPassengerFlowTimeSeriesByTrain insertionStdSort
        (fun _ => 0) storeStationsOnly "G8501" 2457024 2457024).map (fun p => p.date) := by
      rw [hd]; exact List.mem_singleton.2 rfl
    obtain ⟨p, hp, hpd⟩ := List.mem_map.1 hm
    obtain ⟨-, -, -, r, hr, -⟩ := (h.2.1 2457024).1 ⟨p, hp, hpd⟩
    have hnil : storeStationsOnly.m_passengerFlows = [] := rfl
    rw [hnil] at hr
    cases hr

/-! ### Ticket-type analysis -/

/-- When no record has a key, the grouping map is empty. -/
theorem groupFlows_eq_nil {K : Type} [LinearOrder K] [DecidableEq K]
    (key : PassengerFlow → Option K) (l : List PassengerFlow)
    (h : ∀ x ∈ l, key x = none) : groupFlows key l = [] := by
  have hf : l.filter (fun flow => (key flow).isSome) = [] := by
    rw [List.filter_eq_nil_iff]
    intro x hx
    rw [h x hx]
    simp
  have h1 := foldl_group_filter key l []
  rw [hf] at h1
  exact h1

/-- The mock list has one entry per mock ticket type. -/
theorem mockTicketTypes_length (rnd : Nat → Nat) (types : List String) (k : Nat) :
    (mockTicketTypes rnd types k).length = types.length := by
  induction types generalizing k with
  | nil => rfl
  | cons t ts ih => simp [mockTicketTypes, ih]

/-- The mock list carries the mock ticket types, in order. -/
theorem mockTicketTypes_types (rnd : Nat → Nat) (types : List String) (k : Nat) :
    (mockTicketTypes rnd types k).map (fun a => a.ticketType) = types := by
  induction types generalizing k with
  | nil => rfl
  | cons t ts ih => simp [mockTicketTypes, ih]

/-- C13 (amended): when no record returned by the range query passes the station filter
of the ticket-type analysis, `getTicketTypeAnalysis` returns the five synthesized entries
(one per mock ticket type, filled from `std::rand()`), ordered by non-increasing
`totalPassengers`; in particular the result is not empty. -/
theorem getTicketTypeAnalysis_mock (S : StdSort) (rnd : Nat → Nat) (dm : DataManager)
    (startDate endDate : QDate)
    (h : ∀ flow ∈ dm.getPassengerFlowsByDateRange rnd startDate endDate,
      ticketTypeKey dm flow = none) :
    List.Perm (getTicketTypeAnalysis S rnd dm startDate endDate)
      (mockTicketTypes rnd ["成人票", "学生票", "儿童票", "军人票", "老年票"]
        (dm.getPassengerFlowsByDateRangeDraws rnd startDate endDate)) ∧
    (getTicketTypeAnalysis S rnd dm startDate endDate).length = 5 ∧
    List.Perm ((getTicketTypeAnalysis S rnd dm startDate endDate).map (fun a => a.ticketType))
      ["成人票", "学生票", "儿童票", "军人票", "老年票"] ∧
    (getTicketTypeAnalysis S rnd dm startDate endDate).Pairwise
      (fun a b => a.totalPassengers ≥ b.totalPassengers) := by
  have hres : getTicketTypeAnalysis S rnd dm startDate endDate =
      S.sort (fun a b => decide (a.totalPassengers > b.totalPassengers))
        (mockTicketTypes rnd ["成人票", "学生票", "儿童票", "军人票", "老年票"]
          (dm.getPassengerFlowsByDateRangeDraws rnd startDate endDate)) := by
    unfold getTicketTypeAnalysis ticketTypeAnalysisUnsorted
    simp only []
    rw [groupFlows_eq_nil _ _ h]
    rfl
  have hperm := S.perm (fun (a b : TicketTypeAnalysis) =>
    decide (a.totalPassengers > b.totalPassengers))
    (mockTicketTypes rnd ["成人票", "学生票", "儿童票", "军人票", "老年票"]
      (dm.getPassengerFlowsByDateRangeDraws rnd startDate endDate))
  rw [hres]
  refine ⟨hperm, ?_, ?_, S.sort_descending TicketTypeAnalysis.totalPassengers _⟩
  · rw [hperm.length_eq, mockTicketTypes_length]
    rfl
  · have := hperm.map (fun a => a.ticketType)
    rw [mockTicketTypes_types] at this
    exact this

/-- In the scenario A store no record lies in the window 2015-03-18 .. 2015-06-26. -/
theorem storeA_range_empty :
    storeA.getPassengerFlowsByDateRange (fun _ => 0) 2457100 2457200 = [] := by
  have h : (storeA.getPassengerFlowsByDateRange (fun _ => 0) 2457100 2457200).length = 0 := by
    decide
  exact List.length_eq_zero.1 h

/-- C13, witness: the scenario A store over a window without records. -/
theorem getTicketTypeAnalysis_mock_witness :
    (getTicketTypeAnalysis insertionStdSort (fun _ => 0) storeA 2457100 2457200).length = 5 :=
  (getTicketTypeAnalysis_mock insertionStdSort (fun _ => 0) storeA 2457100 2457200
    (fun flow hflow => by
      rw [storeA_range_empty] at hflow
      cases hflow)).2.1

/-- C13, counterexample: the scenario A store is not empty and has no record in the window
2015-03-18 .. 2015-06-26, so no record passes the filters, and yet `getTicketTypeAnalysis`
returns a non-empty collection. -/
theorem getTicketTypeAnalysis_not_empty :
    storeA.m_passengerFlows ≠ [] ∧
    (∀ flow ∈ storeA.getPassengerFlowsByDateRange (fun _ => 0) 2457100 2457200,
      ticketTypeKey storeA flow = none) ∧
    getTicketTypeAnalysis insertionStdSort (fun _ => 0) storeA 2457100 2457200 ≠ [] := by
  refine ⟨storeA_flows_ne_nil, ?_, ?_⟩
  · intro flow hflow
    rw [storeA_range_empty] at hflow
    cases hflow
  · intro he
    have h : (getTicketTypeAnalysis insertionStdSort (fun _ => 0) storeA 2457100
        2457200).length = 5 := by decide
    rw [he] at h
    cases h

/-! ### Train flow by date range -/

/-- An updated map is never empty. -/
theorem QMap.update_ne_nil {K V : Type} [LinearOrder K] [DecidableEq K] (m : QMap K V)
    (k : K) (d : V) (f : V → V) : QMap.update m k d f ≠ [] := by
  cases m with
  | nil => simp [QMap.update]
  | cons e rest =>
    obtain ⟨k0, v0⟩ := e
    rw [QMap.update]
    split_ifs <;> exact List.cons_ne_nil _ _

/-- One iteration of the train tally, in terms of `countsForTrainFlow`. -/
theorem trainFlowTally_step (dm : DataManager) (trainFlow : QMap String ℚ)
    (flow : PassengerFlow) :
    (if flow.m_stationId ∈ [(1695 : Int), 1640, 1037] then
      QMap.update trainFlow flow.m_trainCode 0 (fun v => v + (flow.getTotalPassengers : ℚ))
    else
      match dm.getStationById flow.m_stationId with
      | none => trainFlow
      | some station =>
        if station.m_name ∈ targetStations then
          QMap.update trainFlow flow.m_trainCode 0 (fun v => v + (flow.getTotalPassengers : ℚ))
        else trainFlow) =
    if countsForTrainFlow dm flow = true then
      QMap.update trainFlow flow.m_trainCode 0 (fun v => v + (flow.getTotalPassengers : ℚ))
    else trainFlow := by
  unfold countsForTrainFlow
  by_cases h1 : flow.m_stationId ∈ [(1695 : Int), 1640, 1037]
  · simp [h1]
  · cases hst : dm.getStationById flow.m_stationId with
    | none => simp [h1]
    | some st =>
      by_cases h2 : st.m_name ∈ targetStations
      · simp [h1, h2]
      · simp [h1, h2]

/-- The train tally loop from an arbitrary map is not empty when the map is not empty or
some record contributes. -/
theorem trainFlowTally_foldl_ne_nil (dm : DataManager) (flows : List PassengerFlow)
    (m : QMap String ℚ)
    (h : m ≠ [] ∨ ∃ flow ∈ flows, countsForTrainFlow dm flow = true) :
    flows.foldl (fun trainFlow flow =>
      if flow.m_stationId ∈ [(1695 : Int), 1640, 1037] then
        QMap.update trainFlow flow.m_trainCode 0 (fun v => v + (flow.getTotalPassengers : ℚ))
      else
        match dm.getStationById flow.m_stationId with
        | none => trainFlow
        | some station =>
          if station.m_name ∈ targetStations then
            QMap.update trainFlow flow.m_trainCode 0
              (fun v => v + (flow.getTotalPassengers : ℚ))
          else trainFlow) m ≠ [] := by
  induction flows generalizing m with
  | nil =>
    rcases h with h | ⟨flow, hflow, -⟩
    · exact h
    · cases hflow
  | cons x xs ih =>
    rw [List.foldl_cons, trainFlowTally_step]
    apply ih
    by_cases hx : countsForTrainFlow dm x = true
    · rw [if_pos hx]
      exact Or.inl (QMap.update_ne_nil _ _ _ _)
    · rw [if_neg hx]
      rcases h with h | ⟨flow, hflow, hc⟩
      · exact Or.inl h
      · rcases List.mem_cons.1 hflow with rfl | hflow'
        · exact absurd hc hx
        · exact Or.inr ⟨flow, hflow', hc⟩

/-- C14 (amended): when some stored record with a valid date inside the window
contributes to the train tally, `getTrainFlowByDateRange` returns the same map whatever
the value of the static call counter and whatever the values returned by `std::rand()`;
in particular two successive invocations agree. -/
theorem getTrainFlowByDateRange_deterministic (dm : DataManager) (rnd rnd' : Nat → Nat)
    (count count' : Nat) (startDate endDate : QDate)
    (hc : ∃ flow ∈ dm.m_passengerFlows, QDate.isValid flow.m_date = true ∧
      startDate ≤ flow.m_date ∧ flow.m_date ≤ endDate ∧ countsForTrainFlow dm flow = true) :
    getTrainFlowByDateRange dm rnd count startDate endDate =
      getTrainFlowByDateRange dm rnd' count' startDate endDate := by
  have hne : dm.m_passengerFlows ≠ [] := by
    obtain ⟨flow, hflow, -⟩ := hc
    exact List.ne_nil_of_mem hflow
  have hflows : ∀ r : Nat → Nat, dm.getPassengerFlowsByDateRange r startDate endDate =
      dm.m_passengerFlows.filter (fun flow =>
        QDate.isValid flow.m_date && (decide (flow.m_date ≥ startDate) &&
          decide (flow.m_date ≤ endDate))) :=
    fun r => getPassengerFlowsByDateRange_of_ne_nil dm r startDate endDate hne
  have htally : trainFlowTally dm (dm.m_passengerFlows.filter (fun flow =>
      QDate.isValid flow.m_date && (decide (flow.m_date ≥ startDate) &&
        decide (flow.m_date ≤ endDate)))) ≠ [] := by
    obtain ⟨flow, hflow, hv, hs, he, hcount⟩ := hc
    apply trainFlowTally_foldl_ne_nil
    refine Or.inr ⟨flow, ?_, hcount⟩
    simp [List.mem_filter, hflow, hv, hs, he]
  have hres : ∀ (r : Nat → Nat) (c : Nat), getTrainFlowByDateRange dm r c startDate endDate =
      trainFlowTally dm (dm.m_passengerFlows.filter (fun flow =>
        QDate.isValid flow.m_date && (decide (flow.m_date ≥ startDate) &&
          decide (flow.m_date ≤ endDate)))) := by
    intro r c
    unfold getTrainFlowByDateRange
    simp only []
    rw [hflows r, if_neg]
    rintro ⟨-, hempty⟩
    exact htally (List.isEmpty_iff.1 hempty)
  rw [hres rnd count, hres rnd' count']

/-- C14, witness: train flows of the scenario B store (all records at 成都东站, id 1695). -/
theorem getTrainFlowByDateRange_deterministic_witness :
    getTrainFlowByDateRange storeB (fun _ => 0) 0 2457004 2457033 =
      getTrainFlowByDateRange storeB (fun i => i) 1 2457004 2457033 :=
  getTrainFlowByDateRange_deterministic storeB (fun _ => 0) (fun i => i) 0 1 2457004 2457033
    ⟨⟨"CD-CQ", "G8501", 1695, 2457024, QTime.mk 8 0, QTime.mk 8 5, 60, 40, "adult", 80, 8000,
        "成都东站", "重庆北站"⟩,
      by
        have h : storeB.m_passengerFlows.head? = some ⟨"CD-CQ", "G8501", 1695, 2457024,
            QTime.mk 8 0, QTime.mk 8 5, 60, 40, "adult", 80, 8000, "成都东站", "重庆北站"⟩ := by
          simp [storeB, DataManager.load, flowsB, List.range, List.range.loop,
            DataManager.addPassengerFlow, DataManager.addStation, DataManager.addTrain,
            DataManager.empty, stationChengduEast, QDate.isValid, QDate.minJd, QDate.maxJd]
        exact List.mem_of_mem_head? h,
      by decide, by decide, by decide, by decide⟩

/-- C14, counterexample: on the scenario A store (no record counts for the train tally)
the first invocation, with the call counter at 0, returns the five mock trains, and the
next invocation with the same arguments, with the call counter at 1, returns the empty
map. -/
theorem getTrainFlowByDateRange_depends_on_call_count :
    getTrainFlowByDateRange storeA (fun _ => 0) 0 2457000 2457030 ≠
      getTrainFlowByDateRange storeA
        (fun i => (fun _ => 0) (i + getTrainFlowByDateRangeDraws storeA (fun _ => 0) 0
          2457000 2457030)) 1 2457000 2457030 := by
  have h2 : getTrainFlowByDateRange storeA
      (fun i => (fun _ => 0) (i + getTrainFlowByDateRangeDraws storeA (fun _ => 0) 0
        2457000 2457030)) 1 2457000 2457030 = [] := by
    have h : (getTrainFlowByDateRange storeA
        (fun i => (fun _ => 0) (i + getTrainFlowByDateRangeDraws storeA (fun _ => 0) 0
          2457000 2457030)) 1 2457000 2457030).length = 0 := by decide
    exact List.length_eq_zero.1 h
  have h1 : getTrainFlowByDateRange storeA (fun _ => 0) 0 2457000 2457030 ≠ [] := by
    have ht : (trainFlowTally storeA
        (storeA.getPassengerFlowsByDateRange (fun _ => 0) 2457000 2457030)).isEmpty = true := by
      decide
    unfold getTrainFlowByDateRange
    simp only []
    rw [if_pos ⟨by decide, ht⟩]
    exact QMap.update_ne_nil _ _ _ _
  rw [h2]
  exact h1

/-! ### Station correlations -/

/-- The station passenger tally of the store with stations "A" and "B". -/
theorem storeC_stationPassengerStats :
    storeC.getStationPassengerStats = [("A", 10), ("B", 20)] := by
  have hf : storeC.m_passengerFlows = [flowC1, flowC2] := rfl
  have h1 : storeC.getStationById flowC1.m_stationId = some stationA := by decide
  have h2 : storeC.getStationById flowC2.m_stationId = some stationB := by decide
  have hlt : ¬ (['B'] < ['A']) := by decide
  have t1 : flowC1.getTotalPassengers = 10 := by decide
  have t2 : flowC2.getTotalPassengers = 20 := by decide
  simp [DataManager.getStationPassengerStats, hf, h1, h2, QMap.update,
    String.lt_iff_toList_lt, stationA, stationB, hlt, t1, t2]

/-- C19: on the store with the two stations "A" and "B", each with a record, the station
passenger tally names "A" and "B"; `"A".toInt()` is 0, no station has id 0, and the
unchecked dereference of the failed lookup makes `getStationCorrelations` undefined
(for every iteration order of `QSet`). -/
theorem getStationCorrelations_null_dereference (Q : QSetOrder) :
    storeC.getStationPassengerStats.map Prod.fst = ["A", "B"] ∧
    qStringToInt "A" = 0 ∧
    storeC.getStationById (qStringToInt "A") = none ∧
    getStationCorrelations Q storeC = none := by
  have h0 : qStringToInt "A" = 0 := by decide
  have hnone : storeC.getStationById (qStringToInt "A") = none := by decide
  refine ⟨by rw [storeC_stationPassengerStats]; rfl, h0, hnone, ?_⟩
  unfold getStationCorrelations
  rw [storeC_stationPassengerStats]
  simp only [List.map_cons, List.map_nil, orderedPairs, List.nil_append, List.append_nil,
    correlationLoop, stationPairSignificant, hnone]

/-! ### Parameter search -/

/-- Every grid candidate has a positive window size and seasonality 7. -/
theorem gridCandidates_spec (p : ModelParameters) (hp : p ∈ gridCandidates) :
    0 < p.windowSize ∧ p.seasonality = 7 := by
  unfold gridCandidates at hp
  rw [List.mem_flatMap] at hp
  obtain ⟨alpha, -, hp⟩ := hp
  rw [List.mem_flatMap] at hp
  obtain ⟨beta, -, hp⟩ := hp
  rw [List.mem_map] at hp
  obtain ⟨window, hw, rfl⟩ := hp
  refine ⟨?_, rfl⟩
  simp only [List.mem_cons, List.mem_singleton, List.not_mem_nil, or_false] at hw
  rcases hw with rfl | rfl | rfl | rfl | rfl <;> simp

/-- For parameters whose seasonality is positive whenever they are used,
`predictPassengerFlow` has defined behaviour. -/
theorem predictPassengerFlow_defined (S : StdSort) (rnd : Nat → Nat) (jitter : Nat → Fin 20)
    (dm : DataManager) (startDate : QDate) (days : Int) (params : ModelParameters)
    (hp : 0 < params.windowSize → 0 < params.seasonality) :
    ∃ l, predictPassengerFlow S rnd jitter dm startDate days params = some l := by
  by_cases hlen : (getTimeSeriesData S rnd dm (QDate.addDays startDate (-30))
      (QDate.addDays startDate (-1))).length < 10
  · refine ⟨[], ?_⟩
    unfold predictPassengerFlow
    simp only []
    rw [if_pos hlen]
  · obtain ⟨l, hl, -⟩ := predictPassengerFlow_eq_some S rnd jitter dm startDate days params
      (by omega) hp
    exact ⟨l, hl⟩

/-- A grid candidate is evaluated without undefined behaviour when the validation split is
not empty, and its score is the RMSE that `evaluateModel` computes for its forecast over
the validation split. -/
theorem evaluateCandidate_defined (S : StdSort) (rnd : Nat → Nat) (jitter : Nat → Fin 20)
    (dm : DataManager) (data : List TimeSeriesData) (rndUsed jitterUsed : Nat)
    (params : ModelParameters) (hv : 5 ≤ (validationSplit data).length)
    (hp : 0 < params.windowSize → 0 < params.seasonality) :
    ∃ r first predictions,
      evaluateCandidate S rnd jitter dm data rndUsed jitterUsed params = some r ∧
      (validationSplit data).head? = some first ∧
      predictPassengerFlow S (fun i => rnd (i + rndUsed)) (fun i => jitter (i + jitterUsed))
        dm first.date ((validationSplit data).length : Int) params = some predictions ∧
      r.1 = (evaluateModel predictions (validationSplit data)).rmse := by
  unfold evaluateCandidate
  cases hhead : (validationSplit data).head? with
  | none =>
    rw [List.head?_eq_none_iff] at hhead
    rw [hhead] at hv
    simp at hv
  | some first =>
    simp only []
    obtain ⟨l, hl⟩ := predictPassengerFlow_defined S (fun i => rnd (i + rndUsed))
      (fun i => jitter (i + jitterUsed)) dm first.date ((validationSplit data).length : Int)
      params hp
    exact ⟨_, first, l, by rw [hl], rfl, hl, rfl⟩

/-- The grid search evaluates every candidate of a list of well-formed candidates, and the
score recorded for each is the RMSE that `evaluateModel` computes for the forecast made
for it (with the random draws not yet consumed) over the validation split. -/
theorem searchTrace_defined (S : StdSort) (rnd : Nat → Nat) (jitter : Nat → Fin 20)
    (dm : DataManager) (data : List TimeSeriesData) (hv : 5 ≤ (validationSplit data).length)
    (candidates : List ModelParameters)
    (hc : ∀ p ∈ candidates, 0 < p.windowSize → 0 < p.seasonality) (rndUsed jitterUsed : Nat) :
    ∃ trace, searchTrace S rnd jitter dm data candidates rndUsed jitterUsed = some trace ∧
      trace.map Prod.fst = candidates ∧
      ∀ e ∈ trace, ∃ (r j : Nat) (first : TimeSeriesData) (predictions : List PredictionResult),
        (validationSplit data).head? = some first ∧
        predictPassengerFlow S (fun i => rnd (i + r)) (fun i => jitter (i + j)) dm first.date
          ((validationSplit data).length : Int) e.1 = some predictions ∧
        e.2 = (evaluateModel predictions (validationSplit data)).rmse := by
  induction candidates generalizing rndUsed jitterUsed with
  | nil => exact ⟨[], rfl, rfl, fun e he => absurd he (List.not_mem_nil e)⟩
  | cons p rest ih =>
    obtain ⟨⟨rmse, r', j'⟩, first, predictions, he, hhead, hpred, hrmse⟩ :=
      evaluateCandidate_defined S rnd jitter dm data rndUsed jitterUsed p hv
        (hc p (List.mem_cons_self _ _))
    obtain ⟨trace, ht, hmap, hall⟩ := ih (fun q hq => hc q (List.mem_cons_of_mem _ hq)) r' j'
    refine ⟨(p, rmse) :: trace, ?_, ?_, ?_⟩
    · simp only [searchTrace, he, ht]
    · simp [hmap]
    · intro e hmem
      rcases List.mem_cons.1 hmem with rfl | hmem'
      · exact ⟨rndUsed, jitterUsed, first, predictions, hhead, hpred, hrmse⟩
      · exact hall e hmem'

/-- Keeping the first entry whose score is a number strictly smaller than the best so far
(a NaN score never passes the test): the final score is below the initial one and below
every score of the list that is a number; the final entry is the initial one or an entry
of the list, and it is an entry of the list as soon as some score is a number below the
initial score. -/
theorem pickBest_spec (trace : List (ModelParameters × Option ℝ))
    (init : ModelParameters × ℝ) :
    (trace.foldl (fun (best : ModelParameters × ℝ) (e : ModelParameters × Option ℝ) =>
      match e.2 with
      | some r => if r < best.2 then (e.1, r) else best
      | none => best) init).2 ≤ init.2 ∧
    (∀ e ∈ trace, ∀ r, e.2 = some r →
      (trace.foldl (fun (best : ModelParameters × ℝ) (e : ModelParameters × Option ℝ) =>
        match e.2 with
        | some r => if r < best.2 then (e.1, r) else best
        | none => best) init).2 ≤ r) ∧
    (trace.foldl (fun (best : ModelParameters × ℝ) (e : ModelParameters × Option ℝ) =>
        match e.2 with
        | some r => if r < best.2 then (e.1, r) else best
        | none => best) init = init ∨
      ((trace.foldl (fun (best : ModelParameters × ℝ) (e : ModelParameters × Option ℝ) =>
        match e.2 with
        | some r => if r < best.2 then (e.1, r) else best
        | none => best) init).1,
       some (trace.foldl (fun (best : ModelParameters × ℝ) (e : ModelParameters × Option ℝ) =>
        match e.2 with
        | some r => if r < best.2 then (e.1, r) else best
        | none => best) init).2) ∈ trace) ∧
    ((∃ e ∈ trace, ∃ r, e.2 = some r ∧ r < init.2) →
      ((trace.foldl (fun (best : ModelParameters × ℝ) (e : ModelParameters × Option ℝ) =>
        match e.2 with
        | some r => if r < best.2 then (e.1, r) else best
        | none => best) init).1,
       some (trace.foldl (fun (best : ModelParameters × ℝ) (e : ModelParameters × Option ℝ) =>
        match e.2 with
        | some r => if r < best.2 then (e.1, r) else best
        | none => best) init).2) ∈ trace) := by
  induction trace generalizing init with
  | nil =>
    refine ⟨le_refl _, fun e he => absurd he (List.not_mem_nil e), Or.inl rfl, ?_⟩
    rintro ⟨e, he, -⟩
    cases he
  | cons x xs ih =>
    obtain ⟨p, score⟩ := x
    cases score with
    | none =>
      simp only [List.foldl_cons]
      obtain ⟨h1, h2, h3, h4⟩ := ih init
      refine ⟨h1, ?_, ?_, ?_⟩
      · intro e he r hr
        rcases List.mem_cons.1 he with rfl | he'
        · cases hr
        · exact h2 e he' r hr
      · rcases h3 with h | h
        · exact Or.inl h
        · exact Or.inr (List.mem_cons_of_mem _ h)
      · rintro ⟨e, he, r, hr, hlt⟩
        rcases List.mem_cons.1 he with rfl | he'
        · cases hr
        · exact List.mem_cons_of_mem _ (h4 ⟨e, he', r, hr, hlt⟩)
    | some v =>
      simp only [List.foldl_cons]
      by_cases hx : v < init.2
      · rw [if_pos hx]
        obtain ⟨h1, h2, h3, h4⟩ := ih (p, v)
        have hmem : ((xs.foldl (fun (best : ModelParameters × ℝ)
            (e : ModelParameters × Option ℝ) =>
            match e.2 with
            | some r => if r < best.2 then (e.1, r) else best
            | none => best) (p, v)).1,
          some (xs.foldl (fun (best : ModelParameters × ℝ)
            (e : ModelParameters × Option ℝ) =>
            match e.2 with
            | some r => if r < best.2 then (e.1, r) else best
            | none => best) (p, v)).2) ∈ (p, some v) :: xs := by
          rcases h3 with h | h
          · rw [h]
            exact List.mem_cons_self _ _
          · exact List.mem_cons_of_mem _ h
        refine ⟨le_trans h1 (le_of_lt hx), ?_, Or.inr hmem, fun _ => hmem⟩
        intro e he r hr
        rcases List.mem_cons.1 he with rfl | he'
        · rw [← Option.some.inj hr]
          exact h1
        · exact h2 e he' r hr
      · rw [if_neg hx]
        obtain ⟨h1, h2, h3, h4⟩ := ih init
        refine ⟨h1, ?_, ?_, ?_⟩
        · intro e he r hr
          rcases List.mem_cons.1 he with rfl | he'
          · rw [← Option.some.inj hr]
            exact le_trans h1 (not_lt.1 hx)
          · exact h2 e he' r hr
        · rcases h3 with h | h
          · exact Or.inl h
          · exact Or.inr (List.mem_cons_of_mem _ h)
        · rintro ⟨e, he, r, hr, hlt⟩
          rcases List.mem_cons.1 he with rfl | he'
          · rw [← Option.some.inj hr] at hlt
            exact absurd hlt hx
          · exact List.mem_cons_of_mem _ (h4 ⟨e, he', r, hr, hlt⟩)

/-- The grid search loop keeps, among the evaluated candidates, the first one whose score
is a number strictly smaller than everything before it. -/
theorem optimizeLoop_eq_pickBest (S : StdSort) (rnd : Nat → Nat) (jitter : Nat → Fin 20)
    (dm : DataManager) (data : List TimeSeriesData) (hv : 5 ≤ (validationSplit data).length)
    (candidates : List ModelParameters) (state : SearchState)
    (trace : List (ModelParameters × Option ℝ))
    (ht : searchTrace S rnd jitter dm data candidates state.rndUsed state.jitterUsed
      = some trace) :
    ∃ state', optimizeLoop S rnd jitter dm data candidates state = some state' ∧
      (state'.bestParams, state'.bestScore) =
        trace.foldl (fun (best : ModelParameters × ℝ) (e : ModelParameters × Option ℝ) =>
          match e.2 with
          | some r => if r < best.2 then (e.1, r) else best
          | none => best) (state.bestParams, state.bestScore) := by
  induction candidates generalizing state trace with
  | nil =>
    simp only [searchTrace, Option.some.injEq] at ht
    subst ht
    exact ⟨state, rfl, rfl⟩
  | cons p rest ih =>
    rw [searchTrace] at ht
    cases he : evaluateCandidate S rnd jitter dm data state.rndUsed state.jitterUsed p with
    | none => rw [he] at ht; cases ht
    | some r =>
      obtain ⟨rmse, r', j'⟩ := r
      rw [he] at ht
      simp only [] at ht
      cases hrest : searchTrace S rnd jitter dm data rest r' j' with
      | none => rw [hrest] at ht; cases ht
      | some tr =>
        rw [hrest] at ht
        simp only [Option.some.injEq] at ht
        subst ht
        cases rmse with
        | none =>
          have hstep : optimizeStep S rnd jitter dm data state p =
              some ⟨state.bestParams, state.bestScore, r', j'⟩ := by
            unfold optimizeStep
            rw [if_neg (by omega), he]
          rw [optimizeLoop, hstep]
          simp only [List.foldl_cons]
          exact ih ⟨state.bestParams, state.bestScore, r', j'⟩ tr hrest
        | some v =>
          have hstep : optimizeStep S rnd jitter dm data state p =
              some (if v < state.bestScore then ⟨p, v, r', j'⟩
                else ⟨state.bestParams, state.bestScore, r', j'⟩) := by
            unfold optimizeStep
            rw [if_neg (by omega), he]
            simp only []
            split_ifs <;> rfl
          rw [optimizeLoop, hstep]
          simp only [List.foldl_cons]
          by_cases hlt : v < state.bestScore
          · rw [if_pos hlt, if_pos hlt]
            exact ih ⟨p, v, r', j'⟩ tr hrest
          · rw [if_neg hlt, if_neg hlt]
            exact ih ⟨state.bestParams, state.bestScore, r', j'⟩ tr hrest

/-- The value stored by an `int` operation is below `2^31`. -/
theorem wrapInt32_lt (v : Int) : wrapInt32 v < 2147483648 := by
  unfold wrapInt32
  omega

/-- A sum of terms that are at most `B` is at most the number of terms times `B`. -/
theorem sum_map_le_length_mul {α : Type} (g : α → ℝ) (B : ℝ) (l : List α)
    (h : ∀ x ∈ l, g x ≤ B) : (l.map g).sum ≤ (l.length : ℝ) * B := by
  induction l with
  | nil => simp
  | cons x xs ih =>
    have h1 := h x (List.mem_cons_self _ _)
    have h2 := ih (fun y hy => h y (List.mem_cons_of_mem _ hy))
    simp only [List.map_cons, List.sum_cons, List.length_cons, Nat.cast_add, Nat.cast_one]
    linarith

/-- An RMSE that is a number is below the initial best score `DBL_MAX`: the mean of `int`
squares is below `2^31`. -/
theorem evaluateModel_rmse_lt_doubleMax (predictions : List PredictionResult)
    (actual : List TimeSeriesData) (r : ℝ)
    (h : (evaluateModel predictions actual).rmse = some r) : r < doubleMax := by
  have hmax : (65536 : ℝ) < doubleMax := by
    unfold doubleMax
    have h1 : (1 : ℝ) ≤ 2 ^ 53 - 1 := by norm_num
    have h2 : (65536 : ℝ) < 2 ^ 971 := by
      have : (65536 : ℝ) = 2 ^ 16 := by norm_num
      rw [this]
      exact pow_lt_pow_right₀ (by norm_num) (by norm_num)
    nlinarith
  unfold evaluateModel at h
  by_cases hem : predictions.isEmpty ∨ actual.isEmpty
  · rw [if_pos hem] at h
    simp only [Option.some.injEq] at h
    rw [← h]
    linarith
  · rw [if_neg hem] at h
    simp only [] at h
    have hp : predictions ≠ [] := fun e => hem (Or.inl (by simp [e]))
    have ha : actual ≠ [] := fun e => hem (Or.inr (by simp [e]))
    have hn : (0 : ℝ) < ((min predictions.length actual.length : Nat) : ℝ) := by
      have h1 : 0 < predictions.length := List.length_pos.2 hp
      have h2 : 0 < actual.length := List.length_pos.2 ha
      exact_mod_cast lt_min h1 h2
    rw [foldl_add_eq_sum, zero_add] at h
    have hsum := sum_map_le_length_mul
      (fun (pa : Int × Int) => ((intMul |pa.1 - pa.2| |pa.1 - pa.2| : Int) : ℝ)) 2147483648
      ((predictions.zip actual).map (fun pa => (pa.1.predictedPassengers, pa.2.passengers)))
      (fun pa _ => by
        have := wrapInt32_lt (|pa.1 - pa.2| * |pa.1 - pa.2|)
        show ((intMul |pa.1 - pa.2| |pa.1 - pa.2| : Int) : ℝ) ≤ 2147483648
        unfold intMul
        exact_mod_cast le_of_lt this)
    rw [List.length_map, List.length_zip] at hsum
    by_cases hneg : ((((predictions.zip actual).map
        (fun pa => (pa.1.predictedPassengers, pa.2.passengers))).map
        (fun (pa : Int × Int) => ((intMul |pa.1 - pa.2| |pa.1 - pa.2| : Int) : ℝ))).sum
        / ((min predictions.length actual.length : Nat) : ℝ)) < 0
    · rw [if_pos hneg] at h
      cases h
    · rw [if_neg hneg] at h
      rw [← Option.some.inj h]
      have hle : ((((predictions.zip actual).map
          (fun pa => (pa.1.predictedPassengers, pa.2.passengers))).map
          (fun (pa : Int × Int) => ((intMul |pa.1 - pa.2| |pa.1 - pa.2| : Int) : ℝ))).sum
          / ((min predictions.length actual.length : Nat) : ℝ)) ≤ 65536 * 65536 := by
        rw [div_le_iff₀ hn]
        nlinarith
      calc Real.sqrt _ ≤ Real.sqrt (65536 * 65536) := Real.sqrt_le_sqrt hle
        _ = 65536 := Real.sqrt_mul_self (by norm_num)
        _ < doubleMax := hmax

/-- On a store with records the forecast does not depend on `std::rand()`. -/
theorem predictPassengerFlow_rnd_irrelevant (S : StdSort) (rnd rnd' : Nat → Nat)
    (jitter : Nat → Fin 20) (dm : DataManager) (startDate : QDate) (days : Int)
    (params : ModelParameters) (h : dm.m_passengerFlows ≠ []) :
    predictPassengerFlow S rnd jitter dm startDate days params =
      predictPassengerFlow S rnd' jitter dm startDate days params := by
  have hts : getTimeSeriesData S rnd dm (QDate.addDays startDate (-30))
      (QDate.addDays startDate (-1)) =
      getTimeSeriesData S rnd' dm (QDate.addDays startDate (-30))
        (QDate.addDays startDate (-1)) := by
    rw [getTimeSeriesData_of_ne_nil S rnd dm _ _ h, getTimeSeriesData_of_ne_nil S rnd' dm _ _ h]
  unfold predictPassengerFlow
  simp only []
  rw [hts]

/-- The stored default parameters are a candidate of the grid. -/
theorem currentParams_mem_gridCandidates : currentParams ∈ gridCandidates := by
  unfold gridCandidates currentParams
  rw [List.mem_flatMap]
  refine ⟨0.3, by simp, ?_⟩
  rw [List.mem_flatMap]
  refine ⟨0.1, by simp, ?_⟩
  rw [List.mem_map]
  exact ⟨7, by simp, rfl⟩

/-- Two parameter values with positive window sizes and the same seasonality give the same
forecast: the other fields are never read. -/
theorem predictPassengerFlow_params_irrelevant (S : StdSort) (rnd : Nat → Nat)
    (jitter : Nat → Fin 20) (dm : DataManager) (startDate : QDate) (days : Int)
    (p p' : ModelParameters) (hw : 0 < p.windowSize) (hw' : 0 < p'.windowSize)
    (hs : p.seasonality = p'.seasonality) :
    predictPassengerFlow S rnd jitter dm startDate days p =
      predictPassengerFlow S rnd jitter dm startDate days p' := by
  have hpt : ∀ (ts : List ℝ) (trend : ℝ) (pattern : List ℝ) (base : ℝ),
      predictPassengerFlowPoint ts p trend pattern base startDate jitter =
        predictPassengerFlowPoint ts p' trend pattern base startDate jitter := by
    intro ts trend pattern base
    funext i
    unfold predictPassengerFlowPoint
    rw [hs]
  unfold predictPassengerFlow
  simp only []
  rw [if_pos (show p.windowSize > 0 from hw), if_pos (show p'.windowSize > 0 from hw'), hs]
  simp only [hpt]

/-- C20: with jitter disabled (every draw is 10, the factor 1.0) and a validation split of
at least 5 points, `optimizeParameters` evaluates every candidate of the grid in order;
the score of a candidate is the RMSE that `evaluateModel` computes for the forecast made
with that candidate over the validation split (`none` when that RMSE is NaN).  It returns
a candidate of the grid, and whenever the score of a candidate is a number, the score of
the returned candidate is a number less than or equal to it. -/
theorem optimizeParameters_minimizes_rmse (S : StdSort) (rnd : Nat → Nat)
    (jitter : Nat → Fin 20) (dm : DataManager) (data : List TimeSeriesData)
    (hj : ∀ i, jitter i = 10) (hv : 5 ≤ (validationSplit data).length) :
    ∃ (best : ModelParameters) (trace : List (ModelParameters × Option ℝ))
      (bestScore : Option ℝ),
      optimizeParameters S rnd jitter dm data = some best ∧
      best ∈ gridCandidates ∧
      searchTrace S rnd jitter dm data gridCandidates 0 0 = some trace ∧
      trace.map Prod.fst = gridCandidates ∧
      (∀ e ∈ trace, ∃ (r : Nat) (first : TimeSeriesData) (predictions : List PredictionResult),
        (validationSplit data).head? = some first ∧
        predictPassengerFlow S (fun i => rnd (i + r)) (fun _ => 10) dm first.date
          ((validationSplit data).length : Int) e.1 = some predictions ∧
        e.2 = (evaluateModel predictions (validationSplit data)).rmse) ∧
      (best, bestScore) ∈ trace ∧
      ∀ e ∈ trace, ∀ r, e.2 = some r → ∃ b, bestScore = some b ∧ b ≤ r := by
  obtain ⟨trace, ht, hmap, hall⟩ := searchTrace_defined S rnd jitter dm data hv gridCandidates
    (fun p hp _ => by rw [(gridCandidates_spec p hp).2]; decide) 0 0
  obtain ⟨state', hloop, hpick⟩ := optimizeLoop_eq_pickBest S rnd jitter dm data hv
    gridCandidates ⟨currentParams, doubleMax, 0, 0⟩ trace ht
  simp only [] at hpick
  have hopt : optimizeParameters S rnd jitter dm data = some state'.bestParams := by
    unfold optimizeParameters
    rw [hloop]
    rfl
  have hscores : ∀ e ∈ trace, ∃ (r : Nat) (first : TimeSeriesData)
      (predictions : List PredictionResult),
      (validationSplit data).head? = some first ∧
      predictPassengerFlow S (fun i => rnd (i + r)) (fun _ => 10) dm first.date
        ((validationSplit data).length : Int) e.1 = some predictions ∧
      e.2 = (evaluateModel predictions (validationSplit data)).rmse := by
    intro e he
    obtain ⟨r, j, first, predictions, hhead, hpred, hrmse⟩ := hall e he
    have hjit : (fun i => jitter (i + j)) = (fun _ => (10 : Fin 20)) := by
      funext i
      exact hj (i + j)
    rw [hjit] at hpred
    exact ⟨r, first, predictions, hhead, hpred, hrmse⟩
  obtain ⟨-, hmin, hinit, hmem⟩ := pickBest_spec trace (currentParams, doubleMax)
  rw [← hpick] at hmin hinit hmem
  by_cases hnum : ∃ e ∈ trace, ∃ r, e.2 = some r
  · obtain ⟨e, he, r, hr⟩ := hnum
    have hlt : r < doubleMax := by
      obtain ⟨_, _, predictions, -, -, hrmse⟩ := hscores e he
      exact evaluateModel_rmse_lt_doubleMax predictions (validationSplit data) r
        (hrmse ▸ hr)
    have hmem' := hmem ⟨e, he, r, hr, hlt⟩
    refine ⟨state'.bestParams, trace, some state'.bestScore, hopt, ?_, ht, hmap, hscores,
      hmem', fun e' he' r' hr' => ⟨state'.bestScore, rfl, hmin e' he' r' hr'⟩⟩
    rw [← hmap]
    exact List.mem_map.2 ⟨_, hmem', rfl⟩
  · have hnone : ∀ e ∈ trace, ∀ r, e.2 ≠ some r := fun e he r hr => hnum ⟨e, he, r, hr⟩
    have hbest : state'.bestParams = currentParams := by
      rcases hinit with h | h
      · exact (Prod.mk.inj h).1
      · exact absurd rfl (hnone _ h state'.bestScore)
    have hcur : currentParams ∈ trace.map Prod.fst := by
      rw [hmap]
      exact currentParams_mem_gridCandidates
    obtain ⟨e, he, he1⟩ := List.mem_map.1 hcur
    refine ⟨state'.bestParams, trace, e.2, hopt, ?_, ht, hmap, hscores, ?_,
      fun e' he' r' hr' => absurd hr' (hnone e' he' r')⟩
    · rw [hbest]
      exact currentParams_mem_gridCandidates
    · rw [hbest, ← he1]
      exact he

/-! ### Seasonal component -/

/-- With at least two periods of data the seasonal pattern is the first `size - period`
values of the data. -/
theorem calculateSeasonality_two_periods (data : List ℝ) (period : Int) (hp : 0 ≤ period)
    (h : period * 2 ≤ (data.length : Int)) :
    ∃ pattern, calculateSeasonality data period = some pattern ∧
      pattern.length = ((data.length : Int) - period).toNat ∧
      ∀ k, k < ((data.length : Int) - period).toNat → pattern[k]? = data[k]? := by
  obtain ⟨pattern, hpat⟩ := calculateSeasonality_eq_some data period hp
  refine ⟨pattern, hpat, ?_⟩
  unfold calculateSeasonality at hpat
  rw [if_neg (by omega)] at hpat
  exact forLoop_getElem? _ _ _ hpat

/-- The base level of the scenario B series. -/
theorem calculateBaseLevel_seriesB : calculateBaseLevel seriesB = 160 := by
  norm_num [calculateBaseLevel, seriesB]

/-- The trend of the scenario B series. -/
theorem calculateTrend_seriesB : calculateTrend seriesB = 10 := by
  norm_num [calculateTrend, seriesB, List.enum, List.enumFrom]

/-- The seasonal pattern of the scenario B series for period 7 is empty. -/
theorem calculateSeasonality_seriesB : calculateSeasonality seriesB 7 = some [] := by
  simp [calculateSeasonality, seriesB]

/-- C21, counterexample: for the ten-value training series 100, 110, ..., 190 (base level
160, trend 10) and period 7 the seasonal pattern is empty and the day-0 base is
170 = 160 + 10·1, not 160 + 10·1 + series[(10 + 0) mod 7] = 300. -/
theorem base_without_seasonal_component :
    calculateSeasonality seriesB 7 = some [] ∧
    predictPassengerFlowBase (calculateBaseLevel seriesB) (calculateTrend seriesB) []
      seriesB.length 7 0 = some 170 ∧
    seriesB[Int.toNat (((seriesB.length : Int) + 0) % 7)]? = some 130 ∧
    (170 : ℝ) ≠ calculateBaseLevel seriesB + calculateTrend seriesB * (0 + 1) + 130 := by
  rw [calculateBaseLevel_seriesB, calculateTrend_seriesB]
  refine ⟨calculateSeasonality_seriesB, ?_, ?_, ?_⟩
  · norm_num [predictPassengerFlowBase, seriesB]
  · simp [seriesB]
  · norm_num

/-- C21 (amended): for a period `p ≥ 1` the seasonal pattern is defined; when the training
series holds at least two periods (`2p ≤ sampleCount`) the pre-multiplier base at offset
`i` is `baseLevel + trend·(i+1) + series[(sampleCount + i) mod p]`, and when it holds
fewer (`sampleCount < 2p`) the base is `baseLevel + trend·(i+1)` with no seasonal
component. -/
theorem base_seasonal_component (timeSeries : List ℝ) (p : Int) (hp : 1 ≤ p)
    (baseLevel trend : ℝ) (i : Nat) :
    ∃ pattern, calculateSeasonality timeSeries p = some pattern ∧
      (p * 2 ≤ (timeSeries.length : Int) →
        ∃ v, timeSeries[Int.toNat (((timeSeries.length : Int) + (i : Int)) % p)]? = some v ∧
          predictPassengerFlowBase baseLevel trend pattern timeSeries.length p i
            = some (baseLevel + trend * ((i : ℝ) + 1) + v)) ∧
      ((timeSeries.length : Int) < p * 2 →
        predictPassengerFlowBase baseLevel trend pattern timeSeries.length p i
          = some (baseLevel + trend * ((i : ℝ) + 1))) := by
  have hp0 : (0 : Int) ≤ p := by omega
  have hne : p ≠ 0 := by omega
  have hmod : Int.tmod ((timeSeries.length : Int) + (i : Int)) p
      = ((timeSeries.length : Int) + (i : Int)) % p :=
    Int.tmod_eq_emod (by omega) hp0
  have hlo : 0 ≤ ((timeSeries.length : Int) + (i : Int)) % p := Int.emod_nonneg _ hne
  have hhi : ((timeSeries.length : Int) + (i : Int)) % p < p := Int.emod_lt_of_pos _ (by omega)
  by_cases h2 : p * 2 ≤ (timeSeries.length : Int)
  · obtain ⟨pattern, hpat, hlen, hget⟩ := calculateSeasonality_two_periods timeSeries p hp0 h2
    refine ⟨pattern, hpat, fun _ => ?_, fun h => absurd h (by omega)⟩
    have hidx : Int.toNat (((timeSeries.length : Int) + (i : Int)) % p)
        < ((timeSeries.length : Int) - p).toNat := by omega
    have hidx' : Int.toNat (((timeSeries.length : Int) + (i : Int)) % p) < timeSeries.length := by
      omega
    refine ⟨timeSeries[Int.toNat (((timeSeries.length : Int) + (i : Int)) % p)],
      List.getElem?_eq_getElem hidx', ?_⟩
    have hv := hget _ hidx
    rw [List.getElem?_eq_getElem hidx'] at hv
    unfold predictPassengerFlowBase
    rw [if_neg hne]
    simp only []
    rw [hmod, if_pos (by omega)]
    rw [List.getD_eq_getElem?_getD, hv]
    simp
  · obtain ⟨pattern, hpat⟩ := calculateSeasonality_eq_some timeSeries p hp0
    refine ⟨pattern, hpat, fun h => absurd h h2, fun _ => ?_⟩
    have hnil : pattern = [] := by
      unfold calculateSeasonality at hpat
      rw [if_pos (by omega)] at hpat
      exact (Option.some.inj hpat).symm
    subst hnil
    unfold predictPassengerFlowBase
    rw [if_neg hne]
    simp only []
    rw [hmod, if_neg (by simp; omega)]
    simp

/-- C21 (amended), witness: the ten-value series 100, ..., 190 with period 5 (two periods
of data) has the seasonal value `series[(10 + 0) mod 5] = 100` in its day-0 base, and with
period 7 none. -/
theorem base_seasonal_component_witness :
    (1 : Int) ≤ 5 ∧
    ∃ pattern, calculateSeasonality seriesB 5 = some pattern ∧
      ((5 : Int) * 2 ≤ (seriesB.length : Int) →
        ∃ v, seriesB[Int.toNat (((seriesB.length : Int) + ((0 : Nat) : Int)) % 5)]? = some v ∧
          predictPassengerFlowBase 160 10 pattern seriesB.length 5 0
            = some (160 + 10 * (((0 : Nat) : ℝ) + 1) + v)) ∧
      ((seriesB.length : Int) < 5 * 2 →
        predictPassengerFlowBase 160 10 pattern seriesB.length 5 0
          = some (160 + 10 * (((0 : Nat) : ℝ) + 1))) :=
  ⟨by decide, base_seasonal_component seriesB 5 (by decide) 160 10 0⟩

/-! ### Integer passenger count -/

/-- Truncation of a real number between two consecutive non-negative integers. -/
theorem truncToInt_eq_of_mem_Ico (x : ℝ) (k : Int) (hk : 0 ≤ k) (h1 : (k : ℝ) ≤ x)
    (h2 : x < (k : ℝ) + 1) : truncToInt x = k := by
  have hx : (0 : ℝ) ≤ x := le_trans (by exact_mod_cast hk) h1
  unfold truncToInt
  rw [if_pos hx]
  exact Int.floor_eq_iff.2 ⟨h1, h2⟩

/-- Rounding to the nearest integer moves a value by at most one half. -/
theorem roundHalfEven_abs_sub_le (x : ℝ) : |((roundHalfEven x : Int) : ℝ) - x| ≤ 1 / 2 := by
  have h0 := Int.fract_nonneg x
  have h1 := Int.fract_lt_one x
  have hx : x = (⌊x⌋ : ℝ) + Int.fract x := (Int.floor_add_fract x).symm
  unfold roundHalfEven
  rw [abs_le]
  split_ifs with ha hb hc
  · constructor <;> linarith
  · push_cast
    constructor <;> linarith
  · constructor <;> linarith
  · push_cast
    constructor <;> linarith

/-- A value strictly within one half of an integer rounds to that integer. -/
theorem roundHalfEven_eq (x : ℝ) (k : Int) (h1 : (k : ℝ) - 1 / 2 < x) (h2 : x < (k : ℝ) + 1 / 2) :
    roundHalfEven x = k := by
  have hf0 := Int.fract_nonneg x
  have hf1 := Int.fract_lt_one x
  have hx : x = (⌊x⌋ : ℝ) + Int.fract x := (Int.floor_add_fract x).symm
  have hfl : ⌊x⌋ = k ∨ ⌊x⌋ = k - 1 := by
    have ha : k - 1 ≤ ⌊x⌋ := by
      rw [Int.le_floor]
      push_cast
      linarith
    have hb : ⌊x⌋ < k + 1 := by
      rw [Int.floor_lt]
      push_cast
      linarith
    omega
  unfold roundHalfEven
  rcases hfl with h | h
  · have hfr : Int.fract x < 1 / 2 := by
      have : (⌊x⌋ : ℝ) = (k : ℝ) := by rw [h]
      linarith
    rw [if_pos hfr, h]
  · have hfr : 1 / 2 < Int.fract x := by
      have : (⌊x⌋ : ℝ) = (k : ℝ) - 1 := by rw [h]; push_cast; ring
      linarith
    rw [if_neg (not_lt.2 (le_of_lt hfr)), if_pos hfr, h]
    ring

/-- An integer rounds to itself. -/
theorem roundHalfEven_intCast (k : Int) : roundHalfEven (k : ℝ) = k :=
  roundHalfEven_eq _ k (by linarith) (by linarith)

/-- The binary exponent of a value between two consecutive powers of two. -/
theorem log_two_eq (x : ℝ) (e : Int) (hlo : (2 : ℝ) ^ e ≤ x) (hhi : x < (2 : ℝ) ^ (e + 1)) :
    Int.log 2 x = e := by
  have hpos : 0 < x := lt_of_lt_of_le (zpow_pos (by norm_num) e) hlo
  have h1 : e ≤ Int.log 2 x := by
    have := (Int.zpow_le_iff_le_log (b := 2) (by norm_num) hpos (x := e)).1
      (by exact_mod_cast hlo)
    exact this
  have h2 : Int.log 2 x < e + 1 := by
    have := (Int.lt_zpow_iff_log_lt (b := 2) (by norm_num) hpos (x := e + 1)).1
      (by exact_mod_cast hhi)
    exact this
  omega

/-- Evaluation of `roundToDouble`: a value with binary exponent `e` whose quotient by the unit
`2^(e-52)` is strictly within one half of the integer `k` rounds to `k * 2^(e-52)`. -/
theorem roundToDouble_eq (x : ℝ) (e k : Int) (hlo : (2 : ℝ) ^ e ≤ |x|)
    (hhi : |x| < (2 : ℝ) ^ (e + 1)) (h1 : (k : ℝ) - 1 / 2 < x / (2 : ℝ) ^ (e - 52))
    (h2 : x / (2 : ℝ) ^ (e - 52) < (k : ℝ) + 1 / 2) :
    roundToDouble x = (k : ℝ) * (2 : ℝ) ^ (e - 52) := by
  have hne : x ≠ 0 := by
    intro h
    rw [h, abs_zero] at hlo
    exact absurd hlo (not_le.2 (zpow_pos (by norm_num) e))
  unfold roundToDouble
  rw [if_neg hne, log_two_eq |x| e hlo hhi, roundHalfEven_eq _ k h1 h2]

/-- Rounding to `double` has relative error at most `2^-53`. -/
theorem roundToDouble_abs_sub_le (x : ℝ) : |roundToDouble x - x| ≤ |x| / 2 ^ 53 := by
  unfold roundToDouble
  by_cases hx : x = 0
  · rw [if_pos hx, hx]
    simp
  · rw [if_neg hx]
    have hpos : 0 < |x| := abs_pos.2 hx
    have hu : (0 : ℝ) < (2 : ℝ) ^ (Int.log 2 |x| - 52) := zpow_pos (by norm_num) _
    have hlog : (2 : ℝ) ^ (Int.log 2 |x|) ≤ |x| := by
      have := Int.zpow_log_le_self (b := 2) (by norm_num) hpos
      exact_mod_cast this
    have hsplit : (2 : ℝ) ^ (Int.log 2 |x|) = (2 : ℝ) ^ (Int.log 2 |x| - 52) * 2 ^ 52 := by
      rw [zpow_sub₀ (by norm_num : (2 : ℝ) ≠ 0)]
      have : (2 : ℝ) ^ (52 : Int) = 2 ^ 52 := by norm_cast
      rw [this]
      field_simp
    have hr := roundHalfEven_abs_sub_le (x / (2 : ℝ) ^ (Int.log 2 |x| - 52))
    have heq : ((roundHalfEven (x / (2 : ℝ) ^ (Int.log 2 |x| - 52)) : Int) : ℝ)
          * (2 : ℝ) ^ (Int.log 2 |x| - 52) - x
        = (((roundHalfEven (x / (2 : ℝ) ^ (Int.log 2 |x| - 52)) : Int) : ℝ)
          - x / (2 : ℝ) ^ (Int.log 2 |x| - 52)) * (2 : ℝ) ^ (Int.log 2 |x| - 52) := by
      field_simp
    rw [heq, abs_mul, abs_of_pos hu, le_div_iff₀ (by positivity)]
    have h3 : |((roundHalfEven (x / (2 : ℝ) ^ (Int.log 2 |x| - 52)) : Int) : ℝ)
          - x / (2 : ℝ) ^ (Int.log 2 |x| - 52)| * (2 : ℝ) ^ (Int.log 2 |x| - 52)
        ≤ 1 / 2 * (2 : ℝ) ^ (Int.log 2 |x| - 52) :=
      mul_le_mul_of_nonneg_right hr (le_of_lt hu)
    rw [hsplit] at hlog
    nlinarith

/-- Evaluation of `roundToDouble` at a positive value. -/
theorem roundToDouble_eq_of_pos (x : ℝ) (e k : Int) (hlo : (2 : ℝ) ^ e ≤ x)
    (hhi : x < (2 : ℝ) ^ (e + 1)) (h1 : (k : ℝ) - 1 / 2 < x / (2 : ℝ) ^ (e - 52))
    (h2 : x / (2 : ℝ) ^ (e - 52) < (k : ℝ) + 1 / 2) :
    roundToDouble x = (k : ℝ) * (2 : ℝ) ^ (e - 52) := by
  have hpos : 0 < x := lt_of_lt_of_le (zpow_pos (by norm_num) e) hlo
  exact roundToDouble_eq x e k (by rw [abs_of_pos hpos]; exact hlo)
    (by rw [abs_of_pos hpos]; exact hhi) h1 h2

/-- Zero is a `double`. -/
theorem roundToDouble_zero : roundToDouble 0 = 0 := by
  unfold roundToDouble
  rw [if_pos rfl]

/-- One is a `double`. -/
theorem roundToDouble_one : roundToDouble 1 = 1 := by
  rw [roundToDouble_eq_of_pos 1 0 4503599627370496 (by norm_num) (by norm_num) (by norm_num)
    (by norm_num)]
  norm_num

/-- The `double` literal `1.1`. -/
theorem roundToDouble_1_1 : roundToDouble 1.1 = 4953959590107546 / 2 ^ 52 := by
  rw [roundToDouble_eq_of_pos 1.1 0 4953959590107546 (by norm_num) (by norm_num) (by norm_num)
    (by norm_num)]
  norm_num

/-- The `double` literal `0.02`. -/
theorem roundToDouble_0_02 : roundToDouble 0.02 = 5764607523034235 / 2 ^ 58 := by
  rw [roundToDouble_eq_of_pos 0.02 (-6) 5764607523034235 (by norm_num) (by norm_num) (by norm_num)
    (by norm_num)]
  norm_num

/-- The random factor for the draw 10 is exactly 1: `0.9 + 10 / 100.0` in `double`
arithmetic. -/
theorem randomFactor_draw_ten :
    roundToDouble (roundToDouble 0.9 + roundToDouble (((10 : Nat) : ℝ) / 100)) = 1 := by
  have h9 : roundToDouble 0.9 = 8106479329266893 / 2 ^ 53 := by
    rw [roundToDouble_eq_of_pos 0.9 (-1) 8106479329266893 (by norm_num) (by norm_num) (by norm_num)
      (by norm_num)]
    norm_num
  have h1 : roundToDouble (((10 : Nat) : ℝ) / 100) = 7205759403792794 / 2 ^ 56 := by
    rw [roundToDouble_eq_of_pos (((10 : Nat) : ℝ) / 100) (-4) 7205759403792794 (by norm_num)
      (by norm_num) (by norm_num) (by norm_num)]
    norm_num
  rw [h9, h1]
  rw [roundToDouble_eq_of_pos _ 0 4503599627370496 (by norm_num) (by norm_num) (by norm_num)
    (by norm_num)]
  norm_num


/-- The rounded product for the base 170 on a weekday with jitter draw 10 at offset 0:
`170 * 1.1` in `double` arithmetic is `187.00000000000002...`, truncated to 187. -/
theorem adjustedPrediction_weekday_example :
    adjustedPrediction 170 5 10 0 = 6579477580611585 / 2 ^ 45 ∧
    truncToInt (adjustedPrediction 170 5 10 0) = 187 := by
  have hweekly : roundToDouble (170 * (4953959590107546 / 2 ^ 52))
      = 6579477580611585 / 2 ^ 45 := by
    rw [roundToDouble_eq_of_pos _ 7 6579477580611585 (by norm_num) (by norm_num)
      (by norm_num) (by norm_num)]
    norm_num
  have hjittered : roundToDouble (6579477580611585 / 2 ^ 45 * 1)
      = 6579477580611585 / 2 ^ 45 := by
    rw [roundToDouble_eq_of_pos _ 7 6579477580611585 (by norm_num) (by norm_num)
      (by norm_num) (by norm_num)]
    norm_num
  have hstep : roundToDouble (((0 : Nat) : ℝ) * (5764607523034235 / 2 ^ 58)) = 0 := by
    rw [Nat.cast_zero, zero_mul, roundToDouble_zero]
  have hgrowth : roundToDouble (1 + 0) = 1 := by
    rw [add_zero, roundToDouble_one]
  have hd : adjustedPrediction 170 5 10 0 = 6579477580611585 / 2 ^ 45 := by
    unfold adjustedPrediction
    simp only []
    rw [if_neg (by decide), roundToDouble_1_1, hweekly, randomFactor_draw_ten, hjittered,
      roundToDouble_0_02, hstep, hgrowth, hjittered]
  refine ⟨hd, ?_⟩
  rw [hd]
  exact truncToInt_eq_of_mem_Ico _ 187 (by decide) (by norm_num) (by norm_num)

/-- Rounding to `double` adds one factor `1 + 2^-53` to a relative error bound. -/
theorem roundToDouble_close (n : Nat) (a b : ℝ)
    (h : |a - b| ≤ ((1 + 1 / 2 ^ 53 : ℝ) ^ n - 1) * |b|) :
    |roundToDouble a - b| ≤ ((1 + 1 / 2 ^ 53 : ℝ) ^ (n + 1) - 1) * |b| := by
  have hr := roundToDouble_abs_sub_le a
  have hA : (1 : ℝ) ≤ (1 + 1 / 2 ^ 53 : ℝ) ^ n := one_le_pow₀ (by norm_num)
  have hb := abs_nonneg b
  have ha : |a| ≤ |b| + |a - b| := by
    have := abs_add (a - b) b
    rw [sub_add_cancel] at this
    linarith
  have htri : |roundToDouble a - b| ≤ |roundToDouble a - a| + |a - b| := by
    have := abs_add (roundToDouble a - a) (a - b)
    rw [sub_add_sub_cancel] at this
    exact this
  have hr' : |roundToDouble a - a| ≤ (|b| + |a - b|) * (1 / 2 ^ 53) := by
    calc |roundToDouble a - a| ≤ |a| / 2 ^ 53 := hr
      _ = |a| * (1 / 2 ^ 53) := by ring
      _ ≤ (|b| + |a - b|) * (1 / 2 ^ 53) := mul_le_mul_of_nonneg_right ha (by positivity)
  rw [pow_succ]
  nlinarith

/-- The relative error bounds of two factors multiply. -/
theorem mul_close (m n : Nat) (a a0 b b0 : ℝ)
    (ha : |a - a0| ≤ ((1 + 1 / 2 ^ 53 : ℝ) ^ m - 1) * |a0|)
    (hb : |b - b0| ≤ ((1 + 1 / 2 ^ 53 : ℝ) ^ n - 1) * |b0|) :
    |a * b - a0 * b0| ≤ ((1 + 1 / 2 ^ 53 : ℝ) ^ (m + n) - 1) * |a0 * b0| := by
  have hA : (1 : ℝ) ≤ (1 + 1 / 2 ^ 53 : ℝ) ^ m := one_le_pow₀ (by norm_num)
  have hB : (1 : ℝ) ≤ (1 + 1 / 2 ^ 53 : ℝ) ^ n := one_le_pow₀ (by norm_num)
  have h1 : a * b - a0 * b0 = (a - a0) * (b - b0) + (a - a0) * b0 + a0 * (b - b0) := by ring
  have h2 : |a * b - a0 * b0| ≤ |a - a0| * |b - b0| + |a - a0| * |b0| + |a0| * |b - b0| := by
    rw [h1]
    calc |(a - a0) * (b - b0) + (a - a0) * b0 + a0 * (b - b0)|
        ≤ |(a - a0) * (b - b0) + (a - a0) * b0| + |a0 * (b - b0)| := abs_add _ _
      _ ≤ |(a - a0) * (b - b0)| + |(a - a0) * b0| + |a0 * (b - b0)| := by
          linarith [abs_add ((a - a0) * (b - b0)) ((a - a0) * b0)]
      _ = |a - a0| * |b - b0| + |a - a0| * |b0| + |a0| * |b - b0| := by
          rw [abs_mul, abs_mul, abs_mul]
  have h3 : |a - a0| * |b - b0| ≤
      (((1 + 1 / 2 ^ 53 : ℝ) ^ m - 1) * |a0|) * (((1 + 1 / 2 ^ 53 : ℝ) ^ n - 1) * |b0|) :=
    mul_le_mul ha hb (abs_nonneg _) (mul_nonneg (by linarith) (abs_nonneg _))
  have h4 : |a - a0| * |b0| ≤ (((1 + 1 / 2 ^ 53 : ℝ) ^ m - 1) * |a0|) * |b0| :=
    mul_le_mul_of_nonneg_right ha (abs_nonneg _)
  have h5 : |a0| * |b - b0| ≤ |a0| * (((1 + 1 / 2 ^ 53 : ℝ) ^ n - 1) * |b0|) :=
    mul_le_mul_of_nonneg_left hb (abs_nonneg _)
  rw [abs_mul, pow_add]
  nlinarith

/-- The sum of two non-negative values keeps a common relative error bound. -/
theorem add_close (n : Nat) (a a0 b b0 : ℝ) (ha0 : 0 ≤ a0) (hb0 : 0 ≤ b0)
    (ha : |a - a0| ≤ ((1 + 1 / 2 ^ 53 : ℝ) ^ n - 1) * |a0|)
    (hb : |b - b0| ≤ ((1 + 1 / 2 ^ 53 : ℝ) ^ n - 1) * |b0|) :
    |a + b - (a0 + b0)| ≤ ((1 + 1 / 2 ^ 53 : ℝ) ^ n - 1) * |a0 + b0| := by
  have h1 : a + b - (a0 + b0) = (a - a0) + (b - b0) := by ring
  rw [h1, abs_of_nonneg (add_nonneg ha0 hb0)]
  rw [abs_of_nonneg ha0] at ha
  rw [abs_of_nonneg hb0] at hb
  have := abs_add (a - a0) (b - b0)
  linarith

/-- A relative error bound may be weakened. -/
theorem close_mono (m n : Nat) (hmn : m ≤ n) (a b : ℝ)
    (h : |a - b| ≤ ((1 + 1 / 2 ^ 53 : ℝ) ^ m - 1) * |b|) :
    |a - b| ≤ ((1 + 1 / 2 ^ 53 : ℝ) ^ n - 1) * |b| := by
  have hpow : (1 + 1 / 2 ^ 53 : ℝ) ^ m ≤ (1 + 1 / 2 ^ 53 : ℝ) ^ n :=
    pow_le_pow_right₀ (by norm_num) hmn
  have := mul_le_mul_of_nonneg_right (sub_le_sub_right hpow 1) (abs_nonneg b)
  linarith

/-- An exact value has relative error 0. -/
theorem close_refl (a : ℝ) : |a - a| ≤ ((1 + 1 / 2 ^ 53 : ℝ) ^ 0 - 1) * |a| := by
  simp

/-- The rounded product chain of the forecast loop is within the relative error
`(1 + 2^-53)^9 - 1`, which is less than `2^-49`, of the exact product. -/
theorem adjustedPrediction_close (base : ℝ) (dayOfWeek : Int) (draw i : Nat) :
    |adjustedPrediction base dayOfWeek draw i - exactAdjustedPrediction base dayOfWeek draw i|
      ≤ |exactAdjustedPrediction base dayOfWeek draw i| / 2 ^ 49 := by
  have hc : ∀ c : ℝ, |roundToDouble c - c| ≤ ((1 + 1 / 2 ^ 53 : ℝ) ^ 1 - 1) * |c| :=
    fun c => roundToDouble_close 0 c c (close_refl c)
  have hweekly : ∀ c : ℝ, |roundToDouble (base * roundToDouble c) - base * c|
      ≤ ((1 + 1 / 2 ^ 53 : ℝ) ^ 2 - 1) * |base * c| :=
    fun c => roundToDouble_close 1 _ _ (mul_close 0 1 _ _ _ _ (close_refl base) (hc c))
  have hrandom : |roundToDouble (roundToDouble 0.9 + roundToDouble ((draw : ℝ) / 100))
      - (0.9 + (draw : ℝ) / 100)| ≤ ((1 + 1 / 2 ^ 53 : ℝ) ^ 2 - 1) * |0.9 + (draw : ℝ) / 100| :=
    roundToDouble_close 1 _ _ (add_close 1 _ _ _ _ (by norm_num) (by positivity)
      (hc 0.9) (hc _))
  have hgrowth : |roundToDouble (1 + roundToDouble ((i : ℝ) * roundToDouble 0.02))
      - (1 + (i : ℝ) * 0.02)| ≤ ((1 + 1 / 2 ^ 53 : ℝ) ^ 3 - 1) * |1 + (i : ℝ) * 0.02| :=
    roundToDouble_close 2 _ _ (add_close 2 _ _ _ _ (by norm_num) (by positivity)
      (close_mono 0 2 (by norm_num) _ _ (close_refl 1))
      (roundToDouble_close 1 _ _ (mul_close 0 1 _ _ _ _ (close_refl (i : ℝ)) (hc 0.02))))
  have hchain : ∀ w w0 : ℝ, |w - w0| ≤ ((1 + 1 / 2 ^ 53 : ℝ) ^ 2 - 1) * |w0| →
      |roundToDouble (roundToDouble (w * roundToDouble
        (roundToDouble 0.9 + roundToDouble ((draw : ℝ) / 100))) * roundToDouble
        (1 + roundToDouble ((i : ℝ) * roundToDouble 0.02)))
        - w0 * (0.9 + (draw : ℝ) / 100) * (1 + (i : ℝ) * 0.02)|
      ≤ |w0 * (0.9 + (draw : ℝ) / 100) * (1 + (i : ℝ) * 0.02)| / 2 ^ 49 := by
    intro w w0 hw
    have h9 := roundToDouble_close 8 _ _
      (mul_close 5 3 _ _ _ _ (roundToDouble_close 4 _ _ (mul_close 2 2 _ _ _ _ hw hrandom))
        hgrowth)
    have hnum : ((1 + 1 / 2 ^ 53 : ℝ) ^ (8 + 1) - 1) ≤ 1 / 2 ^ 49 := by norm_num
    calc _ ≤ ((1 + 1 / 2 ^ 53 : ℝ) ^ (8 + 1) - 1)
          * |w0 * (0.9 + (draw : ℝ) / 100) * (1 + (i : ℝ) * 0.02)| := h9
      _ ≤ 1 / 2 ^ 49 * |w0 * (0.9 + (draw : ℝ) / 100) * (1 + (i : ℝ) * 0.02)| :=
          mul_le_mul_of_nonneg_right hnum (abs_nonneg _)
      _ = _ := by ring
  unfold adjustedPrediction exactAdjustedPrediction
  simp only []
  by_cases hd : dayOfWeek = 6 ∨ dayOfWeek = 7
  · rw [if_pos hd, if_pos hd]
    exact hchain _ _ (hweekly 0.8)
  · rw [if_neg hd, if_neg hd]
    exact hchain _ _ (hweekly 1.1)

/-! ### Truncated forecast value -/

/-- The passenger count of a forecast point of `predictPassengerFlow`: the rounded product
chain, truncated and clamped at 0. -/
theorem predictPassengerFlowPoint_predicted (timeSeries : List ℝ)
    (modelParams : ModelParameters) (trend : ℝ) (seasonalPattern : List ℝ) (baseLevel : ℝ)
    (startDate : QDate) (jitter : Nat → Fin 20) (i : Nat) (base : ℝ)
    (hbase : predictPassengerFlowBase baseLevel trend seasonalPattern timeSeries.length
      modelParams.seasonality i = some base) :
    ∃ r, predictPassengerFlowPoint timeSeries modelParams trend seasonalPattern baseLevel
        startDate jitter i = some r ∧
      r.predictedPassengers = max 0 (truncToInt (adjustedPrediction base
        (QDate.dayOfWeek (QDate.addDays startDate (i : Int))) (jitter i) i)) := by
  unfold predictPassengerFlowPoint
  simp only [hbase]
  exact ⟨_, rfl, rfl⟩

/-- The truncation of a rounded product whose exact value lies strictly inside the interval
between two consecutive non-negative integers, at a relative distance of more than `2^-49`
from both ends. -/
theorem truncToInt_adjustedPrediction (base : ℝ) (dayOfWeek : Int) (draw i : Nat) (k : Int)
    (hk : 0 ≤ k)
    (h0 : 0 ≤ exactAdjustedPrediction base dayOfWeek draw i)
    (h1 : (k : ℝ) ≤ exactAdjustedPrediction base dayOfWeek draw i
      - exactAdjustedPrediction base dayOfWeek draw i / 2 ^ 49)
    (h2 : exactAdjustedPrediction base dayOfWeek draw i
      + exactAdjustedPrediction base dayOfWeek draw i / 2 ^ 49 < (k : ℝ) + 1) :
    truncToInt (adjustedPrediction base dayOfWeek draw i) = k := by
  have hc := adjustedPrediction_close base dayOfWeek draw i
  rw [abs_of_nonneg h0] at hc
  have hc' := abs_le.1 hc
  exact truncToInt_eq_of_mem_Ico _ k hk (by linarith [hc'.1]) (by linarith [hc'.2])

/-- The extracted series has one value per point. -/
theorem extractTimeSeries_length (data : List TimeSeriesData) :
    (extractTimeSeries data).length = data.length := by
  unfold extractTimeSeries
  exact List.length_map _ _

/-- The loop body of `predictStationFlow` is the loop body of `predictPassengerFlow`. -/
theorem predictStationFlowPoint_eq (timeSeries : List ℝ) (modelParams : ModelParameters)
    (trend : ℝ) (seasonalPattern : List ℝ) (baseLevel : ℝ) (startDate : QDate)
    (jitter : Nat → Fin 20) (i : Nat) :
    predictStationFlowPoint timeSeries modelParams trend seasonalPattern baseLevel startDate
      jitter i =
    predictPassengerFlowPoint timeSeries modelParams trend seasonalPattern baseLevel startDate
      jitter i := by
  unfold predictStationFlowPoint predictPassengerFlowPoint predictPassengerFlowBase
    adjustedPrediction
  by_cases h : modelParams.seasonality = 0
  · simp only [if_pos h]
  · simp only [if_neg h]
    split_ifs <;> rfl

/-- The loop body of `predictTrainFlow` is the loop body of `predictPassengerFlow`. -/
theorem predictTrainFlowPoint_eq (timeSeries : List ℝ) (modelParams : ModelParameters)
    (trend : ℝ) (seasonalPattern : List ℝ) (baseLevel : ℝ) (startDate : QDate)
    (jitter : Nat → Fin 20) (i : Nat) :
    predictTrainFlowPoint timeSeries modelParams trend seasonalPattern baseLevel startDate
      jitter i =
    predictPassengerFlowPoint timeSeries modelParams trend seasonalPattern baseLevel startDate
      jitter i := by
  unfold predictTrainFlowPoint predictPassengerFlowPoint predictPassengerFlowBase
    adjustedPrediction
  by_cases h : modelParams.seasonality = 0
  · simp only [if_pos h]
  · simp only [if_neg h]
    split_ifs <;> rfl

/-- The forecast of `predictPassengerFlow` as a function of the extracted training
series. -/
theorem predictPassengerFlow_of_series (S : StdSort) (rnd : Nat → Nat) (jitter : Nat → Fin 20)
    (dm : DataManager) (startDate : QDate) (days : Int) (params : ModelParameters) :
    predictPassengerFlow S rnd jitter dm startDate days params =
      if (extractTimeSeries (getTimeSeriesData S rnd dm (QDate.addDays startDate (-30))
          (QDate.addDays startDate (-1)))).length < 10 then some []
      else
        match calculateSeasonality (extractTimeSeries (getTimeSeriesData S rnd dm
            (QDate.addDays startDate (-30)) (QDate.addDays startDate (-1))))
            (if params.windowSize > 0 then params else currentParams).seasonality with
        | none => none
        | some seasonalPattern =>
          forLoop (predictPassengerFlowPoint (extractTimeSeries (getTimeSeriesData S rnd dm
              (QDate.addDays startDate (-30)) (QDate.addDays startDate (-1))))
            (if params.windowSize > 0 then params else currentParams)
            (calculateTrend (extractTimeSeries (getTimeSeriesData S rnd dm
              (QDate.addDays startDate (-30)) (QDate.addDays startDate (-1)))))
            seasonalPattern
            (calculateBaseLevel (extractTimeSeries (getTimeSeriesData S rnd dm
              (QDate.addDays startDate (-30)) (QDate.addDays startDate (-1)))))
            startDate jitter) days.toNat := by
  rw [extractTimeSeries_length]
  rfl

/-- The forecast of `predictStationFlow` as a function of the extracted training
series. -/
theorem predictStationFlow_of_series (S : StdSort) (rnd : Nat → Nat) (jitter : Nat → Fin 20)
    (dm : DataManager) (stationName : String) (startDate : QDate) (days : Int)
    (params : ModelParameters) :
    predictStationFlow S rnd jitter dm stationName startDate days params =
      if (extractTimeSeries (getPassengerFlowTimeSeriesByStation S rnd dm stationName
          (QDate.addDays startDate (-30)) (QDate.addDays startDate (-1)))).length < 10
      then some []
      else
        match calculateSeasonality (extractTimeSeries (getPassengerFlowTimeSeriesByStation S
            rnd dm stationName (QDate.addDays startDate (-30)) (QDate.addDays startDate (-1))))
            (if params.windowSize > 0 then params else currentParams).seasonality with
        | none => none
        | some seasonalPattern =>
          forLoop (predictPassengerFlowPoint (extractTimeSeries
              (getPassengerFlowTimeSeriesByStation S rnd dm stationName
                (QDate.addDays startDate (-30)) (QDate.addDays startDate (-1))))
            (if params.windowSize > 0 then params else currentParams)
            (calculateTrend (extractTimeSeries (getPassengerFlowTimeSeriesByStation S rnd dm
              stationName (QDate.addDays startDate (-30)) (QDate.addDays startDate (-1)))))
            seasonalPattern
            (calculateBaseLevel (extractTimeSeries (getPassengerFlowTimeSeriesByStation S rnd
              dm stationName (QDate.addDays startDate (-30)) (QDate.addDays startDate (-1)))))
            startDate jitter) days.toNat := by
  rw [extractTimeSeries_length]
  have hpt : ∀ ts mp tr sp bl, predictPassengerFlowPoint ts mp tr sp bl startDate jitter
      = predictStationFlowPoint ts mp tr sp bl startDate jitter :=
    fun ts mp tr sp bl => funext (fun i =>
      (predictStationFlowPoint_eq ts mp tr sp bl startDate jitter i).symm)
  simp only [hpt]
  rfl

/-- The forecast of `predictTrainFlow` as a function of the extracted training series. -/
theorem predictTrainFlow_of_series (S : StdSort) (rnd : Nat → Nat) (jitter : Nat → Fin 20)
    (dm : DataManager) (trainNumber : String) (startDate : QDate) (days : Int)
    (params : ModelParameters) :
    predictTrainFlow S rnd jitter dm trainNumber startDate days params =
      if (extractTimeSeries (getPassengerFlowTimeSeriesByTrain S rnd dm trainNumber
          (QDate.addDays startDate (-30)) (QDate.addDays startDate (-1)))).length < 10
      then some []
      else
        match calculateSeasonality (extractTimeSeries (getPassengerFlowTimeSeriesByTrain S
            rnd dm trainNumber (QDate.addDays startDate (-30)) (QDate.addDays startDate (-1))))
            (if params.windowSize > 0 then params else currentParams).seasonality with
        | none => none
        | some seasonalPattern =>
          forLoop (predictPassengerFlowPoint (extractTimeSeries
              (getPassengerFlowTimeSeriesByTrain S rnd dm trainNumber
                (QDate.addDays startDate (-30)) (QDate.addDays startDate (-1))))
            (if params.windowSize > 0 then params else currentParams)
            (calculateTrend (extractTimeSeries (getPassengerFlowTimeSeriesByTrain S rnd dm
              trainNumber (QDate.addDays startDate (-30)) (QDate.addDays startDate (-1)))))
            seasonalPattern
            (calculateBaseLevel (extractTimeSeries (getPassengerFlowTimeSeriesByTrain S rnd
              dm trainNumber (QDate.addDays startDate (-30)) (QDate.addDays startDate (-1)))))
            startDate jitter) days.toNat := by
  rw [extractTimeSeries_length]
  have hpt : ∀ ts mp tr sp bl, predictPassengerFlowPoint ts mp tr sp bl startDate jitter
      = predictTrainFlowPoint ts mp tr sp bl startDate jitter :=
    fun ts mp tr sp bl => funext (fun i =>
      (predictTrainFlowPoint_eq ts mp tr sp bl startDate jitter i).symm)
  simp only [hpt]
  rfl

/-- The station-scoped training series of the scenario B store. -/
theorem storeB_station_training_series :
    extractTimeSeries (getPassengerFlowTimeSeriesByStation insertionStdSort (fun _ => 0) storeB
      "成都东站" (QDate.addDays 2457034 (-30)) (QDate.addDays 2457034 (-1))) = seriesB := by
  have h : (getPassengerFlowTimeSeriesByStation insertionStdSort (fun _ => 0) storeB "成都东站"
      (QDate.addDays 2457034 (-30)) (QDate.addDays 2457034 (-1))).map (fun p => p.passengers)
      = [100, 110, 120, 130, 140, 150, 160, 170, 180, 190] := by decide
  have h2 : extractTimeSeries (getPassengerFlowTimeSeriesByStation insertionStdSort
      (fun _ => 0) storeB "成都东站" (QDate.addDays 2457034 (-30))
      (QDate.addDays 2457034 (-1))) =
      ((getPassengerFlowTimeSeriesByStation insertionStdSort (fun _ => 0) storeB "成都东站"
        (QDate.addDays 2457034 (-30)) (QDate.addDays 2457034 (-1))).map
          (fun p => p.passengers)).map (fun (v : Int) => (v : ℝ)) := by
    unfold extractTimeSeries
    rw [List.map_map]
    rfl
  rw [h2, h]
  norm_num [seriesB]

/-- The train-scoped training series of the scenario B store. -/
theorem storeB_train_training_series :
    extractTimeSeries (getPassengerFlowTimeSeriesByTrain insertionStdSort (fun _ => 0) storeB
      "G8501" (QDate.addDays 2457034 (-30)) (QDate.addDays 2457034 (-1))) = seriesB := by
  have h : (getPassengerFlowTimeSeriesByTrain insertionStdSort (fun _ => 0) storeB "G8501"
      (QDate.addDays 2457034 (-30)) (QDate.addDays 2457034 (-1))).map (fun p => p.passengers)
      = [100, 110, 120, 130, 140, 150, 160, 170, 180, 190] := by decide
  have h2 : extractTimeSeries (getPassengerFlowTimeSeriesByTrain insertionStdSort
      (fun _ => 0) storeB "G8501" (QDate.addDays 2457034 (-30))
      (QDate.addDays 2457034 (-1))) =
      ((getPassengerFlowTimeSeriesByTrain insertionStdSort (fun _ => 0) storeB "G8501"
        (QDate.addDays 2457034 (-30)) (QDate.addDays 2457034 (-1))).map
          (fun p => p.passengers)).map (fun (v : Int) => (v : ℝ)) := by
    unfold extractTimeSeries
    rw [List.map_map]
    rfl
  rw [h2, h]
  norm_num [seriesB]

/-- C23: when the station accessor and the train accessor supply the same training series
as the aggregate accessor (possibly from other stores), then for the same start date, days
count, model parameters and jitter draws `predictStationFlow` and `predictTrainFlow`
return the same list of forecast points as `predictPassengerFlow`. -/
theorem predict_functions_agree (S S1 S2 : StdSort) (rnd rnd1 rnd2 : Nat → Nat)
    (jitter : Nat → Fin 20) (dm dm1 dm2 : DataManager) (stationName trainNumber : String)
    (startDate : QDate) (days : Int) (params : ModelParameters)
    (hstation : extractTimeSeries (getPassengerFlowTimeSeriesByStation S1 rnd1 dm1 stationName
        (QDate.addDays startDate (-30)) (QDate.addDays startDate (-1))) =
      extractTimeSeries (getTimeSeriesData S rnd dm (QDate.addDays startDate (-30))
        (QDate.addDays startDate (-1))))
    (htrain : extractTimeSeries (getPassengerFlowTimeSeriesByTrain S2 rnd2 dm2 trainNumber
        (QDate.addDays startDate (-30)) (QDate.addDays startDate (-1))) =
      extractTimeSeries (getTimeSeriesData S rnd dm (QDate.addDays startDate (-30))
        (QDate.addDays startDate (-1)))) :
    predictStationFlow S1 rnd1 jitter dm1 stationName startDate days params =
      predictPassengerFlow S rnd jitter dm startDate days params ∧
    predictTrainFlow S2 rnd2 jitter dm2 trainNumber startDate days params =
      predictPassengerFlow S rnd jitter dm startDate days params := by
  rw [predictStationFlow_of_series, predictTrainFlow_of_series, predictPassengerFlow_of_series,
    hstation, htrain]
  exact ⟨rfl, rfl⟩

/-- C23, witness: on the scenario B store the aggregate series, the series of 成都东站 and
the series of train G8501 coincide, and so do the three three-day forecasts from
2015-01-11. -/
theorem predict_functions_agree_witness :
    predictStationFlow insertionStdSort (fun _ => 0) (fun _ => 10) storeB "成都东站" 2457034 3
        ⟨0, 0, 0, 0, 0⟩ =
      predictPassengerFlow insertionStdSort (fun _ => 0) (fun _ => 10) storeB 2457034 3
        ⟨0, 0, 0, 0, 0⟩ ∧
    predictTrainFlow insertionStdSort (fun _ => 0) (fun _ => 10) storeB "G8501" 2457034 3
        ⟨0, 0, 0, 0, 0⟩ =
      predictPassengerFlow insertionStdSort (fun _ => 0) (fun _ => 10) storeB 2457034 3
        ⟨0, 0, 0, 0, 0⟩ :=
  predict_functions_agree insertionStdSort insertionStdSort insertionStdSort (fun _ => 0)
    (fun _ => 0) (fun _ => 0) (fun _ => 10) storeB storeB storeB "成都东站" "G8501" 2457034 3
    ⟨0, 0, 0, 0, 0⟩ (storeB_station_training_series.trans storeB_training_series.symm)
    (storeB_train_training_series.trans storeB_training_series.symm)

/-! ### Correlation range -/

/-- Expansion of the sum of squared deviations of real values from an arbitrary centre. -/
theorem real_sum_sq_dev (w : List ℝ) (c : ℝ) :
    (w.map (fun v => (v - c) * (v - c))).sum =
      (w.map (fun v => v * v)).sum - 2 * c * w.sum + (w.length : ℝ) * (c * c) := by
  induction w with
  | nil => simp
  | cons a w ih =>
    simp only [List.map_cons, List.sum_cons, ih, List.length_cons, Nat.cast_add, Nat.cast_one]
    ring

/-- For real values, `n` times the sum of the squares is at least the square of the
sum. -/
theorem real_factor_nonneg (w : List ℝ) :
    0 ≤ (w.length : ℝ) * (w.map (fun v => v * v)).sum - w.sum * w.sum := by
  by_cases hw : w = []
  · subst hw; simp
  · have hn : (w.length : ℝ) ≠ 0 := by
      have : w.length ≠ 0 := fun h => hw (List.length_eq_zero.1 h)
      exact_mod_cast this
    have heq : (w.length : ℝ) * (w.map (fun v => v * v)).sum - w.sum * w.sum =
        (w.length : ℝ) * (w.map (fun v => (v - w.sum / (w.length : ℝ)) *
          (v - w.sum / (w.length : ℝ)))).sum := by
      rw [real_sum_sq_dev]
      field_simp
      ring
    rw [heq]
    apply mul_nonneg (Nat.cast_nonneg _)
    apply List.sum_nonneg
    intro a ha
    obtain ⟨v, -, rfl⟩ := List.mem_map.1 ha
    exact mul_self_nonneg _

/-- Length, sum and sum of squares of the combined series `x + t·y`. -/
theorem combined_series (t : ℝ) (x y : List Int) (h : x.length = y.length) :
    (List.zipWith (fun (a b : Int) => (a : ℝ) + t * (b : ℝ)) x y).length = x.length ∧
    (List.zipWith (fun (a b : Int) => (a : ℝ) + t * (b : ℝ)) x y).sum =
      sumAsReal x + t * sumAsReal y ∧
    ((List.zipWith (fun (a b : Int) => (a : ℝ) + t * (b : ℝ)) x y).map (fun v => v * v)).sum =
      sumAsReal (List.zipWith (fun (a b : Int) => a * b) x x)
        + 2 * t * sumAsReal (List.zipWith (fun (a b : Int) => a * b) x y)
        + t * t * sumAsReal (List.zipWith (fun (a b : Int) => a * b) y y) := by
  simp only [sumAsReal_eq]
  induction x generalizing y with
  | nil =>
    cases y with
    | nil => simp
    | cons b y => simp at h
  | cons a x ih =>
    cases y with
    | nil => simp at h
    | cons b y =>
      have h' : x.length = y.length := by simpa using h
      obtain ⟨h1, h2, h3⟩ := ih y h'
      refine ⟨by simp [h1], ?_, ?_⟩
      · simp only [List.zipWith_cons_cons, List.sum_cons, List.map_cons, h2]
        ring
      · simp only [List.zipWith_cons_cons, List.sum_cons, List.map_cons, h3]
        push_cast
        ring

/-- Cauchy–Schwarz for the Pearson sums of series whose values are at most 46340 in
absolute value: the squared numerator is at most the radicand of the denominator, which
is not negative. -/
theorem pearson_cauchy_schwarz (x y : List Int) (h : x.length = y.length)
    (hx : ∀ v ∈ x, |v| ≤ 46340) (hy : ∀ v ∈ y, |v| ≤ 46340) :
    pearsonNumerator x y * pearsonNumerator x y ≤ pearsonRadicand x y ∧
    0 ≤ pearsonRadicand x y := by
  have hnum : pearsonNumerator x y =
      (x.length : ℝ) * sumAsReal (List.zipWith (fun (a b : Int) => a * b) x y)
        - sumAsReal x * sumAsReal y := by
    unfold pearsonNumerator
    rw [zipWith_intMul_of_bounded x y hx hy]
  have hrad : pearsonRadicand x y =
      ((x.length : ℝ) * sumAsReal (List.zipWith (fun (a b : Int) => a * b) x x)
          - sumAsReal x * sumAsReal x) *
        ((x.length : ℝ) * sumAsReal (List.zipWith (fun (a b : Int) => a * b) y y)
          - sumAsReal y * sumAsReal y) := by
    unfold pearsonRadicand
    rw [zipWith_intMul_of_bounded x x hx hx, zipWith_intMul_of_bounded y y hy hy]
  have hq : ∀ t : ℝ, 0 ≤
      ((x.length : ℝ) * sumAsReal (List.zipWith (fun (a b : Int) => a * b) y y)
          - sumAsReal y * sumAsReal y) * (t * t)
        + (2 * pearsonNumerator x y) * t
        + ((x.length : ℝ) * sumAsReal (List.zipWith (fun (a b : Int) => a * b) x x)
          - sumAsReal x * sumAsReal x) := by
    intro t
    obtain ⟨h1, h2, h3⟩ := combined_series t x y h
    have hw := real_factor_nonneg (List.zipWith (fun (a b : Int) => (a : ℝ) + t * (b : ℝ)) x y)
    rw [h1, h2, h3] at hw
    rw [hnum]
    linarith
  have hd := @discrim_le_zero ℝ _ _ _ _ hq
  unfold discrim at hd
  have hfx : 0 ≤ (x.length : ℝ) * sumAsReal (List.zipWith (fun (a b : Int) => a * b) x x)
      - sumAsReal x * sumAsReal x := by
    rw [sumAsReal_zipWith_self, sumAsReal_eq]
    exact pearson_factor_nonneg x
  have hfy : 0 ≤ (x.length : ℝ) * sumAsReal (List.zipWith (fun (a b : Int) => a * b) y y)
      - sumAsReal y * sumAsReal y := by
    rw [h, sumAsReal_zipWith_self, sumAsReal_eq]
    exact pearson_factor_nonneg y
  rw [hrad]
  exact ⟨by nlinarith, mul_nonneg hfx hfy⟩

/-- The Pearson numerator is bounded by the denominator, for series whose values are at
most 46340 in absolute value. -/
theorem pearsonNumerator_abs_le (x y : List Int) (h : x.length = y.length)
    (hx : ∀ v ∈ x, |v| ≤ 46340) (hy : ∀ v ∈ y, |v| ≤ 46340) :
    |pearsonNumerator x y| ≤ pearsonDenominator x y := by
  unfold pearsonDenominator
  apply Real.abs_le_sqrt
  rw [sq]
  exact (pearson_cauchy_schwarz x y h hx hy).1

/-- The radicand of the series 50000, 60000 against 1, 2 is negative. -/
theorem pearsonRadicand_range_overflow :
    pearsonRadicand [50000, 60000] [1, 2] = -17079869184 := by
  norm_num [pearsonRadicand, sumAsReal, intMul, wrapInt32]

/-- C25: for every pair of equal-length integer series whose values are at most 46340 in
absolute value (so that their products fit an `int`), `calculateCorrelation` returns a
number in `[-1, 1]` (exact real arithmetic); when the lengths differ or the length is
below 2 the result is 0; but for the series 50000, 60000 against 1, 2 the `int` squares
overflow, the radicand is negative and the code returns NaN, which is not in
`[-1, 1]`. -/
theorem calculateCorrelation_range_overflow :
    (∀ x y : List Int, x.length = y.length →
      (∀ v ∈ x, |v| ≤ 46340) → (∀ v ∈ y, |v| ≤ 46340) →
      ∃ r, calculateCorrelation x y = some r ∧ -1 ≤ r ∧ r ≤ 1) ∧
    (∀ x y : List Int, x.length ≠ y.length ∨ x.length < 2 →
      calculateCorrelation x y = some 0) ∧
    calculateCorrelation [50000, 60000] [1, 2] = none := by
  have h0 : (-1 : ℝ) ≤ 0 ∧ (0 : ℝ) ≤ 1 := ⟨by norm_num, by norm_num⟩
  refine ⟨fun x y hlen hx hy => ?_, fun x y h => ?_, ?_⟩
  · unfold calculateCorrelation
    by_cases hg : x.length ≠ y.length ∨ x.length < 2
    · rw [if_pos hg]
      exact ⟨0, rfl, h0⟩
    · rw [if_neg hg, if_neg (not_lt.2 (pearson_cauchy_schwarz x y hlen hx hy).2)]
      by_cases hd : pearsonDenominator x y ≠ 0
      · rw [if_pos hd]
        have hnn : 0 ≤ pearsonDenominator x y := Real.sqrt_nonneg _
        have hpos : 0 < pearsonDenominator x y := lt_of_le_of_ne hnn (Ne.symm hd)
        have habs := abs_le.1 (pearsonNumerator_abs_le x y hlen hx hy)
        refine ⟨_, rfl, ?_, ?_⟩
        · rw [le_div_iff₀ hpos]
          linarith [habs.1]
        · rw [div_le_one hpos]
          exact habs.2
      · rw [if_neg hd]
        exact ⟨0, rfl, h0⟩
  · unfold calculateCorrelation
    rw [if_pos h]
  · unfold calculateCorrelation
    rw [if_neg (by decide), pearsonRadicand_range_overflow, if_pos (by norm_num)]

/-- The correlation of the series 1, 2, 3 with 2, 4, 7 is `15 / sqrt 228`: the numerator
is 15 and the radicand is `6 * 38 = 228`. -/
theorem calculateCorrelation_example :
    pearsonNumerator [1, 2, 3] [2, 4, 7] = 15 ∧ pearsonRadicand [1, 2, 3] [2, 4, 7] = 228 ∧
    calculateCorrelation [1, 2, 3] [2, 4, 7] = some (15 / Real.sqrt 228) := by
  have hnum : pearsonNumerator [1, 2, 3] [2, 4, 7] = 15 := by
    norm_num [pearsonNumerator, sumAsReal, intMul, wrapInt32]
  have hrad : pearsonRadicand [1, 2, 3] [2, 4, 7] = 228 := by
    norm_num [pearsonRadicand, sumAsReal, intMul, wrapInt32]
  refine ⟨hnum, hrad, ?_⟩
  have hpos : (0 : ℝ) < Real.sqrt 228 := Real.sqrt_pos.2 (by norm_num)
  unfold calculateCorrelation
  rw [if_neg (by decide), hrad, if_neg (by norm_num)]
  unfold pearsonDenominator
  rw [hrad, hnum, if_pos (ne_of_gt hpos)]

/-- C25, witness: the series 1, 2, 3 and 2, 4, 7 of equal length, and the series 1, 2, 3
and 1, 2 of different lengths. -/
theorem calculateCorrelation_range_overflow_witness :
    (∃ r, calculateCorrelation [1, 2, 3] [2, 4, 7] = some r ∧ -1 ≤ r ∧ r ≤ 1) ∧
    calculateCorrelation [1, 2, 3] [1, 2] = some 0 :=
  ⟨calculateCorrelation_range_overflow.1 [1, 2, 3] [2, 4, 7] rfl
      (by
        intro v hv
        simp only [List.mem_cons, List.mem_singleton, List.not_mem_nil, or_false] at hv
        rcases hv with rfl | rfl | rfl <;> decide)
      (by
        intro v hv
        simp only [List.mem_cons, List.mem_singleton, List.not_mem_nil, or_false] at hv
        rcases hv with rfl | rfl | rfl <;> decide),
    calculateCorrelation_range_overflow.2.1 [1, 2, 3] [1, 2] (Or.inl (by decide))⟩

/-! ### Error metrics -/

/-- The error metrics of `evaluateModel` for non-empty arguments, in terms of the list of
absolute errors of the compared pairs: the MAE is their mean, the MSE is the mean of their
`int` squares, and the RMSE is the square root of the MSE, or NaN when the MSE is
negative. -/
theorem evaluateModel_metrics_eq (predictions : List PredictionResult)
    (actual : List TimeSeriesData) (hp : predictions ≠ []) (ha : actual ≠ []) :
    ∃ w : List Int,
      w = (predictions.zip actual).map
        (fun pa => |pa.1.predictedPassengers - pa.2.passengers|) ∧
      0 < w.length ∧
      (evaluateModel predictions actual).mae =
        (w.map (fun (v : Int) => (v : ℝ))).sum / (w.length : ℝ) ∧
      (evaluateModel predictions actual).mse =
        (w.map (fun (v : Int) => ((intMul v v : Int) : ℝ))).sum / (w.length : ℝ) ∧
      (evaluateModel predictions actual).rmse =
        (if (evaluateModel predictions actual).mse < 0 then none
        else some (Real.sqrt (evaluateModel predictions actual).mse)) := by
  refine ⟨_, rfl, ?_, ?_, ?_, ?_⟩
  · rw [List.length_map, List.length_zip]
    have h1 : 0 < predictions.length := List.length_pos.2 hp
    have h2 : 0 < actual.length := List.length_pos.2 ha
    exact lt_min h1 h2
  · unfold evaluateModel
    rw [if_neg (by simp [hp, ha])]
    simp only []
    rw [foldl_add_eq_sum, zero_add, List.map_map, List.map_map, List.length_map,
      List.length_zip]
    rfl
  · unfold evaluateModel
    rw [if_neg (by simp [hp, ha])]
    simp only []
    rw [foldl_add_eq_sum, zero_add, List.map_map, List.map_map, List.length_map,
      List.length_zip]
    rfl
  · unfold evaluateModel
    rw [if_neg (by simp [hp, ha])]

/-- The metrics of the prediction 50000 against the actual value 0: the `int` square
`50000 * 50000` wraps to `-1794967296`. -/
theorem evaluateModel_overflow_example :
    (evaluateModel [predictionOf 50000] [actualOf 0]).mae = 50000 ∧
    (evaluateModel [predictionOf 50000] [actualOf 0]).mse = -1794967296 ∧
    (evaluateModel [predictionOf 50000] [actualOf 0]).rmse = none := by
  have hmse : (evaluateModel [predictionOf 50000] [actualOf 0]).mse = -1794967296 := by
    norm_num [evaluateModel, predictionOf, actualOf, intMul, wrapInt32]
  obtain ⟨w, -, -, -, -, hrmse⟩ := evaluateModel_metrics_eq [predictionOf 50000] [actualOf 0]
    (by simp) (by simp)
  refine ⟨?_, hmse, ?_⟩
  · norm_num [evaluateModel, predictionOf, actualOf]
  · rw [hrmse, hmse, if_pos (by norm_num)]

/-- The metrics of the predictions 100000, 100 against the actual values 30000, 100: the
`int` square `70000 * 70000` wraps to `605032704`, so the MSE is a positive number below
the square of the MAE. -/
theorem evaluateModel_wrapped_example :
    (evaluateModel [predictionOf 100000, predictionOf 100] [actualOf 30000, actualOf 100]).mae
      = 35000 ∧
    (evaluateModel [predictionOf 100000, predictionOf 100] [actualOf 30000, actualOf 100]).mse
      = 302516352 ∧
    (evaluateModel [predictionOf 100000, predictionOf 100] [actualOf 30000, actualOf 100]).rmse
      = some (Real.sqrt 302516352) := by
  have hmse : (evaluateModel [predictionOf 100000, predictionOf 100]
      [actualOf 30000, actualOf 100]).mse = 302516352 := by
    norm_num [evaluateModel, predictionOf, actualOf, intMul, wrapInt32]
  obtain ⟨w, -, -, -, -, hrmse⟩ := evaluateModel_metrics_eq
    [predictionOf 100000, predictionOf 100] [actualOf 30000, actualOf 100] (by simp) (by simp)
  refine ⟨?_, hmse, ?_⟩
  · norm_num [evaluateModel, predictionOf, actualOf]
  · rw [hrmse, hmse, if_neg (by norm_num)]

/-- The metrics of the predictions 100, 200 against the actual values 90, 230: the
absolute errors are 10 and 30. -/
theorem evaluateModel_example :
    (evaluateModel [predictionOf 100, predictionOf 200] [actualOf 90, actualOf 230]).mae = 20 ∧
    (evaluateModel [predictionOf 100, predictionOf 200] [actualOf 90, actualOf 230]).mse = 500 ∧
    (evaluateModel [predictionOf 100, predictionOf 200] [actualOf 90, actualOf 230]).rmse =
      some (Real.sqrt 500) := by
  have hmse : (evaluateModel [predictionOf 100, predictionOf 200]
      [actualOf 90, actualOf 230]).mse = 500 := by
    norm_num [evaluateModel, predictionOf, actualOf, intMul, wrapInt32]
  obtain ⟨w, -, -, -, -, hrmse⟩ := evaluateModel_metrics_eq
    [predictionOf 100, predictionOf 200] [actualOf 90, actualOf 230] (by simp) (by simp)
  refine ⟨?_, hmse, ?_⟩
  · norm_num [evaluateModel, predictionOf, actualOf]
  · rw [hrmse, hmse, if_neg (by norm_num)]

/-- C26: (1) when every compared pair has an absolute error of at most 46340 (so that its
square fits an `int`), the evaluation returned by `evaluateModel` satisfies `mse ≥ mae²`
and `rmse ≥ mae ≥ 0`, the RMSE being a number; (2) all four metrics are 0 when either
input is empty; (3) for the prediction 50000 against the actual value 0 the `int` square
`absError * absError` wraps: `mae = 50000`, `mse = -1794967296 < mae²` and the RMSE is
NaN; (4) for the predictions 100000, 100 against the actual values 30000, 100 the square
wraps to a positive value: `mae = 35000`, `mse = 302516352 < mae²` and the RMSE is a
number below the MAE. -/
theorem evaluateModel_square_overflow :
    (∀ (predictions : List PredictionResult) (actual : List TimeSeriesData),
      (∀ pa ∈ predictions.zip actual,
        |pa.1.predictedPassengers - pa.2.passengers| ≤ 46340) →
      (evaluateModel predictions actual).mae ^ 2 ≤ (evaluateModel predictions actual).mse ∧
      0 ≤ (evaluateModel predictions actual).mae ∧
      ∃ r, (evaluateModel predictions actual).rmse = some r ∧
        (evaluateModel predictions actual).mae ≤ r) ∧
    (∀ (predictions : List PredictionResult) (actual : List TimeSeriesData),
      predictions = [] ∨ actual = [] →
      (evaluateModel predictions actual).mae = 0 ∧ (evaluateModel predictions actual).mse = 0 ∧
      (evaluateModel predictions actual).rmse = some 0 ∧
      (evaluateModel predictions actual).mape = 0) ∧
    ((evaluateModel [predictionOf 50000] [actualOf 0]).mae = 50000 ∧
      (evaluateModel [predictionOf 50000] [actualOf 0]).mse = -1794967296 ∧
      (evaluateModel [predictionOf 50000] [actualOf 0]).mse <
        (evaluateModel [predictionOf 50000] [actualOf 0]).mae ^ 2 ∧
      (evaluateModel [predictionOf 50000] [actualOf 0]).rmse = none) ∧
    ((evaluateModel [predictionOf 100000, predictionOf 100]
        [actualOf 30000, actualOf 100]).mae = 35000 ∧
      (evaluateModel [predictionOf 100000, predictionOf 100]
        [actualOf 30000, actualOf 100]).mse = 302516352 ∧
      (evaluateModel [predictionOf 100000, predictionOf 100]
        [actualOf 30000, actualOf 100]).mse <
        (evaluateModel [predictionOf 100000, predictionOf 100]
          [actualOf 30000, actualOf 100]).mae ^ 2 ∧
      ∃ r, (evaluateModel [predictionOf 100000, predictionOf 100]
          [actualOf 30000, actualOf 100]).rmse = some r ∧
        r < (evaluateModel [predictionOf 100000, predictionOf 100]
          [actualOf 30000, actualOf 100]).mae) := by
  have hempty : ∀ (predictions : List PredictionResult) (actual : List TimeSeriesData),
      predictions = [] ∨ actual = [] →
      evaluateModel predictions actual = ⟨0, 0, some 0, 0⟩ := by
    intro predictions actual h
    unfold evaluateModel
    rw [if_pos (by simpa using h)]
  refine ⟨?_, ?_, ?_, ?_⟩
  · intro predictions actual hb
    by_cases h : predictions = [] ∨ actual = []
    · rw [hempty predictions actual h]
      exact ⟨by norm_num, le_refl _, 0, rfl, le_refl _⟩
    · have hp : predictions ≠ [] := fun e => h (Or.inl e)
      have ha : actual ≠ [] := fun e => h (Or.inr e)
      obtain ⟨w, hw, hlen, hmae, hmse, hrmse⟩ :=
        evaluateModel_metrics_eq predictions actual hp ha
      have hn : (0 : ℝ) < (w.length : ℝ) := by exact_mod_cast hlen
      have hwb : ∀ v ∈ w, 0 ≤ v ∧ intMul v v = v * v := by
        intro v hv
        rw [hw] at hv
        obtain ⟨pa, hpa, rfl⟩ := List.mem_map.1 hv
        have hle := hb pa hpa
        have habs : |(|pa.1.predictedPassengers - pa.2.passengers|)| ≤ 46340 := by
          rw [abs_abs]
          exact hle
        exact ⟨abs_nonneg _, intMul_of_bounded _ _ habs habs⟩
      have hsq_eq : w.map (fun (v : Int) => ((intMul v v : Int) : ℝ)) =
          (w.map (fun (v : Int) => (v : ℝ))).map (fun v => v * v) := by
        rw [List.map_map]
        apply List.map_congr_left
        intro v hv
        rw [(hwb v hv).2]
        simp only [Function.comp]
        push_cast
        rfl
      rw [hsq_eq] at hmse
      have hlen' : ((w.map (fun (v : Int) => (v : ℝ))).length : ℝ) = (w.length : ℝ) := by
        rw [List.length_map]
      have hsum : 0 ≤ (w.map (fun (v : Int) => (v : ℝ))).sum := by
        apply List.sum_nonneg
        intro a hmem
        obtain ⟨v, hv, rfl⟩ := List.mem_map.1 hmem
        exact_mod_cast (hwb v hv).1
      have hmae0 : 0 ≤ (evaluateModel predictions actual).mae := by
        rw [hmae]
        exact div_nonneg hsum (le_of_lt hn)
      have hsq : (evaluateModel predictions actual).mae ^ 2
          ≤ (evaluateModel predictions actual).mse := by
        rw [hmae, hmse, div_pow, div_le_div_iff₀ (by positivity) hn]
        have hf := real_factor_nonneg (w.map (fun (v : Int) => (v : ℝ)))
        rw [hlen'] at hf
        nlinarith
      have hmse0 : ¬ (evaluateModel predictions actual).mse < 0 :=
        not_lt.2 (le_trans (sq_nonneg _) hsq)
      refine ⟨hsq, hmae0, Real.sqrt (evaluateModel predictions actual).mse, ?_, ?_⟩
      · rw [hrmse, if_neg hmse0]
      · exact Real.le_sqrt_of_sq_le hsq
  · intro predictions actual h
    rw [hempty predictions actual h]
    exact ⟨rfl, rfl, rfl, rfl⟩
  · obtain ⟨h1, h2, h3⟩ := evaluateModel_overflow_example
    refine ⟨h1, h2, ?_, h3⟩
    rw [h1, h2]
    norm_num
  · obtain ⟨h1, h2, h3⟩ := evaluateModel_wrapped_example
    refine ⟨h1, h2, ?_, _, h3, ?_⟩
    · rw [h1, h2]
      norm_num
    · rw [h1, Real.sqrt_lt' (by norm_num)]
      norm_num

/-- C26, witness: the predictions 100, 200 against the actual values 90, 230 (absolute
errors 10 and 30, `mae = 20`, `mse = 500`), and an empty predictions list against one
actual value. -/
theorem evaluateModel_square_overflow_witness :
    ((evaluateModel [predictionOf 100, predictionOf 200] [actualOf 90, actualOf 230]).mae ^ 2 ≤
        (evaluateModel [predictionOf 100, predictionOf 200] [actualOf 90, actualOf 230]).mse ∧
      0 ≤ (evaluateModel [predictionOf 100, predictionOf 200]
        [actualOf 90, actualOf 230]).mae ∧
      ∃ r, (evaluateModel [predictionOf 100, predictionOf 200]
          [actualOf 90, actualOf 230]).rmse = some r ∧
        (evaluateModel [predictionOf 100, predictionOf 200]
          [actualOf 90, actualOf 230]).mae ≤ r) ∧
    ((evaluateModel [] [actualOf 5]).mae = 0 ∧ (evaluateModel [] [actualOf 5]).mse = 0 ∧
      (evaluateModel [] [actualOf 5]).rmse = some 0 ∧ (evaluateModel [] [actualOf 5]).mape = 0) ∧
    ((evaluateModel [predictionOf 100, predictionOf 200] [actualOf 90, actualOf 230]).mae = 20 ∧
      (evaluateModel [predictionOf 100, predictionOf 200] [actualOf 90, actualOf 230]).mse = 500 ∧
      (evaluateModel [predictionOf 100, predictionOf 200] [actualOf 90, actualOf 230]).rmse =
        some (Real.sqrt 500)) :=
  ⟨evaluateModel_square_overflow.1 [predictionOf 100, predictionOf 200]
      [actualOf 90, actualOf 230]
      (by
        intro pa hpa
        simp only [List.zip_cons_cons, List.zip_nil_right, List.mem_cons, List.mem_singleton,
          List.not_mem_nil, or_false] at hpa
        rcases hpa with rfl | rfl <;> simp [predictionOf, actualOf]),
    evaluateModel_square_overflow.2.1 [] [actualOf 5] (Or.inl rfl),
    evaluateModel_example⟩

/-! ### Unused parameters -/

/-- The first candidate of the grid. -/
theorem first_mem_gridCandidates :
    (⟨3, 0.1, 0.05, 0.1, 7⟩ : ModelParameters) ∈ gridCandidates := by
  unfold gridCandidates
  rw [List.mem_flatMap]
  refine ⟨0.1, by simp, ?_⟩
  rw [List.mem_flatMap]
  refine ⟨0.05, by simp, ?_⟩
  rw [List.mem_map]
  exact ⟨3, by simp, rfl⟩

/-- The last candidate of the grid. -/
theorem last_mem_gridCandidates :
    (⟨14, 0.5, 0.2, 0.1, 7⟩ : ModelParameters) ∈ gridCandidates := by
  unfold gridCandidates
  rw [List.mem_flatMap]
  refine ⟨0.5, by simp, ?_⟩
  rw [List.mem_flatMap]
  refine ⟨0.2, by simp, ?_⟩
  rw [List.mem_map]
  exact ⟨14, by simp, rfl⟩

/-- C27: for every store, start date, days count and fixed draws, two `ModelParameters`
values that both have `windowSize > 0` and the same seasonality give the same
`predictPassengerFlow` result (`alpha`, `beta`, `gamma` and the size of the window are
never read); in particular any two candidates of the `optimizeParameters` grid give the
same, defined, forecast. -/
theorem forecast_ignores_smoothing_parameters (S : StdSort) (rnd : Nat → Nat)
    (jitter : Nat → Fin 20) (dm : DataManager) (startDate : QDate) (days : Int)
    (p p' : ModelParameters) :
    (0 < p.windowSize → 0 < p'.windowSize → p.seasonality = p'.seasonality →
      predictPassengerFlow S rnd jitter dm startDate days p =
        predictPassengerFlow S rnd jitter dm startDate days p') ∧
    (p ∈ gridCandidates → p' ∈ gridCandidates →
      ∃ l, predictPassengerFlow S rnd jitter dm startDate days p = some l ∧
        predictPassengerFlow S rnd jitter dm startDate days p' = some l) := by
  refine ⟨fun hw hw' hs =>
    predictPassengerFlow_params_irrelevant S rnd jitter dm startDate days p p' hw hw' hs,
    fun hp hp' => ?_⟩
  obtain ⟨hw, hs⟩ := gridCandidates_spec p hp
  obtain ⟨hw', hs'⟩ := gridCandidates_spec p' hp'
  obtain ⟨l, hl⟩ := predictPassengerFlow_defined S rnd jitter dm startDate days p
    (fun _ => by rw [hs]; decide)
  refine ⟨l, hl, ?_⟩
  rw [← predictPassengerFlow_params_irrelevant S rnd jitter dm startDate days p p' hw hw'
    (hs.trans hs'.symm)]
  exact hl

/-- C27, witness: the first and the last candidate of the grid on the scenario B store. -/
theorem forecast_ignores_smoothing_parameters_witness :
    predictPassengerFlow insertionStdSort (fun _ => 0) (fun _ => 10) storeB 2457034 3
        ⟨3, 0.1, 0.05, 0.1, 7⟩ =
      predictPassengerFlow insertionStdSort (fun _ => 0) (fun _ => 10) storeB 2457034 3
        ⟨14, 0.5, 0.2, 0.1, 7⟩ ∧
    ∃ l, predictPassengerFlow insertionStdSort (fun _ => 0) (fun _ => 10) storeB 2457034 3
        ⟨3, 0.1, 0.05, 0.1, 7⟩ = some l ∧
      predictPassengerFlow insertionStdSort (fun _ => 0) (fun _ => 10) storeB 2457034 3
        ⟨14, 0.5, 0.2, 0.1, 7⟩ = some l :=
  ⟨(forecast_ignores_smoothing_parameters insertionStdSort (fun _ => 0) (fun _ => 10) storeB
      2457034 3 ⟨3, 0.1, 0.05, 0.1, 7⟩ ⟨14, 0.5, 0.2, 0.1, 7⟩).1 (by decide) (by decide) rfl,
    (forecast_ignores_smoothing_parameters insertionStdSort (fun _ => 0) (fun _ => 10) storeB
      2457034 3 ⟨3, 0.1, 0.05, 0.1, 7⟩ ⟨14, 0.5, 0.2, 0.1, 7⟩).2 first_mem_gridCandidates
      last_mem_gridCandidates⟩

/-! ### Parameter search on scenario B -/

/-- The evaluation reads only the passenger counts of the predictions. -/
theorem evaluateModel_congr (predictions predictions' : List PredictionResult)
    (actual : List TimeSeriesData)
    (h : predictions.map (fun r => r.predictedPassengers) =
      predictions'.map (fun r => r.predictedPassengers)) :
    evaluateModel predictions actual = evaluateModel predictions' actual := by
  have hlen : predictions.length = predictions'.length := by
    simpa using congrArg List.length h
  have hpairs : ∀ l : List PredictionResult,
      (l.zip actual).map (fun pa => (pa.1.predictedPassengers, pa.2.passengers)) =
        (l.map (fun r => r.predictedPassengers)).zip (actual.map (fun a => a.passengers)) := by
    intro l
    rw [List.zip_map]
    rfl
  have hemp : predictions.isEmpty = predictions'.isEmpty := by
    cases predictions <;> cases predictions' <;> simp_all
  unfold evaluateModel
  simp only [hpairs, h, hlen, hemp]

/-- The validation split of the ten observed points is their second half. -/
theorem validationSplit_dataW :
    validationSplit dataW = [⟨2457039, 100, 0⟩, ⟨2457040, 100, 0⟩, ⟨2457041, 100, 0⟩,
      ⟨2457042, 100, 0⟩, ⟨2457043, 100, 0⟩] := by
  simp [validationSplit, dataW, List.range, List.range.loop]

/-- The training series of the scenario B store for a forecast from 2015-01-16 is the
series 100, 110, ..., 190. -/
theorem storeB_validation_training_series :
    extractTimeSeries (getTimeSeriesData insertionStdSort (fun _ => 0) storeB
      (QDate.addDays 2457039 (-30)) (QDate.addDays 2457039 (-1))) = seriesB := by
  have h : (getTimeSeriesData insertionStdSort (fun _ => 0) storeB
      (QDate.addDays 2457039 (-30)) (QDate.addDays 2457039 (-1))).map (fun p => p.passengers)
      = [100, 110, 120, 130, 140, 150, 160, 170, 180, 190] := by decide
  have h2 : extractTimeSeries (getTimeSeriesData insertionStdSort (fun _ => 0) storeB
      (QDate.addDays 2457039 (-30)) (QDate.addDays 2457039 (-1))) =
      ((getTimeSeriesData insertionStdSort (fun _ => 0) storeB
        (QDate.addDays 2457039 (-30)) (QDate.addDays 2457039 (-1))).map
          (fun p => p.passengers)).map (fun (v : Int) => (v : ℝ)) := by
    unfold extractTimeSeries
    rw [List.map_map]
    rfl
  rw [h2, h]
  norm_num [seriesB]

/-- The five-day forecast from Friday 2015-01-16 on the scenario B store with jitter
draw 10, for a candidate of the grid: the bases are 170, 180, 190, 200, 210, the exact
products 187, 146.88, 158.08, 233.2, 249.48, and the forecast holds 187, 146, 158, 233 and
249 passengers. -/
theorem storeB_validation_forecast (rnd : Nat → Nat) (p : ModelParameters)
    (hp : p ∈ gridCandidates) :
    ∃ predictions, predictPassengerFlow insertionStdSort rnd (fun _ => 10) storeB 2457039 5 p
        = some predictions ∧
      predictions.map (fun r => r.predictedPassengers) = [187, 146, 158, 233, 249] := by
  obtain ⟨hw, hs⟩ := gridCandidates_spec p hp
  rw [predictPassengerFlow_rnd_irrelevant insertionStdSort rnd (fun _ => 0) (fun _ => 10)
    storeB 2457039 5 p storeB_flows_ne_nil]
  unfold predictPassengerFlow
  simp only []
  rw [if_neg (by decide), storeB_validation_training_series, if_pos (show p.windowSize > 0 from hw),
    hs, calculateSeasonality_seriesB]
  simp only []
  rw [calculateBaseLevel_seriesB, calculateTrend_seriesB]
  have h10 : ((10 : Fin 20) : Nat) = 10 := rfl
  have hbase : ∀ i : Nat, i < 5 → predictPassengerFlowBase 160 10 [] seriesB.length
      p.seasonality i = some (160 + 10 * (((i : Int) + 1 : Int) : ℝ)) := by
    intro i hi
    rw [hs]
    have hlen : seriesB.length = 10 := by simp [seriesB]
    unfold predictPassengerFlowBase
    rw [if_neg (by decide), hlen]
    simp only []
    rw [if_neg]
    simp only [List.length_nil, Nat.cast_zero, not_lt]
    exact Int.tmod_nonneg _ (by omega)
  have hpoint : ∀ (i : Nat) (k : Int), i < 5 →
      truncToInt (adjustedPrediction (160 + 10 * (((i : Int) + 1 : Int) : ℝ))
        (QDate.dayOfWeek (QDate.addDays 2457039 (i : Int))) 10 i) = k → 0 ≤ k →
      ∃ r, predictPassengerFlowPoint seriesB p 10 [] 160 2457039 (fun _ => 10) i = some r ∧
        r.predictedPassengers = k := by
    intro i k hi hk hk0
    obtain ⟨r, hr, hpp⟩ := predictPassengerFlowPoint_predicted seriesB p 10 [] 160 2457039
      (fun _ => 10) i _ (hbase i hi)
    refine ⟨r, hr, ?_⟩
    rw [hpp, h10, hk]
    exact max_eq_right hk0
  have hexact : ∀ (base : ℝ) (dow : Int) (i : Nat) (v : ℝ) (k : Int),
      exactAdjustedPrediction base dow 10 i = v → 0 ≤ k → 0 ≤ v →
      (k : ℝ) ≤ v - v / 2 ^ 49 → v + v / 2 ^ 49 < (k : ℝ) + 1 →
      truncToInt (adjustedPrediction base dow 10 i) = k := by
    intro base dow i v k hv hk h0 h1 h2
    exact truncToInt_adjustedPrediction base dow 10 i k hk (hv ▸ h0) (hv ▸ h1) (hv ▸ h2)
  obtain ⟨r0, hr0, hp0⟩ := hpoint 0 187 (by decide) (by
    have hd : QDate.dayOfWeek (QDate.addDays 2457039 ((0 : Nat) : Int)) = 5 := by decide
    have hb : (160 + 10 * ((((0 : Nat) : Int) + 1 : Int) : ℝ)) = 170 := by norm_num
    rw [hd, hb]
    exact adjustedPrediction_weekday_example.2) (by decide)
  obtain ⟨r1, hr1, hp1⟩ := hpoint 1 146 (by decide) (by
    have hd : QDate.dayOfWeek (QDate.addDays 2457039 ((1 : Nat) : Int)) = 6 := by decide
    rw [hd]
    apply hexact _ 6 1 146.88 146 _ (by decide) <;> norm_num [exactAdjustedPrediction])
    (by decide)
  obtain ⟨r2, hr2, hp2⟩ := hpoint 2 158 (by decide) (by
    have hd : QDate.dayOfWeek (QDate.addDays 2457039 ((2 : Nat) : Int)) = 7 := by decide
    rw [hd]
    apply hexact _ 7 2 158.08 158 _ (by decide) <;> norm_num [exactAdjustedPrediction])
    (by decide)
  obtain ⟨r3, hr3, hp3⟩ := hpoint 3 233 (by decide) (by
    have hd : QDate.dayOfWeek (QDate.addDays 2457039 ((3 : Nat) : Int)) = 1 := by decide
    rw [hd]
    apply hexact _ 1 3 233.2 233 _ (by decide) <;> norm_num [exactAdjustedPrediction])
    (by decide)
  obtain ⟨r4, hr4, hp4⟩ := hpoint 4 249 (by decide) (by
    have hd : QDate.dayOfWeek (QDate.addDays 2457039 ((4 : Nat) : Int)) = 2 := by decide
    rw [hd]
    apply hexact _ 2 4 249.48 249 _ (by decide) <;> norm_num [exactAdjustedPrediction])
    (by decide)
  refine ⟨[r0, r1, r2, r3, r4], ?_, ?_⟩
  · have h5 : Int.toNat 5 = 5 := rfl
    rw [h5]
    simp [forLoop, hr0, hr1, hr2, hr3, hr4]
  · simp [hp0, hp1, hp2, hp3, hp4]

/-- The RMSE of the forecast 187, 146, 158, 233, 249 over the validation split of the ten
observed points (100 passengers each): the absolute errors are 87, 46, 58, 133, 149, the
mean of their squares is `52939 / 5 = 10587.8`. -/
theorem storeB_validation_rmse (predictions : List PredictionResult)
    (h : predictions.map (fun r => r.predictedPassengers) = [187, 146, 158, 233, 249]) :
    (evaluateModel predictions (validationSplit dataW)).rmse
      = some (Real.sqrt (52939 / 5)) := by
  have hc := evaluateModel_congr predictions
    [predictionOf 187, predictionOf 146, predictionOf 158, predictionOf 233, predictionOf 249]
    (validationSplit dataW) (by rw [h]; simp [predictionOf])
  rw [hc, validationSplit_dataW]
  have hmse : (evaluateModel [predictionOf 187, predictionOf 146, predictionOf 158,
      predictionOf 233, predictionOf 249] [⟨2457039, 100, 0⟩, ⟨2457040, 100, 0⟩,
      ⟨2457041, 100, 0⟩, ⟨2457042, 100, 0⟩, ⟨2457043, 100, 0⟩]).mse = 52939 / 5 := by
    norm_num [evaluateModel, predictionOf, intMul, wrapInt32]
  obtain ⟨w, -, -, -, -, hrmse⟩ := evaluateModel_metrics_eq
    [predictionOf 187, predictionOf 146, predictionOf 158, predictionOf 233, predictionOf 249]
    [⟨2457039, 100, 0⟩, ⟨2457040, 100, 0⟩, ⟨2457041, 100, 0⟩, ⟨2457042, 100, 0⟩,
      ⟨2457043, 100, 0⟩] (by simp) (by simp)
  rw [hrmse, hmse, if_neg (by norm_num)]

/-- In the search over the ten observed points on the scenario B store with jitter
draw 10, every candidate of the grid is scored with the RMSE `sqrt(52939 / 5)`. -/
theorem storeB_searchTrace_scores (rnd : Nat → Nat)
    (trace : List (ModelParameters × Option ℝ))
    (ht : searchTrace insertionStdSort rnd (fun _ => 10) storeB dataW gridCandidates 0 0
      = some trace) :
    ∀ e ∈ trace, e.2 = some (Real.sqrt (52939 / 5)) := by
  obtain ⟨tr, ht', hmap, hall⟩ := searchTrace_defined insertionStdSort rnd (fun _ => 10)
    storeB dataW (by decide) gridCandidates
    (fun p hp _ => by rw [(gridCandidates_spec p hp).2]; decide) 0 0
  rw [ht] at ht'
  have htr : trace = tr := Option.some.inj ht'
  subst htr
  intro e he
  obtain ⟨r, j, first, predictions, hhead, hpred, hrmse⟩ := hall e he
  have hmem : e.1 ∈ gridCandidates := by
    rw [← hmap]
    exact List.mem_map.2 ⟨e, he, rfl⟩
  have hlen : (validationSplit dataW).length = 5 := by decide
  have hfirst : first.date = 2457039 := by
    rw [validationSplit_dataW] at hhead
    simp only [List.head?_cons, Option.some.injEq] at hhead
    rw [← hhead]
  obtain ⟨predictions', hpred', hvals⟩ :=
    storeB_validation_forecast (fun i => rnd (i + r)) e.1 hmem
  rw [hfirst, hlen] at hpred
  have heq : predictions = predictions' := by
    have := hpred.symm.trans hpred'
    exact Option.some.inj this
  rw [hrmse, heq]
  exact storeB_validation_rmse predictions' hvals

/-- On the scenario B store with jitter draw 10 all candidates tie, and the search over
the ten observed points returns the first candidate of the grid. -/
theorem storeB_optimizeParameters (rnd : Nat → Nat) :
    optimizeParameters insertionStdSort rnd (fun _ => 10) storeB dataW
      = some ⟨3, 0.1, 0.05, 0.1, 7⟩ := by
  have hv : 5 ≤ (validationSplit dataW).length := by decide
  obtain ⟨trace, ht, hmap, -⟩ := searchTrace_defined insertionStdSort rnd (fun _ => 10)
    storeB dataW hv gridCandidates
    (fun p hp _ => by rw [(gridCandidates_spec p hp).2]; decide) 0 0
  have hscores := storeB_searchTrace_scores rnd trace ht
  obtain ⟨state', hloop, hpick⟩ := optimizeLoop_eq_pickBest insertionStdSort rnd
    (fun _ => 10) storeB dataW hv gridCandidates ⟨currentParams, doubleMax, 0, 0⟩ trace ht
  simp only [] at hpick
  have hlt : Real.sqrt (52939 / 5) < doubleMax := by
    obtain ⟨predictions, -, hvals⟩ := storeB_validation_forecast rnd _ first_mem_gridCandidates
    exact evaluateModel_rmse_lt_doubleMax predictions (validationSplit dataW) _
      (storeB_validation_rmse predictions hvals)
  have hkeep : ∀ (tr : List (ModelParameters × Option ℝ)) (p0 : ModelParameters),
      (∀ e ∈ tr, e.2 = some (Real.sqrt (52939 / 5))) →
      tr.foldl (fun (best : ModelParameters × ℝ) (e : ModelParameters × Option ℝ) =>
        match e.2 with
        | some r => if r < best.2 then (e.1, r) else best
        | none => best) (p0, Real.sqrt (52939 / 5)) = (p0, Real.sqrt (52939 / 5)) := by
    intro tr p0
    induction tr with
    | nil => intro _; rfl
    | cons x xs ih =>
      intro h
      have hx := h x (List.mem_cons_self _ _)
      simp only [List.foldl_cons, hx, lt_irrefl, if_false]
      exact ih (fun e he => h e (List.mem_cons_of_mem _ he))
  have hgrid : ∃ rest, gridCandidates = (⟨3, 0.1, 0.05, 0.1, 7⟩ : ModelParameters) :: rest := by
    unfold gridCandidates
    exact ⟨_, rfl⟩
  obtain ⟨rest, hrest⟩ := hgrid
  rw [hrest] at hmap
  cases trace with
  | nil => simp at hmap
  | cons x xs =>
    have hx1 : x.1 = ⟨3, 0.1, 0.05, 0.1, 7⟩ := by
      simp only [List.map_cons, List.cons.injEq] at hmap
      exact hmap.1
    have hx2 := hscores x (List.mem_cons_self _ _)
    simp only [List.foldl_cons, hx2, hlt, if_true] at hpick
    have hbest : (state'.bestParams, state'.bestScore) = (x.1, Real.sqrt (52939 / 5)) :=
      hpick.trans (hkeep xs x.1 (fun e he => hscores e (List.mem_cons_of_mem _ he)))
    unfold optimizeParameters
    rw [hloop]
    simp only [Option.map_some']
    rw [(Prod.mk.inj hbest).1, hx1]

/-- C20, witness: the search over the ten observed points on the scenario B store with
jitter disabled.  The validation split holds the five days from 2015-01-16 with 100
passengers each; every candidate forecasts 187, 146, 158, 233, 249 passengers for them
and is scored with the RMSE `sqrt(52939 / 5)`, about 102.9, so the search returns the
first candidate of the grid. -/
theorem optimizeParameters_minimizes_rmse_witness :
    (∃ (best : ModelParameters) (trace : List (ModelParameters × Option ℝ))
      (bestScore : Option ℝ),
      optimizeParameters insertionStdSort (fun _ => 0) (fun _ => 10) storeB dataW
        = some best ∧
      best ∈ gridCandidates ∧
      searchTrace insertionStdSort (fun _ => 0) (fun _ => 10) storeB dataW gridCandidates 0 0
        = some trace ∧
      trace.map Prod.fst = gridCandidates ∧
      (∀ e ∈ trace, ∃ (r : Nat) (first : TimeSeriesData) (predictions : List PredictionResult),
        (validationSplit dataW).head? = some first ∧
        predictPassengerFlow insertionStdSort (fun i => (fun _ => 0) (i + r)) (fun _ => 10)
          storeB first.date ((validationSplit dataW).length : Int) e.1 = some predictions ∧
        e.2 = (evaluateModel predictions (validationSplit dataW)).rmse) ∧
      (best, bestScore) ∈ trace ∧
      ∀ e ∈ trace, ∀ r, e.2 = some r → ∃ b, bestScore = some b ∧ b ≤ r) ∧
    (∀ p ∈ gridCandidates, ∃ predictions,
      predictPassengerFlow insertionStdSort (fun _ => 0) (fun _ => 10) storeB 2457039 5 p
        = some predictions ∧
      predictions.map (fun r => r.predictedPassengers) = [187, 146, 158, 233, 249] ∧
      (evaluateModel predictions (validationSplit dataW)).rmse
        = some (Real.sqrt (52939 / 5))) ∧
    (∀ trace, searchTrace insertionStdSort (fun _ => 0) (fun _ => 10) storeB dataW
        gridCandidates 0 0 = some trace →
      ∀ e ∈ trace, e.2 = some (Real.sqrt (52939 / 5))) ∧
    (0 : ℝ) < Real.sqrt (52939 / 5) ∧
    optimizeParameters insertionStdSort (fun _ => 0) (fun _ => 10) storeB dataW
      = some ⟨3, 0.1, 0.05, 0.1, 7⟩ :=
  ⟨optimizeParameters_minimizes_rmse insertionStdSort (fun _ => 0) (fun _ => 10) storeB dataW
      (fun _ => rfl) (by decide),
    fun p hp =>
      (storeB_validation_forecast (fun _ => 0) p hp).elim
        (fun predictions h => ⟨predictions, h.1, h.2, storeB_validation_rmse predictions h.2⟩),
    storeB_searchTrace_scores (fun _ => 0),
    Real.sqrt_pos.2 (by norm_num),
    storeB_optimizeParameters (fun _ => 0)⟩

/-! ### Forecast points -/

/-- A point of a forecast computed from a training series is a result of the loop body at
its offset. -/
theorem forecast_point_of_series (timeSeries : List ℝ) (modelParams : ModelParameters)
    (startDate : QDate) (jitter : Nat → Fin 20) (n : Nat) (l : List PredictionResult)
    (hl : (if timeSeries.length < 10 then some []
      else
        match calculateSeasonality timeSeries modelParams.seasonality with
        | none => none
        | some seasonalPattern =>
          forLoop (predictPassengerFlowPoint timeSeries modelParams (calculateTrend timeSeries)
            seasonalPattern (calculateBaseLevel timeSeries) startDate jitter) n) = some l)
    (i : Nat) (r : PredictionResult) (hr : l[i]? = some r) :
    ∃ seasonalPattern, predictPassengerFlowPoint timeSeries modelParams
      (calculateTrend timeSeries) seasonalPattern (calculateBaseLevel timeSeries) startDate
      jitter i = some r := by
  by_cases hlen : timeSeries.length < 10
  · rw [if_pos hlen] at hl
    simp only [Option.some.injEq] at hl
    subst hl
    simp at hr
  · rw [if_neg hlen] at hl
    cases hpat : calculateSeasonality timeSeries modelParams.seasonality with
    | none => rw [hpat] at hl; cases hl
    | some pattern =>
      rw [hpat] at hl
      simp only [] at hl
      obtain ⟨hn, hget⟩ := forLoop_getElem? _ _ _ hl
      have hi : i < n := by
        rw [← hn]
        exact (List.getElem?_eq_some_iff.1 hr).1
      have hstep := hget i hi
      rw [hr] at hstep
      exact ⟨pattern, hstep.symm⟩

/-- The fields of a forecast point: the date is the start date plus the offset, the
confidence is 0.95, and the bounds enclose the non-negative passenger count. -/
theorem predictPassengerFlowPoint_fields (timeSeries : List ℝ) (modelParams : ModelParameters)
    (trend : ℝ) (seasonalPattern : List ℝ) (baseLevel : ℝ) (startDate : QDate)
    (jitter : Nat → Fin 20) (i : Nat) (r : PredictionResult)
    (h : predictPassengerFlowPoint timeSeries modelParams trend seasonalPattern baseLevel
      startDate jitter i = some r) :
    r.date = QDate.addDays startDate (i : Int) ∧ r.confidence = 0.95 ∧
    0 ≤ r.lowerBound ∧ r.lowerBound ≤ (r.predictedPassengers : ℝ) ∧
    (r.predictedPassengers : ℝ) ≤ r.upperBound := by
  unfold predictPassengerFlowPoint at h
  simp only [] at h
  cases hbase : predictPassengerFlowBase baseLevel trend seasonalPattern timeSeries.length
      modelParams.seasonality i with
  | none => rw [hbase] at h; cases h
  | some base =>
    rw [hbase] at h
    simp only [Option.some.injEq] at h
    subst h
    have hw : 0 ≤ truncToInt (confidenceWidth timeSeries i) := by
      unfold truncToInt
      rw [if_pos (confidenceWidth_nonneg timeSeries i)]
      exact Int.floor_nonneg.2 (confidenceWidth_nonneg timeSeries i)
    have hlow : ∀ T W : Int, 0 ≤ W → max 0 (max 0 T - W) ≤ max 0 T := fun T W hW =>
      max_le (le_max_left _ _) (sub_le_self _ hW)
    have hup : ∀ T W : Int, 0 ≤ W → T ≤ T + W := fun T W hW => le_add_of_nonneg_right hW
    exact ⟨rfl, rfl, Int.cast_nonneg.2 (le_max_left _ _), Int.cast_le.2 (hlow _ _ hw),
      Int.cast_le.2 (hup _ _ hw)⟩

/-- C29: when the training series has at least 10 points (and the seasonality is positive
whenever the supplied parameters are used), `predictPassengerFlow` returns exactly
`max(days, 0)` points, and the point at 0-based position `i` has the date
`startDate.addDays(i)` and confidence 0.95; when the forecast days `start + i` all lie in
the valid range of `QDate`, that date is the Julian day `start + i` and the dates of the
result are strictly ascending. -/
theorem predictPassengerFlow_points (S : StdSort) (rnd : Nat → Nat) (jitter : Nat → Fin 20)
    (dm : DataManager) (startDate : QDate) (days : Int) (params : ModelParameters)
    (hlen : 10 ≤ (getTimeSeriesData S rnd dm (QDate.addDays startDate (-30))
      (QDate.addDays startDate (-1))).length)
    (hp : 0 < params.windowSize → 0 < params.seasonality) :
    ∃ l, predictPassengerFlow S rnd jitter dm startDate days params = some l ∧
      (l.length : Int) = max days 0 ∧
      (∀ (i : Nat) (r : PredictionResult), l[i]? = some r →
        r.date = QDate.addDays startDate (i : Int) ∧ r.confidence = 0.95) ∧
      ((∀ i : Nat, (i : Int) < days → QDate.isValid (startDate + (i : Int)) = true) →
        (∀ (i : Nat) (r : PredictionResult), l[i]? = some r → r.date = startDate + (i : Int)) ∧
        (l.map (fun r => r.date)).Pairwise (fun a b => a < b)) := by
  obtain ⟨l, hl, hn⟩ := predictPassengerFlow_eq_some S rnd jitter dm startDate days params
    hlen hp
  have hfield : ∀ (i : Nat) (r : PredictionResult), l[i]? = some r →
      r.date = QDate.addDays startDate (i : Int) ∧ r.confidence = 0.95 := by
    intro i r hr
    have hl' := hl
    rw [predictPassengerFlow_of_series] at hl'
    obtain ⟨pattern, hpt⟩ := forecast_point_of_series _ _ startDate jitter days.toNat l hl' i r hr
    obtain ⟨h1, h2, -⟩ := predictPassengerFlowPoint_fields _ _ _ _ _ _ _ _ _ hpt
    exact ⟨h1, h2⟩
  refine ⟨l, hl, ?_, hfield, fun hvalid => ?_⟩
  · rw [hn]
    omega
  · have hdate : ∀ (i : Nat) (r : PredictionResult), l[i]? = some r →
        r.date = startDate + (i : Int) := by
      intro i r hr
      have hi : i < l.length := (List.getElem?_eq_some_iff.1 hr).1
      have hid : (i : Int) < days := by omega
      have h0 : QDate.isValid startDate = true := by
        have := hvalid 0 (by omega)
        simpa using this
      rw [(hfield i r hr).1]
      unfold QDate.addDays
      rw [if_neg (by simp [h0]), if_pos (hvalid i hid)]
    refine ⟨hdate, ?_⟩
    rw [List.pairwise_iff_getElem]
    intro i j hi hj hij
    rw [List.length_map] at hi hj
    rw [List.getElem_map, List.getElem_map,
      hdate i l[i] (List.getElem?_eq_getElem hi), hdate j l[j] (List.getElem?_eq_getElem hj)]
    have hij' : (i : Int) < (j : Int) := by exact_mod_cast hij
    exact Int.add_lt_add_left hij' startDate

/-- C29, witness: a three-day forecast from 2015-01-11 on the scenario B store has three
points with strictly ascending dates. -/
theorem predictPassengerFlow_points_witness :
    ∃ l, predictPassengerFlow insertionStdSort (fun _ => 0) (fun _ => 10) storeB 2457034 3
        ⟨0, 0, 0, 0, 0⟩ = some l ∧
      (l.length : Int) = max 3 0 ∧
      (∀ (i : Nat) (r : PredictionResult), l[i]? = some r →
        r.date = QDate.addDays 2457034 (i : Int) ∧ r.confidence = 0.95) ∧
      (∀ (i : Nat) (r : PredictionResult), l[i]? = some r → r.date = 2457034 + (i : Int)) ∧
      (l.map (fun r => r.date)).Pairwise (fun a b => a < b) := by
  obtain ⟨l, hl, hn, hf, hv⟩ := predictPassengerFlow_points insertionStdSort (fun _ => 0)
    (fun _ => 10) storeB 2457034 3 ⟨0, 0, 0, 0, 0⟩ (by decide) (fun h => absurd h (by decide))
  refine ⟨l, hl, hn, hf, hv (fun i hi => ?_)⟩
  have hi3 : i < 3 := by omega
  interval_cases i <;> decide

/-- For parameters whose seasonality is positive whenever they are used,
`predictStationFlow` has defined behaviour. -/
theorem predictStationFlow_defined (S : StdSort) (rnd : Nat → Nat) (jitter : Nat → Fin 20)
    (dm : DataManager) (stationName : String) (startDate : QDate) (days : Int)
    (params : ModelParameters) (hp : 0 < params.windowSize → 0 < params.seasonality) :
    ∃ l, predictStationFlow S rnd jitter dm stationName startDate days params = some l := by
  by_cases hlen : (getPassengerFlowTimeSeriesByStation S rnd dm stationName
      (QDate.addDays startDate (-30)) (QDate.addDays startDate (-1))).length < 10
  · refine ⟨[], ?_⟩
    unfold predictStationFlow
    simp only []
    rw [if_pos hlen]
  · obtain ⟨l, hl, -⟩ := predictStationFlow_eq_some S rnd jitter dm stationName startDate days
      params (by omega) hp
    exact ⟨l, hl⟩

/-- For parameters whose seasonality is positive whenever they are used,
`predictTrainFlow` has defined behaviour. -/
theorem predictTrainFlow_defined (S : StdSort) (rnd : Nat → Nat) (jitter : Nat → Fin 20)
    (dm : DataManager) (trainNumber : String) (startDate : QDate) (days : Int)
    (params : ModelParameters) (hp : 0 < params.windowSize → 0 < params.seasonality) :
    ∃ l, predictTrainFlow S rnd jitter dm trainNumber startDate days params = some l := by
  by_cases hlen : (getPassengerFlowTimeSeriesByTrain S rnd dm trainNumber
      (QDate.addDays startDate (-30)) (QDate.addDays startDate (-1))).length < 10
  · refine ⟨[], ?_⟩
    unfold predictTrainFlow
    simp only []
    rw [if_pos hlen]
  · obtain ⟨l, hl, -⟩ := predictTrainFlow_eq_some S rnd jitter dm trainNumber startDate days
      params (by omega) hp
    exact ⟨l, hl⟩

/-- C30: every forecast point returned by `predictPassengerFlow`, `predictStationFlow` or
`predictTrainFlow` satisfies `0 ≤ lowerBound ≤ predictedPassengers ≤ upperBound`; and for
parameters whose seasonality is positive whenever they are used, each of the three calls
does return a list of points. -/
theorem forecast_bounds_ordered (S : StdSort) (rnd : Nat → Nat) (jitter : Nat → Fin 20)
    (dm : DataManager) (stationName trainNumber : String) (startDate : QDate) (days : Int)
    (params : ModelParameters) :
    (∀ l, predictPassengerFlow S rnd jitter dm startDate days params = some l →
      ∀ r ∈ l, 0 ≤ r.lowerBound ∧ r.lowerBound ≤ (r.predictedPassengers : ℝ) ∧
        (r.predictedPassengers : ℝ) ≤ r.upperBound) ∧
    (∀ l, predictStationFlow S rnd jitter dm stationName startDate days params = some l →
      ∀ r ∈ l, 0 ≤ r.lowerBound ∧ r.lowerBound ≤ (r.predictedPassengers : ℝ) ∧
        (r.predictedPassengers : ℝ) ≤ r.upperBound) ∧
    (∀ l, predictTrainFlow S rnd jitter dm trainNumber startDate days params = some l →
      ∀ r ∈ l, 0 ≤ r.lowerBound ∧ r.lowerBound ≤ (r.predictedPassengers : ℝ) ∧
        (r.predictedPassengers : ℝ) ≤ r.upperBound) ∧
    ((0 < params.windowSize → 0 < params.seasonality) →
      (∃ l, predictPassengerFlow S rnd jitter dm startDate days params = some l) ∧
      (∃ l, predictStationFlow S rnd jitter dm stationName startDate days params = some l) ∧
      (∃ l, predictTrainFlow S rnd jitter dm trainNumber startDate days params = some l)) := by
  have key : ∀ (timeSeries : List ℝ) (l : List PredictionResult),
      (if timeSeries.length < 10 then some []
        else
          match calculateSeasonality timeSeries
            (if params.windowSize > 0 then params else currentParams).seasonality with
          | none => none
          | some seasonalPattern =>
            forLoop (predictPassengerFlowPoint timeSeries
              (if params.windowSize > 0 then params else currentParams)
              (calculateTrend timeSeries) seasonalPattern (calculateBaseLevel timeSeries)
              startDate jitter) days.toNat) = some l →
      ∀ r ∈ l, 0 ≤ r.lowerBound ∧ r.lowerBound ≤ (r.predictedPassengers : ℝ) ∧
        (r.predictedPassengers : ℝ) ≤ r.upperBound := by
    intro timeSeries l hl r hr
    obtain ⟨i, hi, hget⟩ := List.getElem_of_mem hr
    have hr' : l[i]? = some r := by rw [List.getElem?_eq_getElem hi, hget]
    obtain ⟨pattern, hpt⟩ := forecast_point_of_series timeSeries _ startDate jitter days.toNat l
      hl i r hr'
    obtain ⟨-, -, h3⟩ := predictPassengerFlowPoint_fields _ _ _ _ _ _ _ _ _ hpt
    exact h3
  refine ⟨fun l hl => ?_, fun l hl => ?_, fun l hl => ?_, fun hp => ?_⟩
  · rw [predictPassengerFlow_of_series] at hl
    exact key _ l hl
  · rw [predictStationFlow_of_series] at hl
    exact key _ l hl
  · rw [predictTrainFlow_of_series] at hl
    exact key _ l hl
  · exact ⟨predictPassengerFlow_defined S rnd jitter dm startDate days params hp,
      predictStationFlow_defined S rnd jitter dm stationName startDate days params hp,
      predictTrainFlow_defined S rnd jitter dm trainNumber startDate days params hp⟩

/-- C30, witness: the three three-day forecasts from 2015-01-11 on the scenario B store
are not empty and their points have ordered bounds. -/
theorem forecast_bounds_ordered_witness :
    (∃ l, predictPassengerFlow insertionStdSort (fun _ => 0) (fun _ => 10) storeB 2457034 3
        ⟨0, 0, 0, 0, 0⟩ = some l ∧ l.length = 3 ∧
      ∀ r ∈ l, 0 ≤ r.lowerBound ∧ r.lowerBound ≤ (r.predictedPassengers : ℝ) ∧
        (r.predictedPassengers : ℝ) ≤ r.upperBound) ∧
    (∃ l, predictStationFlow insertionStdSort (fun _ => 0) (fun _ => 10) storeB "成都东站"
        2457034 3 ⟨0, 0, 0, 0, 0⟩ = some l ∧ l.length = 3 ∧
      ∀ r ∈ l, 0 ≤ r.lowerBound ∧ r.lowerBound ≤ (r.predictedPassengers : ℝ) ∧
        (r.predictedPassengers : ℝ) ≤ r.upperBound) ∧
    (∃ l, predictTrainFlow insertionStdSort (fun _ => 0) (fun _ => 10) storeB "G8501"
        2457034 3 ⟨0, 0, 0, 0, 0⟩ = some l ∧ l.length = 3 ∧
      ∀ r ∈ l, 0 ≤ r.lowerBound ∧ r.lowerBound ≤ (r.predictedPassengers : ℝ) ∧
        (r.predictedPassengers : ℝ) ≤ r.upperBound) := by
  obtain ⟨l1, hl1, hn1⟩ := predictPassengerFlow_eq_some insertionStdSort (fun _ => 0)
    (fun _ => 10) storeB 2457034 3 ⟨0, 0, 0, 0, 0⟩ (by decide) (fun h => absurd h (by decide))
  obtain ⟨l2, hl2, hn2⟩ := predictStationFlow_eq_some insertionStdSort (fun _ => 0)
    (fun _ => 10) storeB "成都东站" 2457034 3 ⟨0, 0, 0, 0, 0⟩ (by decide)
    (fun h => absurd h (by decide))
  obtain ⟨l3, hl3, hn3⟩ := predictTrainFlow_eq_some insertionStdSort (fun _ => 0)
    (fun _ => 10) storeB "G8501" 2457034 3 ⟨0, 0, 0, 0, 0⟩ (by decide)
    (fun h => absurd h (by decide))
  exact ⟨⟨l1, hl1, hn1, (forecast_bounds_ordered insertionStdSort (fun _ => 0) (fun _ => 10)
      storeB "成都东站" "G8501" 2457034 3 ⟨0, 0, 0, 0, 0⟩).1 l1 hl1⟩,
    ⟨l2, hl2, hn2, (forecast_bounds_ordered insertionStdSort (fun _ => 0) (fun _ => 10)
      storeB "成都东站" "G8501" 2457034 3 ⟨0, 0, 0, 0, 0⟩).2.1 l2 hl2⟩,
    ⟨l3, hl3, hn3, (forecast_bounds_ordered insertionStdSort (fun _ => 0) (fun _ => 10)
      storeB "成都东站" "G8501" 2457034 3 ⟨0, 0, 0, 0, 0⟩).2.2.1 l3 hl3⟩⟩

/-! ### Regression slope -/

/-- The sum of the indices `0 .. n - 1`. -/
theorem sum_range_index (n : Nat) :
    ((List.range n).map (fun (i : Nat) => (i : ℝ))).sum = (n : ℝ) * ((n : ℝ) - 1) / 2 := by
  induction n with
  | zero => simp
  | succ n ih =>
    rw [List.sum_range_succ, ih]
    push_cast
    ring

/-- The sum of the squared indices `0 .. n - 1`. -/
theorem sum_range_index_sq (n : Nat) :
    ((List.range n).map (fun (i : Nat) => (i : ℝ) * (i : ℝ))).sum =
      ((n : ℝ) - 1) * (n : ℝ) * (2 * (n : ℝ) - 1) / 6 := by
  induction n with
  | zero => simp
  | succ n ih =>
    rw [List.sum_range_succ, ih]
    push_cast
    ring

/-- A sum over the enumerated data that only reads the index is a sum over the indices. -/
theorem sum_enum_index (data : List ℝ) (g : Nat → ℝ) :
    (data.enum.map (fun iy => g iy.1)).sum = ((List.range data.length).map g).sum := by
  rw [← List.enum_map_fst data, List.map_map]
  rfl

/-- The enumeration of a list given by a function of the index. -/
theorem enum_map_range (n : Nat) (f : Nat → ℝ) :
    ((List.range n).map f).enum = (List.range n).map (fun i => (i, f i)) := by
  rw [List.enum_eq_zip_range, List.length_map, List.length_range]
  have h := List.zip_map' (fun i : Nat => i) f (List.range n)
  rw [List.map_id'] at h
  exact h

/-- The value `n²(n² - 1)/12` is positive for `n ≥ 2`. -/
theorem slope_denominator_value_pos (n : Nat) (hn : 2 ≤ n) :
    (0 : ℝ) < (n : ℝ) ^ 2 * ((n : ℝ) ^ 2 - 1) / 12 := by
  have h2 : (2 : ℝ) ≤ (n : ℝ) := by exact_mod_cast hn
  have h1 : (0 : ℝ) < (n : ℝ) ^ 2 := by positivity
  have h3 : (0 : ℝ) < (n : ℝ) ^ 2 - 1 := by nlinarith
  positivity

/-- The denominator of `calculateTrend` in closed form. -/
theorem trendDenominator_eq (data : List ℝ) :
    trendDenominator data =
      (data.length : ℝ) ^ 2 * ((data.length : ℝ) ^ 2 - 1) / 12 := by
  unfold trendDenominator
  rw [foldl_add_eq_sum, foldl_add_eq_sum, zero_add, zero_add,
    sum_enum_index data (fun (i : Nat) => (i : ℝ) * (i : ℝ)), sum_enum_index data (fun (i : Nat) => (i : ℝ)),
    sum_range_index, sum_range_index_sq]
  ring

/-- The index list and the value list built by `trainModel`, zipped. -/
theorem trainModel_zip (timeSeries : List ℝ) :
    (timeSeries.enum.map (fun iy => (iy.1 : ℝ))).zip (timeSeries.enum.map (fun iy => iy.2)) =
      timeSeries.enum.map (fun iy => ((iy.1 : ℝ), iy.2)) :=
  List.zip_map' _ _ _

/-- The denominator of `fitLinearRegression`, for the index list built by `trainModel`,
in closed form. -/
theorem regressionDenominator_eq (timeSeries : List ℝ) :
    regressionDenominator (timeSeries.enum.map (fun iy => (iy.1 : ℝ)))
        (timeSeries.enum.map (fun iy => iy.2)) =
      (timeSeries.length : ℝ) ^ 2 * ((timeSeries.length : ℝ) ^ 2 - 1) / 12 := by
  unfold regressionDenominator
  rw [trainModel_zip, foldl_add_eq_sum, foldl_add_eq_sum, zero_add, zero_add, List.map_map,
    List.map_map, List.length_map, List.enum_length]
  have h1 := sum_enum_index timeSeries (fun (i : Nat) => (i : ℝ) * (i : ℝ))
  have h2 := sum_enum_index timeSeries (fun (i : Nat) => (i : ℝ))
  simp only [Function.comp_def] at h1 h2 ⊢
  rw [h1, h2, sum_range_index, sum_range_index_sq]
  ring

/-- The numerator of `fitLinearRegression`, for the lists built by `trainModel`, is the
numerator of `calculateTrend`. -/
theorem regressionNumerator_eq (timeSeries : List ℝ) :
    regressionNumerator (timeSeries.enum.map (fun iy => (iy.1 : ℝ)))
        (timeSeries.enum.map (fun iy => iy.2)) = trendNumerator timeSeries := by
  unfold regressionNumerator trendNumerator
  rw [trainModel_zip, List.length_map, List.enum_length]
  simp only [List.foldl_map]

/-- The slope computed by `calculateTrend` for at least two values. -/
theorem calculateTrend_eq (data : List ℝ) (hn : 2 ≤ data.length) :
    calculateTrend data = trendNumerator data / trendDenominator data := by
  unfold calculateTrend
  rw [if_neg (by omega)]
  rfl

/-- The numerator of `calculateTrend` for an arithmetic progression. -/
theorem trendNumerator_progression (n : Nat) (a d : ℝ) :
    trendNumerator ((List.range n).map (fun (i : Nat) => a + d * (i : ℝ))) =
      d * ((n : ℝ) ^ 2 * ((n : ℝ) ^ 2 - 1) / 12) := by
  unfold trendNumerator
  rw [enum_map_range, foldl_add_eq_sum, foldl_add_eq_sum, foldl_add_eq_sum, zero_add,
    zero_add, zero_add, List.map_map, List.map_map, List.map_map, List.length_map,
    List.length_range]
  simp only [Function.comp_def]
  have hxy : ∀ m : Nat,
      ((List.range m).map (fun i : Nat => (i : ℝ) * (a + d * (i : ℝ)))).sum =
      a * ((List.range m).map (fun (i : Nat) => (i : ℝ))).sum +
        d * ((List.range m).map (fun (i : Nat) => (i : ℝ) * (i : ℝ))).sum := by
    intro m
    induction m with
    | zero => simp
    | succ m ih =>
      rw [List.sum_range_succ, List.sum_range_succ, List.sum_range_succ, ih]
      ring
  have hy : ∀ m : Nat, ((List.range m).map (fun i : Nat => a + d * (i : ℝ))).sum =
      (m : ℝ) * a + d * ((List.range m).map (fun (i : Nat) => (i : ℝ))).sum := by
    intro m
    induction m with
    | zero => simp
    | succ m ih =>
      rw [List.sum_range_succ, List.sum_range_succ, ih]
      push_cast
      ring
  rw [hxy, hy, sum_range_index, sum_range_index_sq]
  ring

/-- The result of `trainModel` for at least 10 training points. -/
theorem trainModel_eq (trained : List ℝ) (trainingData : List TimeSeriesData)
    (hn : 10 ≤ trainingData.length) :
    ∃ intercept, trainModel trained trainingData =
      (true, [intercept,
        regressionNumerator
          ((extractTimeSeries trainingData).enum.map (fun iy => (iy.1 : ℝ)))
          ((extractTimeSeries trainingData).enum.map (fun iy => iy.2)) /
        regressionDenominator
          ((extractTimeSeries trainingData).enum.map (fun iy => (iy.1 : ℝ)))
          ((extractTimeSeries trainingData).enum.map (fun iy => iy.2))]) := by
  unfold trainModel
  rw [if_neg (by omega)]
  simp only []
  unfold fitLinearRegression
  rw [if_neg (by
    rw [List.length_map, List.length_map, List.enum_length, extractTimeSeries_length]
    intro h
    rcases h with h | h
    · exact h rfl
    · omega)]
  exact ⟨_, rfl⟩

/-- C28: for every length `n ≥ 2`, (1) the denominator `n·Σi² − (Σi)²` of the slope in
`calculateTrend` equals `n²(n² − 1)/12` and is strictly positive, and the returned trend is
the quotient by it; (2) for `n ≥ 10` training points `trainModel` succeeds, and the
denominator used by `fitLinearRegression` on the index list built by `trainModel` equals
`n²(n² − 1)/12` and is strictly positive; (3) for an arithmetic progression `a + d·i` the
slope returned by `calculateTrend` is exactly `d`, and (4) so is the slope coefficient
stored by `trainModel`. -/
theorem slope_denominator_pos (n : Nat) (hn : 2 ≤ n) :
    (∀ data : List ℝ, data.length = n →
      trendDenominator data = (n : ℝ) ^ 2 * ((n : ℝ) ^ 2 - 1) / 12 ∧
      0 < trendDenominator data ∧
      calculateTrend data = trendNumerator data / trendDenominator data) ∧
    (∀ (trained : List ℝ) (trainingData : List TimeSeriesData),
      trainingData.length = n → 10 ≤ n →
      regressionDenominator
          ((extractTimeSeries trainingData).enum.map (fun iy => (iy.1 : ℝ)))
          ((extractTimeSeries trainingData).enum.map (fun iy => iy.2)) =
        (n : ℝ) ^ 2 * ((n : ℝ) ^ 2 - 1) / 12 ∧
      0 < regressionDenominator
          ((extractTimeSeries trainingData).enum.map (fun iy => (iy.1 : ℝ)))
          ((extractTimeSeries trainingData).enum.map (fun iy => iy.2)) ∧
      ∃ intercept, trainModel trained trainingData =
        (true, [intercept,
          regressionNumerator
            ((extractTimeSeries trainingData).enum.map (fun iy => (iy.1 : ℝ)))
            ((extractTimeSeries trainingData).enum.map (fun iy => iy.2)) /
          regressionDenominator
            ((extractTimeSeries trainingData).enum.map (fun iy => (iy.1 : ℝ)))
            ((extractTimeSeries trainingData).enum.map (fun iy => iy.2))])) ∧
    (∀ a d : ℝ,
      calculateTrend ((List.range n).map (fun (i : Nat) => a + d * (i : ℝ))) = d) ∧
    (∀ (a d : Int) (trained : List ℝ) (trainingData : List TimeSeriesData),
      trainingData.map (fun p => p.passengers) =
        (List.range n).map (fun (i : Nat) => a + d * (i : Int)) → 10 ≤ n →
      ∃ intercept, trainModel trained trainingData = (true, [intercept, (d : ℝ)])) := by
  have hpos := slope_denominator_value_pos n hn
  have hprog : ∀ a d : ℝ,
      trendNumerator ((List.range n).map (fun (i : Nat) => a + d * (i : ℝ))) /
        ((n : ℝ) ^ 2 * ((n : ℝ) ^ 2 - 1) / 12) = d := by
    intro a d
    rw [trendNumerator_progression]
    exact mul_div_cancel_right₀ d (ne_of_gt hpos)
  refine ⟨fun data hlen => ?_, fun trained trainingData hlen h10 => ?_, fun a d => ?_,
    fun a d trained trainingData hdata h10 => ?_⟩
  · have hden := trendDenominator_eq data
    rw [hlen] at hden
    refine ⟨hden, by rw [hden]; exact hpos, calculateTrend_eq data (by omega)⟩
  · have hden := regressionDenominator_eq (extractTimeSeries trainingData)
    rw [extractTimeSeries_length, hlen] at hden
    exact ⟨hden, by rw [hden]; exact hpos, trainModel_eq trained trainingData (by omega)⟩
  · have hlen : ((List.range n).map (fun (i : Nat) => a + d * (i : ℝ))).length = n := by
      rw [List.length_map, List.length_range]
    have hden := trendDenominator_eq ((List.range n).map (fun (i : Nat) => a + d * (i : ℝ)))
    rw [hlen] at hden
    rw [calculateTrend_eq _ (by omega), hden]
    exact hprog a d
  · have hlen : trainingData.length = n := by
      have h := congrArg List.length hdata
      rw [List.length_map, List.length_map, List.length_range] at h
      exact h
    have hseries : extractTimeSeries trainingData =
        (List.range n).map (fun (i : Nat) => (a : ℝ) + (d : ℝ) * (i : ℝ)) := by
      have h : extractTimeSeries trainingData =
          (trainingData.map (fun p => p.passengers)).map (fun (v : Int) => (v : ℝ)) := by
        unfold extractTimeSeries
        rw [List.map_map]
        rfl
      rw [h, hdata, List.map_map]
      apply List.map_congr_left
      intro i _
      simp only [Function.comp]
      push_cast
      rfl
    obtain ⟨intercept, htrain⟩ := trainModel_eq trained trainingData (by omega)
    have hden := regressionDenominator_eq (extractTimeSeries trainingData)
    rw [extractTimeSeries_length, hlen] at hden
    refine ⟨intercept, ?_⟩
    rw [htrain, hden, regressionNumerator_eq, hseries, hprog]

/-- C28, witness: the ten-value series of scenario B (denominator `10²·99/12 = 825`), and
`trainModel` on ten points of 100 passengers each (slope 0). -/
theorem slope_denominator_pos_witness :
    (trendDenominator seriesB = ((10 : Nat) : ℝ) ^ 2 * (((10 : Nat) : ℝ) ^ 2 - 1) / 12 ∧
      0 < trendDenominator seriesB ∧
      calculateTrend seriesB = trendNumerator seriesB / trendDenominator seriesB) ∧
    ∃ intercept, trainModel [] dataW = (true, [intercept, ((0 : Int) : ℝ)]) :=
  ⟨(slope_denominator_pos 10 (by decide)).1 seriesB rfl,
    (slope_denominator_pos 10 (by decide)).2.2.2 100 0 [] dataW (by decide) (by decide)⟩

/-! ### Ticket price buckets -/

/-- The value of `std::round` is within one half of its argument, and no integer is
closer. -/
theorem stdRound_nearest (x : ℚ) :
    |((stdRound x : Int) : ℚ) - x| ≤ 1 / 2 ∧
    ∀ j : Int, |((stdRound x : Int) : ℚ) - x| ≤ |(j : ℚ) - x| := by
  have hhalf : |((stdRound x : Int) : ℚ) - x| ≤ 1 / 2 := by
    unfold stdRound
    by_cases hx : 0 ≤ x
    · rw [if_pos hx, abs_le]
      have h1 := Int.floor_le (x + 1 / 2)
      have h2 := Int.lt_floor_add_one (x + 1 / 2)
      constructor <;> linarith
    · rw [if_neg hx, abs_le]
      have h1 := Int.le_ceil (x - 1 / 2)
      have h2 := Int.ceil_lt_add_one (x - 1 / 2)
      constructor <;> linarith
  refine ⟨hhalf, fun j => ?_⟩
  by_cases hj : j = stdRound x
  · rw [hj]
  · have hne : j - stdRound x ≠ 0 := sub_ne_zero.2 hj
    have h1 : (1 : Int) ≤ |j - stdRound x| := Int.one_le_abs hne
    have h2 : (1 : ℚ) ≤ |(j : ℚ) - ((stdRound x : Int) : ℚ)| := by exact_mod_cast h1
    have h3 : |(j : ℚ) - ((stdRound x : Int) : ℚ)| ≤
        |(j : ℚ) - x| + |((stdRound x : Int) : ℚ) - x| := by
      have := abs_sub_le (j : ℚ) x ((stdRound x : Int) : ℚ)
      rwa [abs_sub_comm x _] at this
    linarith

/-- Halfway cases are rounded away from zero: 16.5 gives 17 and -16.5 gives -17, while
16.4 gives 16. -/
theorem stdRound_examples :
    stdRound (33 / 2) = 17 ∧ stdRound (-(33 / 2)) = -17 ∧ stdRound (82 / 5) = 16 := by
  refine ⟨?_, ?_, ?_⟩
  · unfold stdRound
    rw [if_pos (by norm_num), Int.floor_eq_iff]
    constructor <;> norm_num
  · unfold stdRound
    rw [if_neg (by norm_num), Int.ceil_eq_iff]
    constructor <;> norm_num
  · unfold stdRound
    rw [if_pos (by norm_num), Int.floor_eq_iff]
    constructor <;> norm_num

/-- The rounded price is an integer multiple of 5 within 2.5 of the price, and no integer
multiple of 5 is closer to the price. -/
theorem roundedPrice_nearest (flow : PassengerFlow) :
    (∃ k : Int, roundedPrice flow = 5 * (k : ℚ)) ∧
    |roundedPrice flow - flow.m_ticketPrice| ≤ 5 / 2 ∧
    ∀ j : Int, |roundedPrice flow - flow.m_ticketPrice| ≤ |5 * (j : ℚ) - flow.m_ticketPrice| := by
  obtain ⟨h1, h2⟩ := stdRound_nearest (flow.m_ticketPrice / 5)
  have hscale : ∀ j : Int, |(j : ℚ) * 5 - flow.m_ticketPrice| =
      5 * |(j : ℚ) - flow.m_ticketPrice / 5| := by
    intro j
    have h5 : (j : ℚ) * 5 - flow.m_ticketPrice = 5 * ((j : ℚ) - flow.m_ticketPrice / 5) := by
      ring
    rw [h5, abs_mul, abs_of_pos (by norm_num : (0 : ℚ) < 5)]
  refine ⟨⟨stdRound (flow.m_ticketPrice / 5), by unfold roundedPrice; ring⟩, ?_, fun j => ?_⟩
  · unfold roundedPrice
    rw [hscale]
    linarith
  · unfold roundedPrice
    rw [hscale, mul_comm (5 : ℚ) (j : ℚ), hscale]
    have := h2 j
    linarith

/-- A counted record's bucket is its rounded price. -/
theorem priceBucket_eq_some (dm : DataManager) (flow : PassengerFlow) (key : ℚ)
    (h : priceBucket dm flow = some key) : key = roundedPrice flow := by
  unfold priceBucket at h
  cases hs : dm.getStationById flow.m_stationId with
  | none => rw [hs] at h; cases h
  | some station =>
    rw [hs] at h
    simp only [] at h
    by_cases hc : station.m_name = "成都东站" ∨ station.m_name = "重庆北站" ∨
        station.m_name = "成都站"
    · rw [if_pos hc] at h
      exact (Option.some.inj h).symm
    · rw [if_neg hc] at h
      cases h

/-- The records counted by the two ticket price loops are the same. -/
theorem ticketTypeKey_isSome_iff (dm : DataManager) (flow : PassengerFlow) :
    (ticketTypeKey dm flow).isSome = (priceBucket dm flow).isSome := by
  unfold ticketTypeKey priceBucket
  cases dm.getStationById flow.m_stationId with
  | none => rfl
  | some station =>
    simp only []
    by_cases hc : station.m_name = "成都东站" ∨ station.m_name = "重庆北站" ∨
        station.m_name = "成都站"
    · rw [if_pos hc, if_pos hc]
      rfl
    · rw [if_neg hc, if_neg hc]
      rfl

/-- One more record in a keyed tally. -/
theorem tallyFlowsBy_append_singleton {K : Type} [LinearOrder K] [DecidableEq K]
    (key : PassengerFlow → Option K) (l : List PassengerFlow) (x : PassengerFlow) :
    tallyFlowsBy key (l ++ [x]) =
      match key x with
      | some k => QMap.update (tallyFlowsBy key l) k 0 (fun v => v + x.getTotalPassengers)
      | none => tallyFlowsBy key l := by
  simp [tallyFlowsBy, List.foldl_append]

/-- A keyed tally has ascending keys. -/
theorem tallyFlowsBy_sorted {K : Type} [LinearOrder K] [DecidableEq K]
    (key : PassengerFlow → Option K) (l : List PassengerFlow) :
    (tallyFlowsBy key l).Pairwise (fun a b => a.1 < b.1) := by
  induction l using List.reverseRecOn with
  | nil => simp [tallyFlowsBy]
  | append_singleton l x ih =>
    rw [tallyFlowsBy_append_singleton]
    cases key x with
    | none => exact ih
    | some k => exact QMap.update_sorted _ ih _ _ _

/-- The entry of a keyed tally: absent when no record has the key, otherwise the passenger
sum of the records with that key. -/
theorem tallyFlowsBy_lookup {K : Type} [LinearOrder K] [DecidableEq K]
    (key : PassengerFlow → Option K) (l : List PassengerFlow) (k : K) :
    QMap.lookup (tallyFlowsBy key l) k =
      if l.filter (fun x => decide (key x = some k)) = [] then none
      else some (((l.filter (fun x => decide (key x = some k))).map
        PassengerFlow.getTotalPassengers).sum) := by
  induction l using List.reverseRecOn with
  | nil => simp [tallyFlowsBy, QMap.lookup]
  | append_singleton l x ih =>
    rw [tallyFlowsBy_append_singleton, List.filter_append]
    cases hk : key x with
    | none =>
      simp only []
      have hx : [x].filter (fun x => decide (key x = some k)) = [] := by
        simp [List.filter_cons, hk]
      rw [hx, List.append_nil]
      exact ih
    | some k' =>
      simp only []
      rw [QMap.lookup_update _ (tallyFlowsBy_sorted key l)]
      by_cases hkk : k = k'
      · subst hkk
        have hx : [x].filter (fun x => decide (key x = some k)) = [x] := by
          simp [List.filter_cons, hk]
        rw [if_pos rfl, hx, if_neg (by simp), ih]
        by_cases he : l.filter (fun x => decide (key x = some k)) = []
        · rw [if_pos he, he]
          simp
        · rw [if_neg he]
          simp
      · have hx : [x].filter (fun x => decide (key x = some k)) = [] := by
          have : ¬ (some k' = some k) := fun e => hkk (Option.some.inj e).symm
          simp [List.filter_cons, hk, this]
        rw [if_neg hkk, hx, List.append_nil]
        exact ih

/-- Membership in a keyed tally. -/
theorem mem_tallyFlowsBy {K : Type} [LinearOrder K] [DecidableEq K]
    (key : PassengerFlow → Option K) (l : List PassengerFlow) (k : K) (v : Int) :
    (k, v) ∈ tallyFlowsBy key l ↔
      (∃ x ∈ l, key x = some k) ∧
      v = ((l.filter (fun x => decide (key x = some k))).map
        PassengerFlow.getTotalPassengers).sum := by
  rw [QMap.mem_iff_lookup _ (tallyFlowsBy_sorted key l), tallyFlowsBy_lookup]
  have hex : (∃ x ∈ l, key x = some k) ↔ l.filter (fun x => decide (key x = some k)) ≠ [] := by
    rw [Ne, List.filter_eq_nil_iff]
    push_neg
    constructor
    · rintro ⟨x, hx, hk⟩
      exact ⟨x, hx, by simpa using hk⟩
    · rintro ⟨x, hx, hk⟩
      exact ⟨x, hx, by simpa using hk⟩
  rw [hex]
  by_cases he : l.filter (fun x => decide (key x = some k)) = []
  · rw [if_pos he]
    simp [he]
  · rw [if_neg he]
    constructor
    · intro h
      exact ⟨he, (Option.some.inj h).symm⟩
    · rintro ⟨-, h⟩
      rw [h]

/-- One more record in the nested tally loop. -/
theorem nestedTally_append_singleton (key : PassengerFlow → Option String)
    (bucket : PassengerFlow → ℚ) (l : List PassengerFlow) (x : PassengerFlow) :
    (l ++ [x]).foldl (fun (analysis : QMap String (QMap ℚ Int)) flow =>
      match key flow with
      | some ticketType =>
        QMap.update analysis ticketType []
          (fun prices => QMap.update prices (bucket flow) 0
            (fun v => v + flow.getTotalPassengers))
      | none => analysis) [] =
    match key x with
    | some ticketType =>
      QMap.update (l.foldl (fun (analysis : QMap String (QMap ℚ Int)) flow =>
        match key flow with
        | some ticketType =>
          QMap.update analysis ticketType []
            (fun prices => QMap.update prices (bucket flow) 0
              (fun v => v + flow.getTotalPassengers))
        | none => analysis) []) ticketType []
        (fun prices => QMap.update prices (bucket x) 0 (fun v => v + x.getTotalPassengers))
    | none => l.foldl (fun (analysis : QMap String (QMap ℚ Int)) flow =>
        match key flow with
        | some ticketType =>
          QMap.update analysis ticketType []
            (fun prices => QMap.update prices (bucket flow) 0
              (fun v => v + flow.getTotalPassengers))
        | none => analysis) [] := by
  simp [List.foldl_append]

/-- The nested tally has ascending ticket types. -/
theorem nestedTally_sorted (key : PassengerFlow → Option String)
    (bucket : PassengerFlow → ℚ) (l : List PassengerFlow) :
    (l.foldl (fun (analysis : QMap String (QMap ℚ Int)) flow =>
      match key flow with
      | some ticketType =>
        QMap.update analysis ticketType []
          (fun prices => QMap.update prices (bucket flow) 0
            (fun v => v + flow.getTotalPassengers))
      | none => analysis) []).Pairwise (fun a b => a.1 < b.1) := by
  induction l using List.reverseRecOn with
  | nil => simp
  | append_singleton l x ih =>
    rw [nestedTally_append_singleton key bucket l x]
    cases key x with
    | none => exact ih
    | some k => exact QMap.update_sorted _ ih _ _ _

/-- The entry of the nested tally for a ticket type: absent when no record has the type,
otherwise the tally by rounded price of the records with that type. -/
theorem nestedTally_lookup (key : PassengerFlow → Option String)
    (bucket : PassengerFlow → ℚ) (l : List PassengerFlow) (t : String) :
    QMap.lookup (l.foldl (fun (analysis : QMap String (QMap ℚ Int)) flow =>
      match key flow with
      | some ticketType =>
        QMap.update analysis ticketType []
          (fun prices => QMap.update prices (bucket flow) 0
            (fun v => v + flow.getTotalPassengers))
      | none => analysis) []) t =
      if l.filter (fun x => decide (key x = some t)) = [] then none
      else some (tallyFlowsBy (fun x => some (bucket x))
        (l.filter (fun x => decide (key x = some t)))) := by
  induction l using List.reverseRecOn with
  | nil => simp [QMap.lookup]
  | append_singleton l x ih =>
    rw [nestedTally_append_singleton key bucket l x, List.filter_append]
    cases hk : key x with
    | none =>
      simp only []
      have hx : [x].filter (fun x => decide (key x = some t)) = [] := by
        simp [List.filter_cons, hk]
      rw [hx, List.append_nil]
      exact ih
    | some t' =>
      simp only []
      rw [QMap.lookup_update _ (nestedTally_sorted key bucket l)]
      by_cases htt : t = t'
      · subst htt
        have hx : [x].filter (fun x => decide (key x = some t)) = [x] := by
          simp [List.filter_cons, hk]
        rw [if_pos rfl, hx, if_neg (by simp), ih, tallyFlowsBy_append_singleton]
        simp only []
        by_cases he : l.filter (fun x => decide (key x = some t)) = []
        · rw [if_pos he, he]
          rfl
        · rw [if_neg he]
          rfl
      · have hx : [x].filter (fun x => decide (key x = some t)) = [] := by
          have : ¬ (some t' = some t) := fun e => htt (Option.some.inj e).symm
          simp [List.filter_cons, hk, this]
        rw [if_neg htt, hx, List.append_nil]
        exact ih

/-- C24: (1) the bucket key `roundedPrice` of every record is an integer multiple of 5
within 2.5 of the ticket price, no integer multiple of 5 is closer to the price, and it is
the key used by `getTicketPriceDistribution` for a counted record; (2) for a store with at
least one counted record, the entries of `getTicketPriceDistribution` are exactly the
buckets of the counted records, each with the sum of `totalPassengers` over the counted
records falling in that bucket; (3) the entries of `getTicketTypeAndPriceAnalysis` are
exactly the (ticket type, bucket) pairs of the counted records, each with the sum of
`totalPassengers` over the counted records with that type and bucket. -/
theorem price_buckets (dm : DataManager) (rnd : Nat → Nat) :
    (∀ flow : PassengerFlow,
      (∃ k : Int, roundedPrice flow = 5 * (k : ℚ)) ∧
      |roundedPrice flow - flow.m_ticketPrice| ≤ 5 / 2 ∧
      (∀ j : Int,
        |roundedPrice flow - flow.m_ticketPrice| ≤ |5 * (j : ℚ) - flow.m_ticketPrice|) ∧
      (∀ key : ℚ, priceBucket dm flow = some key → key = roundedPrice flow) ∧
      (ticketTypeKey dm flow).isSome = (priceBucket dm flow).isSome) ∧
    ((∃ flow ∈ dm.m_passengerFlows, (priceBucket dm flow).isSome = true) →
      ∀ (key : ℚ) (v : Int), (key, v) ∈ getTicketPriceDistribution dm rnd ↔
        (∃ flow ∈ dm.m_passengerFlows, priceBucket dm flow = some key) ∧
        v = ((dm.m_passengerFlows.filter
          (fun flow => decide (priceBucket dm flow = some key))).map
            PassengerFlow.getTotalPassengers).sum) ∧
    (∀ (ticketType : String) (key : ℚ) (v : Int),
      (∃ prices, (ticketType, prices) ∈ getTicketTypeAndPriceAnalysis dm ∧ (key, v) ∈ prices) ↔
        (∃ flow ∈ dm.m_passengerFlows,
          ticketTypeKey dm flow = some ticketType ∧ roundedPrice flow = key) ∧
        v = ((dm.m_passengerFlows.filter (fun flow =>
          decide (ticketTypeKey dm flow = some ticketType) &&
            decide (roundedPrice flow = key))).map PassengerFlow.getTotalPassengers).sum) := by
  refine ⟨fun flow => ?_, fun hex key v => ?_, fun ticketType key v => ?_⟩
  · obtain ⟨h1, h2, h3⟩ := roundedPrice_nearest flow
    exact ⟨h1, h2, h3, fun key h => priceBucket_eq_some dm flow key h,
      ticketTypeKey_isSome_iff dm flow⟩
  · have hne : tallyFlowsBy (priceBucket dm) dm.m_passengerFlows ≠ [] := by
      obtain ⟨flow, hmem, hsome⟩ := hex
      obtain ⟨k, hk⟩ := Option.isSome_iff_exists.1 hsome
      intro he
      have hin := (mem_tallyFlowsBy (priceBucket dm) dm.m_passengerFlows k _).2
        ⟨⟨flow, hmem, hk⟩, rfl⟩
      rw [he] at hin
      exact List.not_mem_nil _ hin
    have hres : getTicketPriceDistribution dm rnd =
        tallyFlowsBy (priceBucket dm) dm.m_passengerFlows := by
      unfold getTicketPriceDistribution
      simp only []
      rw [if_neg (by simpa using hne)]
    rw [hres]
    exact mem_tallyFlowsBy (priceBucket dm) dm.m_passengerFlows key v
  · have hsorted := nestedTally_sorted (ticketTypeKey dm) roundedPrice dm.m_passengerFlows
    have hlookup := nestedTally_lookup (ticketTypeKey dm) roundedPrice dm.m_passengerFlows
      ticketType
    have hfilter : (dm.m_passengerFlows.filter
        (fun x => decide (ticketTypeKey dm x = some ticketType))).filter
          (fun x => decide ((fun x => some (roundedPrice x)) x = some key)) =
        dm.m_passengerFlows.filter (fun flow =>
          decide (ticketTypeKey dm flow = some ticketType) &&
            decide (roundedPrice flow = key)) := by
      rw [List.filter_filter]
      apply List.filter_congr
      intro x _
      simp [Bool.and_comm]
    constructor
    · rintro ⟨prices, hp, hkv⟩
      unfold getTicketTypeAndPriceAnalysis at hp
      rw [QMap.mem_iff_lookup _ hsorted, hlookup] at hp
      by_cases he : dm.m_passengerFlows.filter
          (fun x => decide (ticketTypeKey dm x = some ticketType)) = []
      · rw [if_pos he] at hp
        cases hp
      · rw [if_neg he] at hp
        have hprices := (Option.some.inj hp).symm
        rw [hprices, mem_tallyFlowsBy, hfilter] at hkv
        obtain ⟨⟨x, hx, hxk⟩, hv⟩ := hkv
        rw [List.mem_filter] at hx
        exact ⟨⟨x, hx.1, by simpa using hx.2, Option.some.inj hxk⟩, hv⟩
    · rintro ⟨⟨x, hx, hxt, hxk⟩, hv⟩
      have hxf : x ∈ dm.m_passengerFlows.filter
          (fun x => decide (ticketTypeKey dm x = some ticketType)) := by
        rw [List.mem_filter]
        exact ⟨hx, by simpa using hxt⟩
      have he : dm.m_passengerFlows.filter
          (fun x => decide (ticketTypeKey dm x = some ticketType)) ≠ [] :=
        List.ne_nil_of_mem hxf
      refine ⟨tallyFlowsBy (fun x => some (roundedPrice x)) (dm.m_passengerFlows.filter
        (fun x => decide (ticketTypeKey dm x = some ticketType))), ?_, ?_⟩
      · unfold getTicketTypeAndPriceAnalysis
        rw [QMap.mem_iff_lookup _ hsorted, hlookup, if_neg he]
      · rw [mem_tallyFlowsBy, hfilter]
        exact ⟨⟨x, hxf, by rw [hxk]⟩, hv⟩

/-- The first record of the scenario B store is counted by the ticket price loops. -/
theorem storeB_counted_record :
    ∃ flow ∈ storeB.m_passengerFlows, (priceBucket storeB flow).isSome = true := by
  have h : storeB.m_passengerFlows.head? = some ⟨"CD-CQ", "G8501", 1695, 2457024,
      QTime.mk 8 0, QTime.mk 8 5, 60, 40, "adult", 80, 8000, "成都东站", "重庆北站"⟩ := by
    simp [storeB, DataManager.load, flowsB, List.range, List.range.loop,
      DataManager.addPassengerFlow, DataManager.addStation, DataManager.addTrain,
      DataManager.empty, stationChengduEast, QDate.isValid, QDate.minJd, QDate.maxJd]
  refine ⟨_, List.mem_of_mem_head? h, ?_⟩
  rw [← ticketTypeKey_isSome_iff]
  decide

/-- C24, witness: the scenario B store (ten records at 成都东站 with ticket price 80). -/
theorem price_buckets_witness :
    (∃ flow ∈ storeB.m_passengerFlows, (priceBucket storeB flow).isSome = true) ∧
    ∀ (key : ℚ) (v : Int), (key, v) ∈ getTicketPriceDistribution storeB (fun _ => 0) ↔
      (∃ flow ∈ storeB.m_passengerFlows, priceBucket storeB flow = some key) ∧
      v = ((storeB.m_passengerFlows.filter
        (fun flow => decide (priceBucket storeB flow = some key))).map
          PassengerFlow.getTotalPassengers).sum :=
  ⟨storeB_counted_record, (price_buckets storeB (fun _ => 0)).2.1 storeB_counted_record⟩

end RailwayAnalysis
